import Mathlib

/-!
Visitor session and analytics tracking pipeline.

A shallow embedding of `src/services/analyticsService.js` and of the time-spent
route of `src/routes/analytics.js`.

The backing store (three tables reached through the Supabase query builder) is an
explicit state, every service method is a function from a store to an outcome and
the store it leaves behind.  A store call never raises: it answers with a `data`
and an `error` field, and each method decides what it does with them.  The store
calls that report an error are chosen by a `Faults` record, so that the paths on
which the JavaScript inspects `error` and the paths on which it drops it are both
part of the model.
-/

namespace Docucloud

/-! ## Data model -/

/-- Error raised by a service method: an error object reported by the store client,
or the `Session not found` error of `trackEvent`. -/
inductive ServiceError where
  | store (detail : String)
  | sessionNotFound
  deriving DecidableEq, Repr

/-- The fields of a parsed user agent that the service reads: `ua.device.family`,
`ua.toAgent()` and `ua.os.toString()`. -/
structure ParsedUA where
  deviceFamily : String
  agent : String
  os : String
  deriving DecidableEq, Repr

/-- Row of the `visitor_sessions` table. `session_id` is the client token, `id` the
generated key. -/
structure Session where
  id : Nat
  session_id : String
  ip_address : Option String
  user_agent : Option String
  device_type : String
  browser : String
  os : String
  referrer : Option String
  landing_page : Option String
  exit_page : Option String
  page_views : Nat
  total_time_spent : Int
  submitted_inquiry : Bool
  inquiry_id : Option Nat
  last_seen : Nat
  deriving DecidableEq, Repr

/-- Row of the `page_views` table. `session_id` holds the generated key of the parent
session row. -/
structure PageView where
  id : Nat
  session_id : Nat
  page_url : String
  page_title : Option String
  screen_width : Option Int
  screen_height : Option Int
  viewport_width : Option Int
  viewport_height : Option Int
  viewed_at : Nat
  time_spent : Option Int
  deriving DecidableEq, Repr

/-- Row of the `events` table. -/
structure Event where
  id : Nat
  session_id : Nat
  event_name : String
  event_category : Option String
  event_label : Option String
  event_value : Option Int
  page_url : Option String
  metadata : Option String
  deriving DecidableEq, Repr

/-- The backing store: the three tables and the key generators of each. -/
structure Store where
  visitor_sessions : List Session
  page_views : List PageView
  events : List Event
  nextSessionId : Nat
  nextPageViewId : Nat
  nextEventId : Nat
  deriving DecidableEq, Repr

/-- The store before anything was recorded. -/
def Store.empty : Store :=
  { visitor_sessions := [], page_views := [], events := [],
    nextSessionId := 1, nextPageViewId := 1, nextEventId := 1 }

/-- Store calls that report an error, one field per query of the service; `none`
means the call goes through. A call that reports an error changes nothing and
carries no data. -/
structure Faults where
  selectSession : Option String
  insertSession : Option String
  insertPageView : Option String
  updateSession : Option String
  insertEvent : Option String
  selectPageView : Option String
  updatePageView : Option String
  deriving DecidableEq, Repr

/-- No store call reports an error. -/
def Faults.none : Faults :=
  { selectSession := Option.none, insertSession := Option.none,
    insertPageView := Option.none, updateSession := Option.none,
    insertEvent := Option.none, selectPageView := Option.none,
    updatePageView := Option.none }

/-- The second argument of `getOrCreateSession`. -/
structure Metadata where
  userAgent : Option String
  ipAddress : Option String
  referrer : Option String
  pageUrl : Option String
  deriving DecidableEq, Repr

/-- The second argument of `trackPageView`. -/
structure PageData where
  url : String
  title : Option String
  referrer : Option String
  screenWidth : Option Int
  screenHeight : Option Int
  viewportWidth : Option Int
  viewportHeight : Option Int
  userAgent : Option String
  ipAddress : Option String
  deriving DecidableEq, Repr

/-- The second argument of `trackEvent`. -/
structure EventData where
  name : String
  category : Option String
  label : Option String
  value : Option Int
  pageUrl : Option String
  metadata : Option String
  deriving DecidableEq, Repr

/-- The object a tracking method resolves to: `{ success: true }` or
`{ success: false }`. -/
structure OpResult where
  success : Bool
  deriving DecidableEq, Repr

/-! ## Store queries -/

/-- The `.single()` modifier of the query builder: the row when the result set has
exactly one row, no data for an empty set and for a set of several rows. -/
def single {α : Type} : List α → Option α
  | [a] => some a
  | _ => Option.none

/-- The rows selected by `.from('visitor_sessions').eq('session_id', sessionId)`. -/
def sessionsByToken (s : Store) (sessionId : String) : List Session :=
  s.visitor_sessions.filter (fun r => r.session_id = sessionId)

/-- The `data` field of
`.from('visitor_sessions').select(..).eq('session_id', sessionId).single()`. -/
def selectSession (F : Faults) (s : Store) (sessionId : String) : Option Session :=
  match F.selectSession with
  | some _ => Option.none
  | Option.none => single (sessionsByToken s sessionId)

/-- The classification of `getDeviceType`. -/
def getDeviceType (ua : ParsedUA) : String :=
  if ua.deviceFamily = "iPhone" ∨ ua.deviceFamily = "iPad" then "mobile"
  else if ua.deviceFamily ≠ "Other" then "mobile"
  else "desktop"

/-- Modelled from the spec: the column defaults of `visitor_sessions`, declared in a
schema file that is not among the sources. A new row starts with zero page views,
zero time spent and `submitted_inquiry = false`; the columns the insert does not
name (`exit_page`, `inquiry_id`) are null, the key is generated and `last_seen` is
the time of the insert. -/
def newSessionRow (parseUA : Option String → ParsedUA) (now id : Nat)
    (sessionId : String) (metadata : Metadata) : Session :=
  let ua := parseUA metadata.userAgent
  { id := id,
    session_id := sessionId,
    ip_address := metadata.ipAddress,
    user_agent := metadata.userAgent,
    device_type := getDeviceType ua,
    browser := ua.agent,
    os := ua.os,
    referrer := metadata.referrer,
    landing_page := metadata.pageUrl,
    exit_page := Option.none,
    page_views := 0,
    total_time_spent := 0,
    submitted_inquiry := false,
    inquiry_id := Option.none,
    last_seen := now }

/-- The store after `.from('visitor_sessions').insert([row])`. -/
def insertSessionRow (s : Store) (row : Session) : Store :=
  { s with visitor_sessions := s.visitor_sessions ++ [row],
           nextSessionId := s.nextSessionId + 1 }

/-- The store after `.from('visitor_sessions').update(..).eq('id', id)`, the update
being `f`. -/
def updateSessionsById (s : Store) (id : Nat) (f : Session → Session) : Store :=
  { s with visitor_sessions :=
      s.visitor_sessions.map (fun r => if r.id = id then f r else r) }

/-- The store after `.from('visitor_sessions').update(..).eq('session_id', sessionId)`. -/
def updateSessionsByToken (s : Store) (sessionId : String) (f : Session → Session) :
    Store :=
  { s with visitor_sessions :=
      s.visitor_sessions.map (fun r => if r.session_id = sessionId then f r else r) }

/-- The row `trackPageView` inserts into `page_views`; `viewed_at` is the time of the
insert and `time_spent` starts unset. -/
def newPageViewRow (now id : Nat) (session : Session) (pageData : PageData) : PageView :=
  { id := id,
    session_id := session.id,
    page_url := pageData.url,
    page_title := pageData.title,
    screen_width := pageData.screenWidth,
    screen_height := pageData.screenHeight,
    viewport_width := pageData.viewportWidth,
    viewport_height := pageData.viewportHeight,
    viewed_at := now,
    time_spent := Option.none }

/-- The store after `.from('page_views').insert([row])`. -/
def insertPageViewRow (s : Store) (row : PageView) : Store :=
  { s with page_views := s.page_views ++ [row],
           nextPageViewId := s.nextPageViewId + 1 }

/-- The row `trackEvent` inserts into `events`. -/
def newEventRow (id : Nat) (sessionKey : Nat) (eventData : EventData) : Event :=
  { id := id,
    session_id := sessionKey,
    event_name := eventData.name,
    event_category := eventData.category,
    event_label := eventData.label,
    event_value := eventData.value,
    page_url := eventData.pageUrl,
    metadata := eventData.metadata }

/-- The store after `.from('events').insert([row])`. -/
def insertEventRow (s : Store) (row : Event) : Store :=
  { s with events := s.events ++ [row], nextEventId := s.nextEventId + 1 }

/-- The rows selected by
`.from('page_views').eq('session_id', key).eq('page_url', pageUrl)`. -/
def pageViewsFor (s : Store) (key : Nat) (pageUrl : String) : List PageView :=
  s.page_views.filter (fun p => p.session_id = key ∧ p.page_url = pageUrl)

/-- The modifier `.order('viewed_at', { ascending: false })`. -/
def orderByViewedAtDesc (rows : List PageView) : List PageView :=
  rows.insertionSort (fun a b => a.viewed_at ≥ b.viewed_at)

/-- The `data` field of the query for the most recent page view of a session on a
page: `.order('viewed_at', { ascending: false }).limit(1).single()`. -/
def selectRecentPageView (F : Faults) (s : Store) (key : Nat) (pageUrl : String) :
    Option PageView :=
  match F.selectPageView with
  | some _ => Option.none
  | Option.none => single ((orderByViewedAtDesc (pageViewsFor s key pageUrl)).take 1)

/-- The store after `.from('page_views').update(..).eq('id', id)`, the update being
`f`. -/
def updatePageViewsById (s : Store) (id : Nat) (f : PageView → PageView) : Store :=
  { s with page_views := s.page_views.map (fun p => if p.id = id then f p else p) }

/-! ## Update objects -/

/-- The update of `trackPageView`: the counter read from `session` plus one, the
clock reading, and the page as exit page. -/
def pageViewUpdate (session : Session) (now : Nat) (url : String) (r : Session) : Session :=
  { r with page_views := session.page_views + 1, last_seen := now, exit_page := some url }

/-- The session update of `updateTimeSpent`: the total read from `session` plus the
reported duration, and the clock reading. -/
def timeSpentUpdate (session : Session) (now : Nat) (timeSpent : Int) (r : Session) :
    Session :=
  { r with total_time_spent := session.total_time_spent + timeSpent, last_seen := now }

/-- The page-view update of `updateTimeSpent`: `{ time_spent: timeSpent }`. -/
def pageTimeUpdate (timeSpent : Int) (p : PageView) : PageView :=
  { p with time_spent := some timeSpent }

/-- The update of `linkInquiryToSession`. -/
def inquiryUpdate (inquiryId : Nat) (r : Session) : Session :=
  { r with submitted_inquiry := true, inquiry_id := some inquiryId }

/-! ## Service methods -/

/-- The method `getOrCreateSession`. The lookup reads only `data`, so a lookup that
reports an error falls through to the insert like a lookup that found nothing. -/
def getOrCreateSession (parseUA : Option String → ParsedUA) (F : Faults) (now : Nat)
    (s : Store) (sessionId : String) (metadata : Metadata) :
    Except ServiceError Session × Store :=
  match selectSession F s sessionId with
  | some existing => (Except.ok existing, s)
  | Option.none =>
    match F.insertSession with
    | some e => (Except.error (ServiceError.store e), s)
    | Option.none =>
      let session := newSessionRow parseUA now s.nextSessionId sessionId metadata
      (Except.ok session, insertSessionRow s session)

/-- The method `trackPageView`. The result of the closing session update is not
inspected. -/
def trackPageView (parseUA : Option String → ParsedUA) (F : Faults) (now : Nat)
    (s : Store) (sessionId : String) (pageData : PageData) :
    Except ServiceError OpResult × Store :=
  match getOrCreateSession parseUA F now s sessionId
      { userAgent := pageData.userAgent, ipAddress := pageData.ipAddress,
        referrer := pageData.referrer, pageUrl := some pageData.url } with
  | (Except.error e, s1) => (Except.error e, s1)
  | (Except.ok session, s1) =>
    match F.insertPageView with
    | some e => (Except.error (ServiceError.store e), s1)
    | Option.none =>
      let s2 := insertPageViewRow s1 (newPageViewRow now s1.nextPageViewId session pageData)
      let s3 :=
        match F.updateSession with
        | some _ => s2
        | Option.none =>
          updateSessionsById s2 session.id (pageViewUpdate session now pageData.url)
      (Except.ok { success := true }, s3)

/-- The method `trackEvent`. -/
def trackEvent (F : Faults) (s : Store) (sessionId : String) (eventData : EventData) :
    Except ServiceError OpResult × Store :=
  match selectSession F s sessionId with
  | Option.none => (Except.error ServiceError.sessionNotFound, s)
  | some session =>
    match F.insertEvent with
    | some e => (Except.error (ServiceError.store e), s)
    | Option.none =>
      (Except.ok { success := true },
        insertEventRow s (newEventRow s.nextEventId session.id eventData))

/-- The method `updateTimeSpent`. None of its store calls has its `error` field
inspected. -/
def updateTimeSpent (F : Faults) (now : Nat) (s : Store) (sessionId : String)
    (pageUrl : String) (timeSpent : Int) : Except ServiceError OpResult × Store :=
  match selectSession F s sessionId with
  | Option.none => (Except.ok { success := false }, s)
  | some session =>
    let s1 :=
      match F.updateSession with
      | some _ => s
      | Option.none =>
        updateSessionsById s session.id (timeSpentUpdate session now timeSpent)
    match selectRecentPageView F s1 session.id pageUrl with
    | Option.none => (Except.ok { success := true }, s1)
    | some recentPageView =>
      let s2 :=
        match F.updatePageView with
        | some _ => s1
        | Option.none => updatePageViewsById s1 recentPageView.id (pageTimeUpdate timeSpent)
      (Except.ok { success := true }, s2)

/-- The method `linkInquiryToSession`. -/
def linkInquiryToSession (F : Faults) (s : Store) (sessionId : String) (inquiryId : Nat) :
    Except ServiceError OpResult × Store :=
  match F.updateSession with
  | some e => (Except.error (ServiceError.store e), s)
  | Option.none =>
    (Except.ok { success := true },
      updateSessionsByToken s sessionId (inquiryUpdate inquiryId))

/-! ## The time-spent route -/

/-- The fields the time-spent route reads from a JSON request body. `none` is a field
that is absent (`undefined`); the string fields hold strings and `timeSpent` an
integer when present. -/
structure TimeSpentBody where
  sessionId : Option String
  pageUrl : Option String
  timeSpent : Option Int
  deriving DecidableEq, Repr

/-- The response a route sends: the status code and the fields of the JSON body. -/
structure HttpResponse where
  status : Nat
  success : Bool
  message : Option String
  deriving DecidableEq, Repr

/-- The test `!v` on a body field that is absent or a string: absent and the empty
string are falsy. -/
def falsy : Option String → Bool
  | Option.none => true
  | some v => decide (v = "")

/-- The handler of `router.post('/time-spent')`: the response and the store it leaves.
The value `updateTimeSpent` resolves to is not read. -/
def timeSpentRoute (F : Faults) (now : Nat) (s : Store) (body : TimeSpentBody) :
    HttpResponse × Store :=
  match body.sessionId, body.pageUrl, body.timeSpent with
  | some sessionId, some pageUrl, some timeSpent =>
    if falsy (some sessionId) || falsy (some pageUrl) then
      ({ status := 400, success := false,
         message := some "Session ID, page URL, and time spent are required" }, s)
    else
      match updateTimeSpent F now s sessionId pageUrl timeSpent with
      | (Except.ok _, s1) => ({ status := 200, success := true, message := Option.none }, s1)
      | (Except.error _, s1) =>
        ({ status := 500, success := false, message := some "Tracking error" }, s1)
  | _, _, _ =>
    ({ status := 400, success := false,
       message := some "Session ID, page URL, and time spent are required" }, s)

/-! ## Sequential executions -/

/-- One call of a method of the analytics service. -/
inductive Op where
  | getOrCreateSession (sessionId : String) (metadata : Metadata)
  | trackPageView (sessionId : String) (pageData : PageData)
  | trackEvent (sessionId : String) (eventData : EventData)
  | updateTimeSpent (sessionId : String) (pageUrl : String) (timeSpent : Int)
  | linkInquiryToSession (sessionId : String) (inquiryId : Nat)
  | getSummary (days : Int)
  deriving DecidableEq, Repr

/-- A call together with the clock reading at which it runs and the store calls that
report an error during it. -/
structure Call where
  faults : Faults
  now : Nat
  op : Op
  deriving DecidableEq, Repr

/-- The store a call leaves behind. `getSummary` issues three `select` queries on the
reporting views and no write, so it leaves the store as it found it. -/
def Call.exec (parseUA : Option String → ParsedUA) (s : Store) (c : Call) : Store :=
  match c.op with
  | Op.getOrCreateSession t m => (getOrCreateSession parseUA c.faults c.now s t m).2
  | Op.trackPageView t pd => (trackPageView parseUA c.faults c.now s t pd).2
  | Op.trackEvent t ed => (trackEvent c.faults s t ed).2
  | Op.updateTimeSpent t u d => (updateTimeSpent c.faults c.now s t u d).2
  | Op.linkInquiryToSession t q => (linkInquiryToSession c.faults s t q).2
  | Op.getSummary _ => s

/-- Sequential execution: each call runs to completion on the store left by the one
before it. -/
def run (parseUA : Option String → ParsedUA) (s : Store) (calls : List Call) : Store :=
  calls.foldl (Call.exec parseUA) s

/-- The calls `trackPageView(sessionId, pageData)` for a list of clock readings and
page data, none of them meeting a store error. -/
def pageViewCalls (sessionId : String) (views : List (Nat × PageData)) : List Call :=
  views.map (fun v =>
    { faults := Faults.none, now := v.1, op := Op.trackPageView sessionId v.2 })

/-! ## Store predicates -/

/-- The PageView rows linked to the session row with key `key`. -/
def linkedPageViews (s : Store) (key : Nat) : List PageView :=
  s.page_views.filter (fun p => p.session_id = key)

/-- The key constraints of the store: generated keys are distinct within a table and
lie below the generator of the table, and every PageView row refers to a session
row. -/
def Store.WF (s : Store) : Prop :=
  (s.visitor_sessions.map (fun r => r.id)).Nodup ∧
  (∀ r ∈ s.visitor_sessions, r.id < s.nextSessionId) ∧
  (s.page_views.map (fun p => p.id)).Nodup ∧
  (∀ p ∈ s.page_views, p.id < s.nextPageViewId) ∧
  (∀ p ∈ s.page_views, ∃ r ∈ s.visitor_sessions, r.id = p.session_id)

instance (s : Store) : Decidable s.WF := by
  unfold Store.WF
  infer_instance

/-- The counter of every session row equals the number of PageView rows linked to
it. -/
def Store.CountInv (s : Store) : Prop :=
  ∀ r ∈ s.visitor_sessions, r.page_views = (linkedPageViews s r.id).length

instance (s : Store) : Decidable s.CountInv := by
  unfold Store.CountInv
  infer_instance

/-- The order of `.order('viewed_at', { ascending: false })` compares any two rows. -/
instance viewedAtDesc_total : IsTotal PageView (fun a b => a.viewed_at ≥ b.viewed_at) :=
  ⟨fun a b => Nat.le_total b.viewed_at a.viewed_at⟩

/-- The order of `.order('viewed_at', { ascending: false })` is transitive. -/
instance viewedAtDesc_trans : IsTrans PageView (fun a b => a.viewed_at ≥ b.viewed_at) :=
  ⟨fun _ _ _ hab hbc => Nat.le_trans hbc hab⟩

/-! ## Sample data -/

/-- A user-agent parser that recognises nothing, as the library does for a missing
header. -/
def sampleParseUA : Option String → ParsedUA :=
  fun _ => { deviceFamily := "Other", agent := "Other 0.0.0", os := "Other 0.0.0" }

/-- Page data that carries a URL only. -/
def samplePage (url : String) : PageData :=
  { url := url, title := Option.none, referrer := Option.none, screenWidth := Option.none,
    screenHeight := Option.none, viewportWidth := Option.none,
    viewportHeight := Option.none, userAgent := Option.none, ipAddress := Option.none }

/-- The session row of token `s1` after three page views and twenty seconds. -/
def sampleSession : Session :=
  { id := 1, session_id := "s1", ip_address := Option.none, user_agent := Option.none,
    device_type := "desktop", browser := "Other 0.0.0", os := "Other 0.0.0",
    referrer := Option.none, landing_page := some "/home", exit_page := some "/pricing",
    page_views := 3, total_time_spent := 20, submitted_inquiry := false,
    inquiry_id := Option.none, last_seen := 12 }

/-- A page view of the sample session. -/
def samplePageView (id : Nat) (url : String) (viewedAt : Nat) (spent : Option Int) : PageView :=
  { id := id, session_id := 1, page_url := url, page_title := Option.none,
    screen_width := Option.none, screen_height := Option.none,
    viewport_width := Option.none, viewport_height := Option.none,
    viewed_at := viewedAt, time_spent := spent }

/-- A store with one session that viewed `/home` once and `/pricing` twice. -/
def sampleStore : Store :=
  { visitor_sessions := [sampleSession],
    page_views := [samplePageView 1 "/home" 10 Option.none,
                   samplePageView 2 "/pricing" 11 (some 20),
                   samplePageView 3 "/pricing" 12 Option.none],
    events := [],
    nextSessionId := 2, nextPageViewId := 4, nextEventId := 1 }

/-- A sequential execution on two tokens that uses every method. -/
def sampleCalls : List Call :=
  [ { faults := Faults.none, now := 20, op := Op.trackPageView "s2" (samplePage "/home") },
    { faults := Faults.none, now := 21, op := Op.trackEvent "s2"
        { name := "button_click", category := some "engagement", label := Option.none,
          value := Option.none, pageUrl := some "/home", metadata := Option.none } },
    { faults := Faults.none, now := 22, op := Op.trackPageView "s1" (samplePage "/contact") },
    { faults := Faults.none, now := 23, op := Op.updateTimeSpent "s1" "/contact" 7 },
    { faults := Faults.none, now := 24, op := Op.linkInquiryToSession "s1" 5 },
    { faults := Faults.none, now := 25,
      op := Op.getOrCreateSession "s3"
        { userAgent := Option.none, ipAddress := Option.none, referrer := Option.none,
          pageUrl := Option.none } },
    { faults := Faults.none, now := 26, op := Op.getSummary 30 } ]

/-! ## The page-view and event routes -/

/-- What the page-view route reads from a request: the fields of the JSON body, the
`user-agent` header and `req.ip`. `none` is a field that is absent (`undefined`); the
string fields hold strings and the dimensions integers when present. -/
structure PageViewRequest where
  sessionId : Option String
  url : Option String
  title : Option String
  referrer : Option String
  screenWidth : Option Int
  screenHeight : Option Int
  viewportWidth : Option Int
  viewportHeight : Option Int
  userAgent : Option String
  ip : Option String
  deriving DecidableEq, Repr

/-- The handler of `router.post('/pageview')`: the response and the store it leaves. -/
def pageViewRoute (parseUA : Option String → ParsedUA) (F : Faults) (now : Nat) (s : Store)
    (req : PageViewRequest) : HttpResponse × Store :=
  match req.sessionId, req.url with
  | some sessionId, some url =>
    if falsy (some sessionId) || falsy (some url) then
      ({ status := 400, success := false,
         message := some "Session ID and URL are required" }, s)
    else
      match trackPageView parseUA F now s sessionId
          { url := url, title := req.title, referrer := req.referrer,
            screenWidth := req.screenWidth, screenHeight := req.screenHeight,
            viewportWidth := req.viewportWidth, viewportHeight := req.viewportHeight,
            userAgent := req.userAgent, ipAddress := req.ip } with
      | (Except.ok _, s1) => ({ status := 200, success := true, message := Option.none }, s1)
      | (Except.error _, s1) =>
        ({ status := 500, success := false, message := some "Tracking error" }, s1)
  | _, _ =>
    ({ status := 400, success := false,
       message := some "Session ID and URL are required" }, s)

/-- The fields the event route reads from a JSON request body. -/
structure EventBody where
  sessionId : Option String
  name : Option String
  category : Option String
  label : Option String
  value : Option Int
  pageUrl : Option String
  metadata : Option String
  deriving DecidableEq, Repr

/-- The handler of `router.post('/event')`: the response and the store it leaves. -/
def eventRoute (F : Faults) (s : Store) (body : EventBody) : HttpResponse × Store :=
  match body.sessionId, body.name with
  | some sessionId, some name =>
    if falsy (some sessionId) || falsy (some name) then
      ({ status := 400, success := false,
         message := some "Session ID and event name are required" }, s)
    else
      match trackEvent F s sessionId
          { name := name, category := body.category, label := body.label,
            value := body.value, pageUrl := body.pageUrl, metadata := body.metadata } with
      | (Except.ok _, s1) => ({ status := 200, success := true, message := Option.none }, s1)
      | (Except.error _, s1) =>
        ({ status := 500, success := false, message := some "Tracking error" }, s1)
  | _, _ =>
    ({ status := 400, success := false,
       message := some "Session ID and event name are required" }, s)

/-! ## The summary -/

/-- The characters `parseInt` skips at the start of its input: the white space and line
terminator code points of ECMAScript. -/
def isStrWhiteSpace (c : Char) : Bool :=
  let n := c.toNat
  n = 0x09 || n = 0x0A || n = 0x0B || n = 0x0C || n = 0x0D || n = 0x20 || n = 0xA0 ||
  n = 0x1680 || (0x2000 ≤ n && n ≤ 0x200A) || n = 0x2028 || n = 0x2029 || n = 0x202F ||
  n = 0x205F || n = 0x3000 || n = 0xFEFF

/-- The value of a character as a digit: `0` to `9`, then the letters of either case
from ten on. -/
def digitValue (c : Char) : Option Nat :=
  let n := c.toNat
  if 48 ≤ n ∧ n ≤ 57 then some (n - 48)
  else if 97 ≤ n ∧ n ≤ 122 then some (n - 97 + 10)
  else if 65 ≤ n ∧ n ≤ 90 then some (n - 65 + 10)
  else Option.none

/-- The values of the longest run of digits of the radix at the start of the input. -/
def radixDigits (radix : Nat) : List Char → List Nat
  | [] => []
  | c :: cs =>
    match digitValue c with
    | some d => if d < radix then d :: radixDigits radix cs else []
    | Option.none => []

/-- The number a list of digit values denotes in the radix. -/
def digitsValue (radix : Nat) (ds : List Nat) : Nat :=
  ds.foldl (fun acc d => acc * radix + d) 0

/-- The sign `parseInt` reads and the input after it. -/
def readSign : List Char → Bool × List Char
  | c :: cs => if c = '-' then (true, cs) else if c = '+' then (false, cs) else (false, c :: cs)
  | [] => (false, [])

/-- The radix `parseInt` settles on when it is given none, and the input after the
`0x` or `0X` that selects sixteen. -/
def readRadix : List Char → Nat × List Char
  | c :: d :: cs =>
    if c = '0' ∧ (d = 'x' ∨ d = 'X') then (16, cs) else (10, c :: d :: cs)
  | cs => (10, cs)

/-- The function `parseInt` of the language on a string, without a radix argument:
leading white space is skipped, a sign is read, then the longest run of digits;
`none` is `NaN`. The value is the exact integer (the language rounds integers beyond
2^53 to a double). -/
def parseIntChars (cs : List Char) : Option Int :=
  let signed := readSign (cs.dropWhile isStrWhiteSpace)
  let based := readRadix signed.2
  let ds := radixDigits based.1 based.2
  if ds = [] then Option.none
  else if signed.1 then some (-(digitsValue based.1 ds : Int))
  else some (digitsValue based.1 ds : Int)

/-- The call `parseInt(req.query.days)`: the query parameter is absent or a string. An
absent parameter is `undefined`, which reads as the text `undefined` and has no
digit. -/
def parseInt : Option String → Option Int
  | Option.none => Option.none
  | some v => parseIntChars v.toList

/-- The window `parseInt(req.query.days) || 30` that the summary route passes to
`getSummary`: `NaN` and zero are falsy. -/
def summaryDays (days : Option String) : Int :=
  match parseInt days with
  | Option.none => 30
  | some n => if n = 0 then 30 else n

/-- Row of the view `daily_visitor_stats`: its date as a day number, and the other
columns, which the service does not read. -/
structure DailyStat where
  date : Int
  columns : String
  deriving DecidableEq, Repr

/-- Row of the view `top_pages`. -/
structure TopPage where
  columns : String
  deriving DecidableEq, Repr

/-- Row of the view `traffic_sources`. -/
structure TrafficSource where
  columns : String
  deriving DecidableEq, Repr

/-- The three reporting views. They are declared in a schema file that is not among
the sources, so the rows each of them shows for a state of the tables are a
parameter. -/
structure ReportingViews where
  daily_visitor_stats : Store → List DailyStat
  top_pages : Store → List TopPage
  traffic_sources : Store → List TrafficSource

/-- The queries of `getSummary` that report an error, one field per query. -/
structure SummaryFaults where
  selectStats : Option String
  selectTopPages : Option String
  selectSources : Option String
  deriving DecidableEq, Repr

/-- No query of `getSummary` reports an error. -/
def SummaryFaults.none : SummaryFaults :=
  { selectStats := Option.none, selectTopPages := Option.none,
    selectSources := Option.none }

/-- The object `getSummary` resolves to; a field is `none` when the `data` of its query
is null. -/
structure Summary where
  stats : Option (List DailyStat)
  topPages : Option (List TopPage)
  sources : Option (List TrafficSource)
  deriving DecidableEq, Repr

/-- The modifier `.order('date', { ascending: false })`. -/
def orderByDateDesc (rows : List DailyStat) : List DailyStat :=
  rows.insertionSort (fun a b => a.date ≥ b.date)

/-- The order of `.order('date', { ascending: false })` compares any two rows. -/
instance dateDesc_total : IsTotal DailyStat (fun a b => a.date ≥ b.date) :=
  ⟨fun a b => Int.le_total b.date a.date⟩

/-- The order of `.order('date', { ascending: false })` is transitive. -/
instance dateDesc_trans : IsTrans DailyStat (fun a b => a.date ≥ b.date) :=
  ⟨fun _ _ _ hab hbc => Int.le_trans hbc hab⟩

/-- The method `getSummary`. `today` is the day number of the clock reading and the
start of the window is `days` days before it; the three queries are `select`s, and
only their `data` is read. -/
def getSummary (V : ReportingViews) (F : SummaryFaults) (today : Int) (s : Store)
    (days : Int) : Except ServiceError Summary × Store :=
  let startDate := today - days
  let stats :=
    match F.selectStats with
    | some _ => Option.none
    | Option.none =>
      some (orderByDateDesc ((V.daily_visitor_stats s).filter (fun r => startDate ≤ r.date)))
  let topPages :=
    match F.selectTopPages with
    | some _ => Option.none
    | Option.none => some ((V.top_pages s).take 10)
  let sources :=
    match F.selectSources with
    | some _ => Option.none
    | Option.none => some (V.traffic_sources s)
  (Except.ok { stats := stats, topPages := topPages, sources := sources }, s)

/-- The response of the summary route: the status code and the fields of the JSON
body. -/
structure SummaryResponse where
  status : Nat
  success : Bool
  message : Option String
  data : Option Summary
  deriving DecidableEq, Repr

/-- The handler of `router.get('/summary')`: the response and the store it leaves. -/
def summaryRoute (V : ReportingViews) (F : SummaryFaults) (today : Int) (s : Store)
    (days : Option String) : SummaryResponse × Store :=
  match getSummary V F today s (summaryDays days) with
  | (Except.ok summary, s1) =>
    ({ status := 200, success := true, message := Option.none, data := some summary }, s1)
  | (Except.error _, s1) =>
    ({ status := 500, success := false, message := some "Error fetching analytics",
       data := Option.none }, s1)

/-! ## One row per token -/

/-- At most one session row per token: the tokens of the rows are pairwise distinct. -/
def Store.UniqueTokens (s : Store) : Prop :=
  (s.visitor_sessions.map (fun r => r.session_id)).Nodup

instance (s : Store) : Decidable s.UniqueTokens := by
  unfold Store.UniqueTokens
  infer_instance

/-! ## More sample data -/

/-- Store calls of which only the session lookup reports an error. -/
def sampleLookupFault : Faults :=
  { selectSession := some "timeout", insertSession := Option.none,
    insertPageView := Option.none, updateSession := Option.none,
    insertEvent := Option.none, selectPageView := Option.none,
    updatePageView := Option.none }

/-- Store calls of which only the session insert reports an error. -/
def sampleInsertFault : Faults :=
  { selectSession := Option.none, insertSession := some "timeout",
    insertPageView := Option.none, updateSession := Option.none,
    insertEvent := Option.none, selectPageView := Option.none,
    updatePageView := Option.none }

/-- Store calls of which only the page-view insert reports an error. -/
def samplePageViewFault : Faults :=
  { selectSession := Option.none, insertSession := Option.none,
    insertPageView := some "timeout", updateSession := Option.none,
    insertEvent := Option.none, selectPageView := Option.none,
    updatePageView := Option.none }

/-- Metadata of a request for the page `/home` without headers. -/
def sampleMetadata : Metadata :=
  { userAgent := Option.none, ipAddress := Option.none, referrer := Option.none,
    pageUrl := some "/home" }

/-- A page-view request that carries the two required fields only. -/
def samplePageViewRequest (sessionId url : Option String) : PageViewRequest :=
  { sessionId := sessionId, url := url, title := Option.none, referrer := Option.none,
    screenWidth := Option.none, screenHeight := Option.none,
    viewportWidth := Option.none, viewportHeight := Option.none,
    userAgent := Option.none, ip := Option.none }

/-- An event request body that carries the two required fields only. -/
def sampleEventBody (sessionId name : Option String) : EventBody :=
  { sessionId := sessionId, name := name, category := Option.none, label := Option.none,
    value := Option.none, pageUrl := Option.none, metadata := Option.none }

/-- Event data with every field set. -/
def sampleEventData : EventData :=
  { name := "button_click", category := some "engagement", label := some "Get a quote",
    value := some 1, pageUrl := some "/pricing", metadata := some "\x7b\"plan\":\"pro\"\x7d" }

/-- Reporting views that show the same rows for every state of the tables: four daily
rows around day 1000 and twelve top pages. -/
def sampleViews : ReportingViews :=
  { daily_visitor_stats := fun _ =>
      [ { date := 969, columns := "a" }, { date := 1000, columns := "b" },
        { date := 970, columns := "c" }, { date := 985, columns := "d" } ],
    top_pages := fun _ =>
      (List.range 12).map (fun i => { columns := toString i }),
    traffic_sources := fun _ => [ { columns := "direct" }, { columns := "search" } ] }

/-! ## Inquiry validation -/

/-- The property `length` of a string of the language: the number of its UTF-16 code
units, two for a character beyond the basic plane. -/
def jsLength (v : String) : Nat :=
  v.toList.foldl (fun n c => n + (if c.toNat < 0x10000 then 1 else 2)) 0

/-- The classes of characters the email pattern tells apart: what `\s` matches, the
character `@`, the character `.`, and every other character. -/
inductive EmailChar where
  | space
  | atSign
  | dot
  | other
  deriving DecidableEq, Repr

/-- The class of a character. -/
def classifyEmailChar (c : Char) : EmailChar :=
  if isStrWhiteSpace c then EmailChar.space
  else if c = '@' then EmailChar.atSign
  else if c = '.' then EmailChar.dot
  else EmailChar.other

/-- The character class `[^\s@]` of the email pattern: a dot or another character. -/
def emailPlainChar : RegularExpression EmailChar :=
  RegularExpression.char EmailChar.dot + RegularExpression.char EmailChar.other

/-- The repetition `[^\s@]+` of the email pattern. -/
def emailPlainRun : RegularExpression EmailChar :=
  emailPlainChar * RegularExpression.star emailPlainChar

/-- The pattern `/^[^\s@]+@[^\s@]+\.[^\s@]+$/` of `validateInquiry` and of
`validateForm`, over the classes of characters. -/
def emailRegex : RegularExpression EmailChar :=
  emailPlainRun * RegularExpression.char EmailChar.atSign * emailPlainRun *
    RegularExpression.char EmailChar.dot * emailPlainRun

/-- The call `emailRegex.test(email)`: the pattern is anchored at both ends, so the
test holds when the whole string is in the language of the pattern. -/
def emailRegexTest (email : String) : Bool :=
  emailRegex.rmatch (email.toList.map classifyEmailChar)

/-- The description of the email pattern in words: no white space, exactly one `@`, a
non-empty part before the `@`, and after the `@` a part that holds a `.` which is
neither its first nor its last character. -/
def EmailShape (cs : List Char) : Prop :=
  (∀ c ∈ cs, isStrWhiteSpace c = false) ∧ cs.count '@' = 1 ∧
    ∃ before after, cs = before ++ '@' :: after ∧ before ≠ [] ∧
      ∃ u v, after = u ++ '.' :: v ∧ u ≠ [] ∧ v ≠ []

/-- The fields of the JSON body of an inquiry submission, which are also the fields of
the object the form handler builds from the form. `none` is a field that is absent
(`undefined` or `null`); a field that is present holds a string. What the middleware
does with a field that holds another value is the subject of `JsValue.validateInquiry`. -/
structure InquiryBody where
  name : Option String
  email : Option String
  phone : Option String
  company : Option String
  message : Option String
  source : Option String
  sessionId : Option String
  deriving DecidableEq, Repr

/-- What a middleware does with a request: it calls `next`, or it sends a response and
does not call `next`. -/
inductive Validation where
  | next
  | respond (response : HttpResponse)
  deriving DecidableEq, Repr

/-- The middleware `validateInquiry`. -/
def validateInquiry (body : InquiryBody) : Validation :=
  match body.name, body.email, body.message with
  | some name, some email, some message =>
    if falsy (some name) || falsy (some email) || falsy (some message) then
      Validation.respond
        { status := 400, success := false,
          message := some "Name, email, and message are required." }
    else if !emailRegexTest email then
      Validation.respond
        { status := 400, success := false,
          message := some "Please provide a valid email address." }
    else if jsLength name < 2 || jsLength name > 255 then
      Validation.respond
        { status := 400, success := false,
          message := some "Name must be between 2 and 255 characters." }
    else if jsLength message < 10 then
      Validation.respond
        { status := 400, success := false,
          message := some "Message must be at least 10 characters long." }
    else Validation.next
  | _, _, _ =>
    Validation.respond
      { status := 400, success := false,
        message := some "Name, email, and message are required." }

/-- The value `FormHandler.validateForm` returns for the object built from the form;
marking the fields in the page is left out. -/
def validateForm (data : InquiryBody) : Bool :=
  let nameBad :=
    match data.name with
    | Option.none => true
    | some name => falsy (some name) || decide (jsLength name < 2)
  let emailBad :=
    match data.email with
    | Option.none => true
    | some email => falsy (some email) || !emailRegexTest email
  let messageBad :=
    match data.message with
    | Option.none => true
    | some message => falsy (some message) || decide (jsLength message < 10)
  !nameBad && !emailBad && !messageBad

/-! ## Inquiry validation on field values that are not strings -/

/-- A value a field of the parsed JSON body of a request may hold, arrays and objects
left out: the field is absent (`undefined`), or it holds `null`, a boolean, a whole
number or a string. -/
inductive JsValue where
  | undefined
  | null
  | bool (b : Bool)
  | number (n : Int)
  | string (s : String)
  deriving DecidableEq, Repr

/-- The value of a field that is absent or a string. -/
def JsValue.ofField : Option String → JsValue
  | Option.none => JsValue.undefined
  | some s => JsValue.string s

/-- The test `!v`: `undefined`, `null`, `false`, `0` and the empty string are falsy. -/
def JsValue.falsy : JsValue → Bool
  | JsValue.undefined => true
  | JsValue.null => true
  | JsValue.bool b => !b
  | JsValue.number n => decide (n = 0)
  | JsValue.string s => decide (s = "")

/-- The string `emailRegex.test(v)` matches against: the conversion of `v` to a string,
which writes a whole number in decimal digits. -/
def JsValue.toJsString : JsValue → String
  | JsValue.undefined => "undefined"
  | JsValue.null => "null"
  | JsValue.bool true => "true"
  | JsValue.bool false => "false"
  | JsValue.number n => toString n
  | JsValue.string s => s

/-- The property `v.length` of a value that passed the test `!v`: the length of a
string, and `undefined` (here `none`) for a number or a boolean, which have no such
property. -/
def JsValue.length : JsValue → Option Nat
  | JsValue.string s => some (jsLength s)
  | _ => Option.none

/-- The comparison `len < n` of a length that may be `undefined`: `undefined` converts
to `NaN`, and every comparison with `NaN` is false. -/
def lengthBelow (len : Option Nat) (n : Nat) : Bool :=
  match len with
  | some k => decide (k < n)
  | Option.none => false

/-- The comparison `len > n` of a length that may be `undefined`. -/
def lengthAbove (len : Option Nat) (n : Nat) : Bool :=
  match len with
  | some k => decide (k > n)
  | Option.none => false

/-- The middleware `validateInquiry` on the values `req.body` holds for `name`, `email`
and `message`, strings or not: the same four checks in the same order, none of which
tests the type of a value. -/
def JsValue.validateInquiry (name email message : JsValue) : Validation :=
  if name.falsy || email.falsy || message.falsy then
    Validation.respond
      { status := 400, success := false,
        message := some "Name, email, and message are required." }
  else if !emailRegexTest email.toJsString then
    Validation.respond
      { status := 400, success := false,
        message := some "Please provide a valid email address." }
  else if lengthBelow name.length 2 || lengthAbove name.length 255 then
    Validation.respond
      { status := 400, success := false,
        message := some "Name must be between 2 and 255 characters." }
  else if lengthBelow message.length 10 then
    Validation.respond
      { status := 400, success := false,
        message := some "Message must be at least 10 characters long." }
  else Validation.next

/-! ## Lead score of the superseded server -/

/-- The argument of `calculateLeadScore` of `_old_backup/server-old.js`: the fields it
reads, each absent or a string. -/
structure LeadData where
  company : Option String
  phone : Option String
  message : Option String
  source : Option String
  referrer : Option String
  deriving DecidableEq, Repr

/-- Whether the first list of characters starts with the second. -/
def startsWithChars : List Char → List Char → Bool
  | _, [] => true
  | [], _ :: _ => false
  | c :: cs, d :: ds => c = d && startsWithChars cs ds

/-- Whether the second list of characters occurs in the first. -/
def includesChars : List Char → List Char → Bool
  | [], sub => startsWithChars [] sub
  | c :: cs, sub => startsWithChars (c :: cs) sub || includesChars cs sub

/-- The method `includes` of a string. -/
def jsIncludes (v sub : String) : Bool :=
  includesChars v.toList sub.toList

/-- The test `field && field.length > n` on a field that is absent or a string. -/
def longerThan (field : Option String) (n : Nat) : Bool :=
  match field with
  | Option.none => false
  | some v => !falsy (some v) && decide (jsLength v > n)

/-- The score `calculateLeadScore` has added up before it applies the cap. -/
def leadScoreSum (data : LeadData) : Nat :=
  let score := 0
  let score := if longerThan data.company 0 then score + 10 else score
  let score := if longerThan data.phone 0 then score + 15 else score
  let score := if longerThan data.message 50 then score + 20 else score
  let score := if longerThan data.message 200 then score + 10 else score
  let score := if data.source = some "direct" then score + 25 else score
  let score :=
    match data.referrer with
    | Option.none => score
    | some referrer =>
      if !falsy (some referrer) && jsIncludes referrer "google" then score + 10 else score
  score

/-- The function `calculateLeadScore`: the sum, capped by `Math.min(score, 100)`. -/
def calculateLeadScore (data : LeadData) : Nat :=
  min (leadScoreSum data) 100

/-! ## The timer of the client tracking agent -/

/-- The state of the `Analytics` object of the page that the time-spent reports read:
`pageLoadTime`, a clock reading in milliseconds. -/
structure ClientTimer where
  pageLoadTime : Int
  deriving DecidableEq, Repr

/-- The `timeSpent` field of the report `sendTimeSpent` posts at clock reading `now`:
the whole seconds since `pageLoadTime`; nothing is posted unless they are positive. -/
def sendTimeSpent (a : ClientTimer) (now : Int) : Option Int :=
  let timeSpent := (now - a.pageLoadTime) / 1000
  if timeSpent > 0 then some timeSpent else Option.none

/-- What happens to the timer of a loaded page: the page is left (`beforeunload`), or
the 30-second interval fires; the callback of the interval reads the clock twice, in
`sendTimeSpent` and for the reset. -/
inductive ClientEvent where
  | beforeUnload (now : Int)
  | intervalTick (now : Int) (resetAt : Int)
  deriving DecidableEq, Repr

/-- The handlers `init` registers: the report posted, if any, and the state left. The
interval callback is `this.sendTimeSpent(); this.pageLoadTime = Date.now()`. -/
def clientStep (a : ClientTimer) : ClientEvent → Option Int × ClientTimer
  | ClientEvent.beforeUnload now => (sendTimeSpent a now, a)
  | ClientEvent.intervalTick now resetAt => (sendTimeSpent a now, { pageLoadTime := resetAt })

/-- The reports posted along a list of events, in order, and the state left. -/
def clientRun (a : ClientTimer) : List ClientEvent → List (Option Int) × ClientTimer
  | [] => ([], a)
  | e :: es =>
    let first := clientStep a e
    let rest := clientRun first.2 es
    (first.1 :: rest.1, rest.2)

/-- Whether an event is a tick of the 30-second interval. -/
def ClientEvent.isTick : ClientEvent → Bool
  | ClientEvent.beforeUnload _ => false
  | ClientEvent.intervalTick _ _ => true

/-- The clock reading the timer counts from after a list of events: the reset of the
last interval tick, or the given start when there was none. -/
def lastReset (start : Int) : List ClientEvent → Int
  | [] => start
  | ClientEvent.beforeUnload _ :: es => lastReset start es
  | ClientEvent.intervalTick _ resetAt :: es => lastReset resetAt es

/-! ## Inquiries -/

/-- Row of the `inquiries` table with the columns `createInquiry` writes. -/
structure Inquiry where
  id : Nat
  name : Option String
  email : Option String
  phone : Option String
  company : Option String
  message : Option String
  source : String
  referrer : Option String
  status : String
  deriving DecidableEq, Repr

/-- The two notification emails of an inquiry. -/
inductive EmailKind where
  | adminNotification
  | customerConfirmation
  deriving DecidableEq, Repr

/-- An email the mail provider accepted. -/
structure Email where
  kind : EmailKind
  inquiry : Inquiry
  deriving DecidableEq, Repr

/-- The state the inquiry side works on: the analytics store, the `inquiries` table
with its key generator, and the emails the mail provider accepted. -/
structure Site where
  store : Store
  inquiries : List Inquiry
  nextInquiryId : Nat
  outbox : List Email
  deriving DecidableEq, Repr

/-- The calls of `createInquiry` that fail: the insert into `inquiries`, which reports
an error, and the two sends, which reject. -/
structure InquiryFaults where
  insertInquiry : Option String
  sendAdmin : Option String
  sendCustomer : Option String
  deriving DecidableEq, Repr

/-- Neither the insert nor a send fails. -/
def InquiryFaults.none : InquiryFaults :=
  { insertInquiry := Option.none, sendAdmin := Option.none, sendCustomer := Option.none }

/-- The first argument of `createInquiry`. -/
structure InquiryData where
  name : Option String
  email : Option String
  phone : Option String
  company : Option String
  message : Option String
  source : Option String
  deriving DecidableEq, Repr

/-- The second argument of `createInquiry`. -/
structure InquiryMetadata where
  referrer : Option String
  ipAddress : Option String
  userAgent : Option String
  deriving DecidableEq, Repr

/-- The object `createInquiry` resolves to. -/
structure CreateResult where
  success : Bool
  inquiry : Inquiry
  deriving DecidableEq, Repr

/-- The row `createInquiry` inserts; `source || 'website'` falls back for an absent or
empty source. -/
def newInquiryRow (id : Nat) (data : InquiryData) (metadata : InquiryMetadata) : Inquiry :=
  { id := id,
    name := data.name,
    email := data.email,
    phone := data.phone,
    company := data.company,
    message := data.message,
    source := (match data.source with
      | some v => if falsy (some v) then "website" else v
      | Option.none => "website"),
    referrer := metadata.referrer,
    status := "new" }

/-- The method `sendNotifications`: both sends are started, each send the provider
accepts reaches the outbox, and the method rejects when one of them rejects. -/
def sendNotifications (IF : InquiryFaults) (outbox : List Email) (inquiry : Inquiry) :
    Except String Unit × List Email :=
  let afterAdmin :=
    match IF.sendAdmin with
    | some _ => outbox
    | Option.none => outbox ++ [{ kind := EmailKind.adminNotification, inquiry := inquiry }]
  let afterCustomer :=
    match IF.sendCustomer with
    | some _ => afterAdmin
    | Option.none =>
      afterAdmin ++ [{ kind := EmailKind.customerConfirmation, inquiry := inquiry }]
  match IF.sendAdmin, IF.sendCustomer with
  | some e, _ => (Except.error e, afterCustomer)
  | Option.none, some e => (Except.error e, afterCustomer)
  | Option.none, Option.none => (Except.ok (), afterCustomer)

/-- The method `createInquiry`. The promise of `sendNotifications` is not awaited and
its rejection is caught and logged, so only the outbox keeps a trace of it. -/
def createInquiry (IF : InquiryFaults) (site : Site) (data : InquiryData)
    (metadata : InquiryMetadata) : Except ServiceError CreateResult × Site :=
  match IF.insertInquiry with
  | some e => (Except.error (ServiceError.store e), site)
  | Option.none =>
    let inquiry := newInquiryRow site.nextInquiryId data metadata
    let site1 : Site :=
      { site with inquiries := site.inquiries ++ [inquiry],
                  nextInquiryId := site.nextInquiryId + 1 }
    let sent := sendNotifications IF site1.outbox inquiry
    (Except.ok { success := true, inquiry := inquiry }, { site1 with outbox := sent.2 })

/-- What the inquiry route reads from a request: the JSON body, the `referer` and
`user-agent` headers and `req.ip`. -/
structure InquiryRequest where
  body : InquiryBody
  referer : Option String
  ip : Option String
  userAgent : Option String
  deriving DecidableEq, Repr

/-- The response of the inquiry route: the status code and the fields of the JSON
body. -/
structure InquiryResponse where
  status : Nat
  success : Bool
  message : Option String
  inquiryId : Option Nat
  deriving DecidableEq, Repr

/-- The response of the inquiry route to an error raised by a service. -/
def inquiryErrorResponse : InquiryResponse :=
  { status := 500, success := false,
    message := some "An error occurred. Please try again or email us directly.",
    inquiryId := Option.none }

/-- The response of the inquiry route after the services returned. -/
def inquirySuccessResponse (inquiry : Inquiry) : InquiryResponse :=
  { status := 200, success := true,
    message := some "Thank you! We\x27ll contact you within 24 hours.",
    inquiryId := some inquiry.id }

/-- The handler of `router.post('/')` of the inquiry routes, which runs after
`validateInquiry` called `next`: the response and the state it leaves. -/
def inquiryHandler (IF : InquiryFaults) (F : Faults) (site : Site) (req : InquiryRequest) :
    InquiryResponse × Site :=
  match createInquiry IF site
      { name := req.body.name, email := req.body.email, phone := req.body.phone,
        company := req.body.company, message := req.body.message,
        source := req.body.source }
      { referrer := req.referer, ipAddress := req.ip, userAgent := req.userAgent } with
  | (Except.error _, site1) => (inquiryErrorResponse, site1)
  | (Except.ok result, site1) =>
    match req.body.sessionId with
    | Option.none => (inquirySuccessResponse result.inquiry, site1)
    | some sessionId =>
      if falsy (some sessionId) then (inquirySuccessResponse result.inquiry, site1)
      else
        match linkInquiryToSession F site1.store sessionId result.inquiry.id with
        | (Except.error _, store1) => (inquiryErrorResponse, { site1 with store := store1 })
        | (Except.ok _, store1) =>
          (inquirySuccessResponse result.inquiry, { site1 with store := store1 })

/-- The route `router.post('/', validateInquiry, handler)`: the middleware answers, or
it calls `next` and the handler answers. -/
def inquiryRoute (IF : InquiryFaults) (F : Faults) (site : Site) (req : InquiryRequest) :
    InquiryResponse × Site :=
  match validateInquiry req.body with
  | Validation.respond r =>
    ({ status := r.status, success := r.success, message := r.message,
       inquiryId := Option.none }, site)
  | Validation.next => inquiryHandler IF F site req

/-- The global error handler of `server.js`: the response to an error with message
`errMessage` when `config.nodeEnv` is `nodeEnv`. -/
def globalErrorHandler (nodeEnv : String) (errMessage : String) : HttpResponse :=
  { status := 500, success := false,
    message := some (if nodeEnv = "production" then "Internal server error" else errMessage) }

/-! ## Store errors that differ in their detail only -/

/-- Two choices of failing store calls fail at the same calls; the error each call
reports may differ. -/
def Faults.sameCalls (F G : Faults) : Prop :=
  F.selectSession.isSome = G.selectSession.isSome ∧
  F.insertSession.isSome = G.insertSession.isSome ∧
  F.insertPageView.isSome = G.insertPageView.isSome ∧
  F.updateSession.isSome = G.updateSession.isSome ∧
  F.insertEvent.isSome = G.insertEvent.isSome ∧
  F.selectPageView.isSome = G.selectPageView.isSome ∧
  F.updatePageView.isSome = G.updatePageView.isSome

instance (F G : Faults) : Decidable (F.sameCalls G) := by
  unfold Faults.sameCalls
  infer_instance

/-- Two choices of failing summary queries fail at the same queries. -/
def SummaryFaults.sameCalls (F G : SummaryFaults) : Prop :=
  F.selectStats.isSome = G.selectStats.isSome ∧
  F.selectTopPages.isSome = G.selectTopPages.isSome ∧
  F.selectSources.isSome = G.selectSources.isSome

instance (F G : SummaryFaults) : Decidable (F.sameCalls G) := by
  unfold SummaryFaults.sameCalls
  infer_instance

/-- Two choices of failing inquiry calls fail at the same calls. -/
def InquiryFaults.sameCalls (F G : InquiryFaults) : Prop :=
  F.insertInquiry.isSome = G.insertInquiry.isSome ∧
  F.sendAdmin.isSome = G.sendAdmin.isSome ∧
  F.sendCustomer.isSome = G.sendCustomer.isSome

instance (F G : InquiryFaults) : Decidable (F.sameCalls G) := by
  unfold InquiryFaults.sameCalls
  infer_instance

/-! ## Rows kept and rows of one token -/

/-- The session row `q` stands for the row `r` after updates: it has the key and the
token of `r`. -/
def Session.sameRow (r q : Session) : Prop :=
  q.id = r.id ∧ q.session_id = r.session_id

/-- The page-view row `q` is the row `p` with at most `time_spent` changed. -/
def PageView.sameButTimeSpent (p q : PageView) : Prop :=
  { q with time_spent := p.time_spent } = p

/-- The store `s2` keeps every row of `s1`: each table of `s2` is the table of `s1`,
row by row and in place, followed by added rows, where a session row keeps its key
and token, a page-view row changes in `time_spent` at most and an event row does not
change. -/
def Store.Keeps (s1 s2 : Store) : Prop :=
  (∃ g : Session → Session, (∀ r, Session.sameRow r (g r)) ∧
    ∃ added, s2.visitor_sessions = s1.visitor_sessions.map g ++ added) ∧
  (∃ h : PageView → PageView, (∀ p, PageView.sameButTimeSpent p (h p)) ∧
    ∃ added, s2.page_views = s1.page_views.map h ++ added) ∧
  (∃ added, s2.events = s1.events ++ added)

/-- Whether a call is `updateTimeSpent`. -/
def Op.isUpdateTimeSpent : Op → Bool
  | Op.updateTimeSpent _ _ _ => true
  | _ => false

/-- The session token a tracking operation is for. -/
def Op.token : Op → Option String
  | Op.trackPageView t _ => some t
  | Op.trackEvent t _ => some t
  | Op.updateTimeSpent t _ _ => some t
  | Op.linkInquiryToSession t _ => some t
  | _ => Option.none

/-- The generated keys of the session rows with token `t`. -/
def sessionKeys (s : Store) (t : String) : List Nat :=
  (sessionsByToken s t).map (fun r => r.id)

/-- The PageView rows of the token `t`: those that refer to a session row with that
token. -/
def tokenPageViews (s : Store) (t : String) : List PageView :=
  s.page_views.filter (fun p => decide (p.session_id ∈ sessionKeys s t))

/-- The Event rows of the token `t`. -/
def tokenEvents (s : Store) (t : String) : List Event :=
  s.events.filter (fun e => decide (e.session_id ∈ sessionKeys s t))

/-- The stores `s1` and `s2` hold the same Session, PageView and Event rows for the
token `t`. -/
def Store.sameRowsOf (s1 s2 : Store) (t : String) : Prop :=
  sessionsByToken s2 t = sessionsByToken s1 t ∧
  tokenPageViews s2 t = tokenPageViews s1 t ∧
  tokenEvents s2 t = tokenEvents s1 t

/-- Every Event row refers to a session row: the foreign key of `events`. -/
def Store.EventsLinked (s : Store) : Prop :=
  ∀ e ∈ s.events, ∃ r ∈ s.visitor_sessions, r.id = e.session_id

instance (s : Store) : Decidable s.EventsLinked := by
  unfold Store.EventsLinked
  infer_instance

/-- A session row without its generated key and its timestamp. -/
def sessionContent (r : Session) : Session :=
  { r with id := 0, last_seen := 0 }

/-- A PageView row without its generated key, the generated key it refers to and its
timestamp. -/
def pageViewContent (p : PageView) : PageView :=
  { p with id := 0, session_id := 0, viewed_at := 0 }

/-- An Event row without its generated key and the generated key it refers to. -/
def eventContent (e : Event) : Event :=
  { e with id := 0, session_id := 0 }

/-- What the store holds for the token `t`, up to generated keys and timestamps: its
session rows, its PageView rows and its Event rows, each in table order. -/
def tokenContent (s : Store) (t : String) : List Session × List PageView × List Event :=
  ((sessionsByToken s t).map sessionContent,
   (tokenPageViews s t).map pageViewContent,
   (tokenEvents s t).map eventContent)

/-! ## Sample data for the inquiry side and for store errors -/

/-- Store calls of which only the session update reports an error, the error being
`e`. -/
def sampleUpdateFault (e : String) : Faults :=
  { selectSession := Option.none, insertSession := Option.none,
    insertPageView := Option.none, updateSession := some e,
    insertEvent := Option.none, selectPageView := Option.none,
    updatePageView := Option.none }

/-- Summary queries that all report the error `e`. -/
def sampleSummaryFault (e : String) : SummaryFaults :=
  { selectStats := some e, selectTopPages := some e, selectSources := some e }

/-- An inquiry insert that goes through while both sends reject with `e`. -/
def sampleSendFault (e : String) : InquiryFaults :=
  { insertInquiry := Option.none, sendAdmin := some e, sendCustomer := some e }

/-- An inquiry insert that reports the error `e`. -/
def sampleInquiryInsertFault (e : String) : InquiryFaults :=
  { insertInquiry := some e, sendAdmin := Option.none, sendCustomer := Option.none }

/-- A valid submission of the contact form from the session `s1`. -/
def sampleInquiryBody : InquiryBody :=
  { name := some "Ada", email := some "ada@site.io", phone := Option.none,
    company := some "Engines", message := some "Please call me.",
    source := Option.none, sessionId := some "s1" }

/-- The request that carries the sample submission, without headers. -/
def sampleInquiryRequest : InquiryRequest :=
  { body := sampleInquiryBody, referer := Option.none, ip := Option.none,
    userAgent := Option.none }

/-- The row the sample submission is stored as under the key 1. -/
def sampleInquiry : Inquiry :=
  { id := 1, name := some "Ada", email := some "ada@site.io", phone := Option.none,
    company := some "Engines", message := some "Please call me.", source := "website",
    referrer := Option.none, status := "new" }

/-- The sample store with no inquiry yet and no email sent. -/
def sampleSite : Site :=
  { store := sampleStore, inquiries := [], nextInquiryId := 1, outbox := [] }

/-- A time-spent report of five seconds on `/pricing` for the session `s1`. -/
def sampleTimeSpentBody : TimeSpentBody :=
  { sessionId := some "s1", pageUrl := some "/pricing", timeSpent := some 5 }

/-- A page load at clock reading 0 followed by two interval ticks, 30 and 60 seconds
after the load. -/
def sampleTicks : List ClientEvent :=
  [ClientEvent.intervalTick 30000 30000, ClientEvent.intervalTick 60000 60000]

/-! # Theorems -/

/-! ## Lookup by token -/

theorem selectSession_of_empty (F : Faults) (s : Store) (t : String)
    (h : sessionsByToken s t = []) : selectSession F s t = Option.none := by
  unfold selectSession
  cases F.selectSession <;> simp [h, single]

theorem selectSession_of_single (s : Store) (t : String) (r : Session)
    (h : sessionsByToken s t = [r]) : selectSession Faults.none s t = some r := by
  simp [selectSession, Faults.none, h, single]

/-- An update that keeps the token of every row commutes with the selection by
token. -/
theorem filter_token_map (l : List Session) (t : String) (g : Session → Session)
    (hg : ∀ r, (g r).session_id = r.session_id) :
    (l.map g).filter (fun r => r.session_id = t)
      = (l.filter (fun r => r.session_id = t)).map g := by
  induction l with
  | nil => rfl
  | cons r rs ih =>
    by_cases hr : r.session_id = t
    · simp [List.filter_cons, hr, hg, ih]
    · simp [List.filter_cons, hr, hg, ih]

theorem sessionsByToken_updateSessionsById (s : Store) (t : String) (id : Nat)
    (f : Session → Session) (hf : ∀ r, (f r).session_id = r.session_id) :
    sessionsByToken (updateSessionsById s id f) t
      = (sessionsByToken s t).map (fun r => if r.id = id then f r else r) := by
  unfold sessionsByToken updateSessionsById
  simp only
  apply filter_token_map
  intro r
  by_cases h : r.id = id <;> simp [h, hf]

theorem sessionsByToken_updateSessionsByToken (s : Store) (t : String)
    (f : Session → Session) (hf : ∀ r, (f r).session_id = r.session_id) :
    sessionsByToken (updateSessionsByToken s t f) t = (sessionsByToken s t).map f := by
  unfold sessionsByToken updateSessionsByToken
  simp only
  induction s.visitor_sessions with
  | nil => rfl
  | cons r rs ih =>
    by_cases hr : r.session_id = t
    · simp [List.filter_cons, hr, hf, ih]
    · simp [List.filter_cons, hr, ih]

theorem updateSessionsByToken_of_empty (s : Store) (t : String) (f : Session → Session)
    (h : sessionsByToken s t = []) : updateSessionsByToken s t f = s := by
  unfold updateSessionsByToken
  have hmap : s.visitor_sessions.map (fun r => if r.session_id = t then f r else r)
      = s.visitor_sessions := by
    conv_rhs => rw [← List.map_id s.visitor_sessions]
    apply List.map_congr_left
    intro r hr
    have : ¬ r.session_id = t := by
      intro ht
      have hm : r ∈ sessionsByToken s t := by
        simp [sessionsByToken, List.mem_filter, hr, ht]
      rw [h] at hm
      exact absurd hm (List.not_mem_nil r)
    simp [this]
  rw [hmap]

theorem updateSessionsByToken_idem (s : Store) (t : String) (f : Session → Session)
    (hf : ∀ r, (f r).session_id = r.session_id) (hff : ∀ r, f (f r) = f r) :
    updateSessionsByToken (updateSessionsByToken s t f) t f = updateSessionsByToken s t f := by
  unfold updateSessionsByToken
  simp only [List.map_map]
  congr 1
  apply List.map_congr_left
  intro r _
  by_cases hr : r.session_id = t
  · simp [hr, hf, hff]
  · simp [hr]

/-! ## The methods on a token without a row, and on a token with one row -/

theorem updateTimeSpent_of_empty (F : Faults) (now : Nat) (s : Store) (t : String)
    (pageUrl : String) (d : Int) (h : sessionsByToken s t = []) :
    updateTimeSpent F now s t pageUrl d = (Except.ok { success := false }, s) := by
  simp [updateTimeSpent, selectSession_of_empty F s t h]

theorem updateTimeSpent_ok (F : Faults) (now : Nat) (s : Store) (t u : String) (d : Int) :
    ∃ res, (updateTimeSpent F now s t u d).1 = Except.ok res := by
  unfold updateTimeSpent
  cases selectSession F s t with
  | none => exact ⟨_, rfl⟩
  | some session =>
    simp only
    split <;> exact ⟨_, rfl⟩

theorem getOrCreateSession_of_empty (parseUA : Option String → ParsedUA) (now : Nat)
    (s : Store) (t : String) (m : Metadata) (h : sessionsByToken s t = []) :
    getOrCreateSession parseUA Faults.none now s t m
      = (Except.ok (newSessionRow parseUA now s.nextSessionId t m),
          insertSessionRow s (newSessionRow parseUA now s.nextSessionId t m)) := by
  unfold getOrCreateSession
  rw [selectSession_of_empty Faults.none s t h]
  rfl

theorem getOrCreateSession_of_single (parseUA : Option String → ParsedUA) (now : Nat)
    (s : Store) (t : String) (m : Metadata) (r : Session) (h : sessionsByToken s t = [r]) :
    getOrCreateSession parseUA Faults.none now s t m = (Except.ok r, s) := by
  unfold getOrCreateSession
  rw [selectSession_of_single s t r h]

theorem trackPageView_of_session (parseUA : Option String → ParsedUA) (now : Nat)
    (s s1 : Store) (t : String) (pd : PageData) (session : Session)
    (h : getOrCreateSession parseUA Faults.none now s t
      { userAgent := pd.userAgent, ipAddress := pd.ipAddress, referrer := pd.referrer,
        pageUrl := some pd.url } = (Except.ok session, s1)) :
    trackPageView parseUA Faults.none now s t pd
      = (Except.ok { success := true },
          updateSessionsById (insertPageViewRow s1 (newPageViewRow now s1.nextPageViewId session pd))
            session.id (pageViewUpdate session now pd.url)) := by
  unfold trackPageView
  rw [h]
  rfl

theorem wf_no_pageView_at_next (s : Store) (hwf : s.WF) :
    ∀ p ∈ s.page_views, p.session_id ≠ s.nextSessionId := by
  intro p hp heq
  obtain ⟨_, hlt, _, _, hfk⟩ := hwf
  obtain ⟨r, hr, hrid⟩ := hfk p hp
  have := hlt r hr
  omega


/-! ## Sequences of page views -/

theorem trackPageView_rows_of_empty (parseUA : Option String → ParsedUA) (now : Nat)
    (s : Store) (t : String) (pd : PageData) (hnone : sessionsByToken s t = []) :
    ∃ r, sessionsByToken (trackPageView parseUA Faults.none now s t pd).2 t = [r] ∧
      r.page_views = 1 ∧ r.exit_page = some pd.url := by
  rw [trackPageView_of_session parseUA now s _ t pd _
    (getOrCreateSession_of_empty parseUA now s t _ hnone)]
  generalize hrow : newSessionRow parseUA now s.nextSessionId t
      { userAgent := pd.userAgent, ipAddress := pd.ipAddress,
        referrer := pd.referrer, pageUrl := some pd.url } = row
  have htok : row.session_id = t := by rw [← hrow]; rfl
  have hpv : row.page_views = 0 := by rw [← hrow]; rfl
  dsimp only
  refine ⟨pageViewUpdate row now pd.url row, ?_, ?_, rfl⟩
  · rw [sessionsByToken_updateSessionsById _ t row.id (pageViewUpdate row now pd.url)
      (fun _ => rfl)]
    unfold sessionsByToken at hnone ⊢
    simp [insertPageViewRow, insertSessionRow, List.filter_append, hnone, htok]
  · simp [pageViewUpdate, hpv]

theorem trackPageView_rows_of_single (parseUA : Option String → ParsedUA) (now : Nat)
    (s : Store) (t : String) (pd : PageData) (r : Session)
    (h : sessionsByToken s t = [r]) :
    sessionsByToken (trackPageView parseUA Faults.none now s t pd).2 t
      = [pageViewUpdate r now pd.url r] := by
  rw [trackPageView_of_session parseUA now s _ t pd _
    (getOrCreateSession_of_single parseUA now s t _ r h)]
  dsimp only
  rw [sessionsByToken_updateSessionsById _ t r.id (pageViewUpdate r now pd.url) (fun _ => rfl)]
  have : sessionsByToken (insertPageViewRow s (newPageViewRow now s.nextPageViewId r pd)) t
      = [r] := h
  rw [this]
  simp

theorem run_append (parseUA : Option String → ParsedUA) (s : Store) (xs ys : List Call) :
    run parseUA s (xs ++ ys) = run parseUA (run parseUA s xs) ys := by
  simp [run, List.foldl_append]

theorem run_pageViewCalls_snoc (parseUA : Option String → ParsedUA) (s : Store) (t : String)
    (views : List (Nat × PageData)) (v : Nat × PageData) :
    run parseUA s (pageViewCalls t (views ++ [v]))
      = (trackPageView parseUA Faults.none v.1 (run parseUA s (pageViewCalls t views)) t v.2).2 := by
  simp [pageViewCalls, run, List.foldl_append, Call.exec]

/-- After some page views for a token whose session row did not exist, either there
were none and the token still has no row, or the token has one row that counts
them. -/
theorem run_pageViewCalls_rows (parseUA : Option String → ParsedUA) (s : Store) (t : String)
    (hnone : sessionsByToken s t = []) (views : List (Nat × PageData)) :
    (views = [] ∧ sessionsByToken (run parseUA s (pageViewCalls t views)) t = []) ∨
    ∃ r, sessionsByToken (run parseUA s (pageViewCalls t views)) t = [r] ∧
      r.page_views = views.length := by
  induction views using List.reverseRecOn with
  | nil => exact Or.inl ⟨rfl, hnone⟩
  | append_singleton views v ih =>
    right
    rw [run_pageViewCalls_snoc]
    rcases ih with ⟨hnil, hrows⟩ | ⟨r, hrows, hcount⟩
    · obtain ⟨r, hr, hpv, _⟩ := trackPageView_rows_of_empty parseUA v.1 _ t v.2 hrows
      exact ⟨r, hr, by simp [hnil, hpv]⟩
    · refine ⟨_, trackPageView_rows_of_single parseUA v.1 _ t v.2 r hrows, ?_⟩
      simp [pageViewUpdate, hcount]

/-! ## The most recent page view -/

/-- The query for the most recent page view answers with no row when no row matches,
and otherwise with a matching row whose `viewed_at` no matching row exceeds. -/
theorem selectRecentPageView_spec (s : Store) (key : Nat) (pageUrl : String) :
    (pageViewsFor s key pageUrl = [] ∧
      selectRecentPageView Faults.none s key pageUrl = Option.none) ∨
    ∃ p, selectRecentPageView Faults.none s key pageUrl = some p ∧
      p ∈ pageViewsFor s key pageUrl ∧
      ∀ q ∈ pageViewsFor s key pageUrl, q.viewed_at ≤ p.viewed_at := by
  have hperm := List.perm_insertionSort (fun a b : PageView => a.viewed_at ≥ b.viewed_at)
    (pageViewsFor s key pageUrl)
  have hsorted := List.sorted_insertionSort (fun a b : PageView => a.viewed_at ≥ b.viewed_at)
    (pageViewsFor s key pageUrl)
  unfold selectRecentPageView orderByViewedAtDesc
  simp only [Faults.none]
  generalize hsort : (pageViewsFor s key pageUrl).insertionSort
    (fun a b => a.viewed_at ≥ b.viewed_at) = sorted at hperm hsorted ⊢
  cases sorted with
  | nil =>
    left
    exact ⟨(List.perm_nil.mp hperm.symm), rfl⟩
  | cons p rest =>
    right
    refine ⟨p, rfl, hperm.subset (List.mem_cons_self p rest), ?_⟩
    intro q hq
    have hq2 : q ∈ p :: rest := hperm.symm.subset hq
    rcases List.mem_cons.mp hq2 with rfl | hin
    · exact Nat.le_refl _
    · exact List.rel_of_sorted_cons hsorted q hin

/-- Among rows with distinct keys, an update selected by the key of a row of the
table changes that row and no other. -/
theorem map_update_by_id (l : List PageView) (p : PageView) (f : PageView → PageView)
    (hnd : (l.map (fun q => q.id)).Nodup) (hp : p ∈ l) :
    l.map (fun q => if q.id = p.id then f q else q)
      = l.map (fun q => if q = p then f p else q) := by
  apply List.map_congr_left
  intro q hq
  by_cases hid : q.id = p.id
  · have hqp : q = p := List.inj_on_of_nodup_map hnd hq hp hid
    simp [hqp]
  · have hne : q ≠ p := fun h => hid (by rw [h])
    simp [hid, hne]

theorem updateTimeSpent_of_single (now : Nat) (s : Store) (t pageUrl : String) (d : Int)
    (r : Session) (h : sessionsByToken s t = [r]) :
    updateTimeSpent Faults.none now s t pageUrl d
      = (Except.ok { success := true },
          match selectRecentPageView Faults.none s r.id pageUrl with
          | Option.none => updateSessionsById s r.id (timeSpentUpdate r now d)
          | some p => updatePageViewsById (updateSessionsById s r.id (timeSpentUpdate r now d))
              p.id (pageTimeUpdate d)) := by
  unfold updateTimeSpent
  rw [selectSession_of_single s t r h]
  show (match selectRecentPageView Faults.none s r.id pageUrl with
      | Option.none =>
        ((Except.ok { success := true } : Except ServiceError OpResult),
          updateSessionsById s r.id (timeSpentUpdate r now d))
      | some p =>
        (Except.ok { success := true },
          updatePageViewsById (updateSessionsById s r.id (timeSpentUpdate r now d))
            p.id (pageTimeUpdate d))) = _
  cases selectRecentPageView Faults.none s r.id pageUrl <;> rfl

/-! ## Preservation of the key constraints and of the counter invariant -/

theorem single_eq_some {α : Type} (l : List α) (a : α) (h : single l = some a) : l = [a] := by
  match l, h with
  | [b], h => simpa [single] using h

theorem selectSession_mem (F : Faults) (s : Store) (t : String) (r : Session)
    (h : selectSession F s t = some r) : r ∈ s.visitor_sessions := by
  unfold selectSession at h
  cases hF : F.selectSession with
  | some e => simp [hF] at h
  | none =>
    simp only [hF] at h
    have hl := single_eq_some _ _ h
    have hm : r ∈ sessionsByToken s t := by rw [hl]; exact List.mem_singleton_self r
    exact (List.mem_filter.mp hm).1

theorem wf_insertSessionRow (s : Store) (row : Session) (hwf : s.WF)
    (hid : row.id = s.nextSessionId) : (insertSessionRow s row).WF := by
  obtain ⟨hnd, hlt, hpnd, hplt, hfk⟩ := hwf
  refine ⟨?_, ?_, hpnd, hplt, ?_⟩
  · show ((s.visitor_sessions ++ [row]).map (fun r => r.id)).Nodup
    rw [List.map_append, List.nodup_append]
    refine ⟨hnd, List.nodup_singleton _, ?_⟩
    intro a ha hb
    obtain ⟨r, hr, rfl⟩ := List.mem_map.mp ha
    have hlt2 := hlt r hr
    simp at hb
    omega
  · intro r hr
    show r.id < s.nextSessionId + 1
    rcases List.mem_append.mp hr with h1 | h1
    · have := hlt r h1
      omega
    · rw [List.mem_singleton.mp h1, hid]
      omega
  · intro p hp
    obtain ⟨r, hr, hrid⟩ := hfk p hp
    exact ⟨r, List.mem_append_left _ hr, hrid⟩

theorem countInv_insertSessionRow (s : Store) (row : Session) (hwf : s.WF)
    (hinv : s.CountInv) (hid : row.id = s.nextSessionId) (hpv : row.page_views = 0) :
    (insertSessionRow s row).CountInv := by
  intro r hr
  show r.page_views = (s.page_views.filter (fun p => p.session_id = r.id)).length
  rcases List.mem_append.mp hr with h1 | h1
  · exact hinv r h1
  · rw [List.mem_singleton.mp h1, hpv, hid]
    have hnil : s.page_views.filter (fun p => p.session_id = s.nextSessionId) = [] := by
      rw [List.filter_eq_nil_iff]
      intro p hp
      obtain ⟨_, hlt, _, _, hfk⟩ := hwf
      obtain ⟨r0, hr0, hrid⟩ := hfk p hp
      have := hlt r0 hr0
      simp
      omega
    rw [hnil]
    rfl

theorem map_id_update (l : List Session) (g : Session → Session)
    (hg : ∀ r, (g r).id = r.id) : (l.map g).map (fun r => r.id) = l.map (fun r => r.id) := by
  rw [List.map_map]
  apply List.map_congr_left
  intro r _
  exact hg r

/-- An update of session rows that keeps every key keeps the key constraints. -/
theorem wf_mapSessions (s : Store) (g : Session → Session) (hg : ∀ r, (g r).id = r.id)
    (hwf : s.WF) : ({ s with visitor_sessions := s.visitor_sessions.map g } : Store).WF := by
  obtain ⟨hnd, hlt, hpnd, hplt, hfk⟩ := hwf
  refine ⟨?_, ?_, hpnd, hplt, ?_⟩
  · show ((s.visitor_sessions.map g).map (fun r => r.id)).Nodup
    rw [map_id_update _ g hg]
    exact hnd
  · intro r hr
    obtain ⟨r0, hr0, rfl⟩ := List.mem_map.mp hr
    show (g r0).id < s.nextSessionId
    rw [hg]
    exact hlt r0 hr0
  · intro p hp
    obtain ⟨r, hr, hrid⟩ := hfk p hp
    exact ⟨g r, List.mem_map_of_mem g hr, by rw [hg]; exact hrid⟩

/-- An update of session rows that keeps every key and every counter keeps the
counter invariant. -/
theorem countInv_mapSessions (s : Store) (g : Session → Session)
    (hg : ∀ r, (g r).id = r.id) (hc : ∀ r, (g r).page_views = r.page_views)
    (hinv : s.CountInv) :
    ({ s with visitor_sessions := s.visitor_sessions.map g } : Store).CountInv := by
  intro r hr
  obtain ⟨r0, hr0, rfl⟩ := List.mem_map.mp hr
  show (g r0).page_views = (s.page_views.filter (fun p => p.session_id = (g r0).id)).length
  rw [hg, hc]
  exact hinv r0 hr0

theorem wf_updateSessionsById (s : Store) (id : Nat) (f : Session → Session)
    (hf : ∀ r, (f r).id = r.id) (hwf : s.WF) : (updateSessionsById s id f).WF := by
  apply wf_mapSessions s _ _ hwf
  intro r
  by_cases h : r.id = id <;> simp [h, hf]

theorem wf_updateSessionsByToken (s : Store) (t : String) (f : Session → Session)
    (hf : ∀ r, (f r).id = r.id) (hwf : s.WF) : (updateSessionsByToken s t f).WF := by
  apply wf_mapSessions s _ _ hwf
  intro r
  by_cases h : r.session_id = t <;> simp [h, hf]

theorem countInv_updateSessionsById (s : Store) (id : Nat) (f : Session → Session)
    (hf : ∀ r, (f r).id = r.id) (hc : ∀ r, (f r).page_views = r.page_views)
    (hinv : s.CountInv) : (updateSessionsById s id f).CountInv := by
  apply countInv_mapSessions s _ _ _ hinv
  · intro r
    by_cases h : r.id = id <;> simp [h, hf]
  · intro r
    by_cases h : r.id = id <;> simp [h, hc]

theorem countInv_updateSessionsByToken (s : Store) (t : String) (f : Session → Session)
    (hf : ∀ r, (f r).id = r.id) (hc : ∀ r, (f r).page_views = r.page_views)
    (hinv : s.CountInv) : (updateSessionsByToken s t f).CountInv := by
  apply countInv_mapSessions s _ _ _ hinv
  · intro r
    by_cases h : r.session_id = t <;> simp [h, hf]
  · intro r
    by_cases h : r.session_id = t <;> simp [h, hc]

theorem wf_insertPageViewRow (s : Store) (pv : PageView) (hwf : s.WF)
    (hid : pv.id = s.nextPageViewId)
    (hfk0 : ∃ r ∈ s.visitor_sessions, r.id = pv.session_id) :
    (insertPageViewRow s pv).WF := by
  obtain ⟨hnd, hlt, hpnd, hplt, hfk⟩ := hwf
  refine ⟨hnd, hlt, ?_, ?_, ?_⟩
  · show ((s.page_views ++ [pv]).map (fun p => p.id)).Nodup
    rw [List.map_append, List.nodup_append]
    refine ⟨hpnd, List.nodup_singleton _, ?_⟩
    intro a ha hb
    obtain ⟨p, hp, rfl⟩ := List.mem_map.mp ha
    have hlt2 := hplt p hp
    simp at hb
    omega
  · intro p hp
    show p.id < s.nextPageViewId + 1
    rcases List.mem_append.mp hp with h1 | h1
    · have := hplt p h1
      omega
    · rw [List.mem_singleton.mp h1, hid]
      omega
  · intro p hp
    rcases List.mem_append.mp hp with h1 | h1
    · exact hfk p h1
    · rw [List.mem_singleton.mp h1]
      exact hfk0

theorem wf_updatePageViewsById (s : Store) (id : Nat) (f : PageView → PageView)
    (hf : ∀ p, (f p).id = p.id) (hk : ∀ p, (f p).session_id = p.session_id) (hwf : s.WF) :
    (updatePageViewsById s id f).WF := by
  obtain ⟨hnd, hlt, hpnd, hplt, hfk⟩ := hwf
  have hg : ∀ p : PageView, (if p.id = id then f p else p).id = p.id := by
    intro p
    by_cases h : p.id = id <;> simp [h, hf]
  have hg2 : ∀ p : PageView, (if p.id = id then f p else p).session_id = p.session_id := by
    intro p
    by_cases h : p.id = id <;> simp [h, hk]
  refine ⟨hnd, hlt, ?_, ?_, ?_⟩
  · show ((s.page_views.map (fun p => if p.id = id then f p else p)).map (fun p => p.id)).Nodup
    have : (s.page_views.map (fun p => if p.id = id then f p else p)).map (fun p => p.id)
        = s.page_views.map (fun p => p.id) := by
      rw [List.map_map]
      apply List.map_congr_left
      intro p _
      exact hg p
    rw [this]
    exact hpnd
  · intro p hp
    obtain ⟨p0, hp0, rfl⟩ := List.mem_map.mp hp
    show (if p0.id = id then f p0 else p0).id < s.nextPageViewId
    rw [hg]
    exact hplt p0 hp0
  · intro p hp
    obtain ⟨p0, hp0, rfl⟩ := List.mem_map.mp hp
    show ∃ r ∈ s.visitor_sessions, r.id = (if p0.id = id then f p0 else p0).session_id
    rw [hg2]
    exact hfk p0 hp0

theorem countInv_updatePageViewsById (s : Store) (id : Nat) (f : PageView → PageView)
    (hk : ∀ p, (f p).session_id = p.session_id) (hinv : s.CountInv) :
    (updatePageViewsById s id f).CountInv := by
  intro r hr
  show r.page_views
    = ((s.page_views.map (fun p => if p.id = id then f p else p)).filter
        (fun p => p.session_id = r.id)).length
  rw [List.filter_map, List.length_map]
  have : (fun p => decide (p.session_id = r.id)) ∘ (fun p : PageView => if p.id = id then f p else p)
      = (fun p => decide (p.session_id = r.id)) := by
    funext p
    by_cases h : p.id = id <;> simp [h, hk]
  rw [this]
  exact hinv r hr

/-- The two writes of `trackPageView` together keep the counter invariant: the row
of the session gains one linked page view and its counter goes up by one. -/
theorem countInv_pageView (s : Store) (session : Session) (pv : PageView) (now : Nat)
    (url : String) (hwf : s.WF) (hinv : s.CountInv) (hmem : session ∈ s.visitor_sessions)
    (hkey : pv.session_id = session.id) :
    (updateSessionsById (insertPageViewRow s pv) session.id
      (pageViewUpdate session now url)).CountInv := by
  intro r hr
  show r.page_views = ((s.page_views ++ [pv]).filter (fun p => p.session_id = r.id)).length
  have hr2 : r ∈ s.visitor_sessions.map
      (fun x => if x.id = session.id then pageViewUpdate session now url x else x) := hr
  obtain ⟨r0, hr0, rfl⟩ := List.mem_map.mp hr2
  by_cases hid : r0.id = session.id
  · have heq : r0 = session := List.inj_on_of_nodup_map hwf.1 hr0 hmem hid
    subst heq
    have h0 := hinv r0 hr0
    unfold linkedPageViews at h0
    simp [pageViewUpdate, List.filter_append, hkey, h0]
  · have h0 := hinv r0 hr0
    unfold linkedPageViews at h0
    have hne : ¬ pv.session_id = r0.id := by
      rw [hkey]
      exact fun h => hid h.symm
    simp [hid, List.filter_append, hne, h0]

theorem inv_getOrCreateSession (parseUA : Option String → ParsedUA) (F : Faults) (now : Nat)
    (s : Store) (t : String) (m : Metadata) (hwf : s.WF) (hinv : s.CountInv) :
    (getOrCreateSession parseUA F now s t m).2.WF ∧
      (getOrCreateSession parseUA F now s t m).2.CountInv ∧
      ∀ session, (getOrCreateSession parseUA F now s t m).1 = Except.ok session →
        session ∈ (getOrCreateSession parseUA F now s t m).2.visitor_sessions := by
  unfold getOrCreateSession
  cases hsel : selectSession F s t with
  | some existing =>
    refine ⟨hwf, hinv, ?_⟩
    intro session hs
    cases hs
    exact selectSession_mem F s t existing hsel
  | none =>
    cases F.insertSession with
    | some e =>
      refine ⟨hwf, hinv, ?_⟩
      intro session hs
      cases hs
    | none =>
      refine ⟨wf_insertSessionRow s _ hwf rfl, countInv_insertSessionRow s _ hwf hinv rfl rfl, ?_⟩
      intro session hs
      cases hs
      exact List.mem_append_right _ (List.mem_singleton_self _)

theorem inv_trackPageView (parseUA : Option String → ParsedUA) (F : Faults) (now : Nat)
    (s : Store) (t : String) (pd : PageData) (hF : F.updateSession = Option.none)
    (hwf : s.WF) (hinv : s.CountInv) :
    (trackPageView parseUA F now s t pd).2.WF ∧
      (trackPageView parseUA F now s t pd).2.CountInv := by
  have hg := inv_getOrCreateSession parseUA F now s t
    { userAgent := pd.userAgent, ipAddress := pd.ipAddress, referrer := pd.referrer,
      pageUrl := some pd.url } hwf hinv
  unfold trackPageView
  generalize getOrCreateSession parseUA F now s t
    { userAgent := pd.userAgent, ipAddress := pd.ipAddress, referrer := pd.referrer,
      pageUrl := some pd.url } = res at hg
  obtain ⟨out, s1⟩ := res
  obtain ⟨hwf1, hinv1, hmem⟩ := hg
  cases out with
  | error e => exact ⟨hwf1, hinv1⟩
  | ok session =>
    have hin : session ∈ s1.visitor_sessions := hmem session rfl
    cases F.insertPageView with
    | some e => exact ⟨hwf1, hinv1⟩
    | none =>
      simp only [hF]
      constructor
      · exact wf_updateSessionsById _ _ (pageViewUpdate session now pd.url) (fun _ => rfl)
          (wf_insertPageViewRow s1 _ hwf1 rfl ⟨session, hin, rfl⟩)
      · exact countInv_pageView s1 session _ now pd.url hwf1 hinv1 hin rfl

theorem inv_trackEvent (F : Faults) (s : Store) (t : String) (ed : EventData)
    (hwf : s.WF) (hinv : s.CountInv) :
    (trackEvent F s t ed).2.WF ∧ (trackEvent F s t ed).2.CountInv := by
  unfold trackEvent
  cases selectSession F s t with
  | none => exact ⟨hwf, hinv⟩
  | some session =>
    cases F.insertEvent with
    | some e => exact ⟨hwf, hinv⟩
    | none => exact ⟨hwf, hinv⟩

theorem inv_updateTimeSpent (F : Faults) (now : Nat) (s : Store) (t u : String) (d : Int)
    (hwf : s.WF) (hinv : s.CountInv) :
    (updateTimeSpent F now s t u d).2.WF ∧ (updateTimeSpent F now s t u d).2.CountInv := by
  unfold updateTimeSpent
  cases selectSession F s t with
  | none => exact ⟨hwf, hinv⟩
  | some session =>
    have h1 : (match F.updateSession with
        | some _ => s
        | Option.none => updateSessionsById s session.id (timeSpentUpdate session now d)).WF ∧
        (match F.updateSession with
        | some _ => s
        | Option.none =>
          updateSessionsById s session.id (timeSpentUpdate session now d)).CountInv := by
      cases F.updateSession with
      | some e => exact ⟨hwf, hinv⟩
      | none =>
        exact ⟨wf_updateSessionsById s _ _ (fun _ => rfl) hwf,
          countInv_updateSessionsById s _ _ (fun _ => rfl) (fun _ => rfl) hinv⟩
    simp only
    generalize (match F.updateSession with
        | some _ => s
        | Option.none => updateSessionsById s session.id (timeSpentUpdate session now d)) = s1
      at h1
    cases selectRecentPageView F s1 session.id u with
    | none => exact h1
    | some p =>
      cases F.updatePageView with
      | some e => exact h1
      | none =>
        exact ⟨wf_updatePageViewsById s1 _ _ (fun _ => rfl) (fun _ => rfl) h1.1,
          countInv_updatePageViewsById s1 _ _ (fun _ => rfl) h1.2⟩

theorem inv_linkInquiryToSession (F : Faults) (s : Store) (t : String) (q : Nat)
    (hwf : s.WF) (hinv : s.CountInv) :
    (linkInquiryToSession F s t q).2.WF ∧ (linkInquiryToSession F s t q).2.CountInv := by
  unfold linkInquiryToSession
  cases F.updateSession with
  | some e => exact ⟨hwf, hinv⟩
  | none =>
    exact ⟨wf_updateSessionsByToken s _ _ (fun _ => rfl) hwf,
      countInv_updateSessionsByToken s _ _ (fun _ => rfl) (fun _ => rfl) hinv⟩

theorem inv_exec (parseUA : Option String → ParsedUA) (s : Store) (c : Call)
    (hF : c.faults.updateSession = Option.none) (hwf : s.WF) (hinv : s.CountInv) :
    (c.exec parseUA s).WF ∧ (c.exec parseUA s).CountInv := by
  unfold Call.exec
  cases c.op with
  | getOrCreateSession t m =>
    exact ⟨(inv_getOrCreateSession parseUA c.faults c.now s t m hwf hinv).1,
      (inv_getOrCreateSession parseUA c.faults c.now s t m hwf hinv).2.1⟩
  | trackPageView t pd => exact inv_trackPageView parseUA c.faults c.now s t pd hF hwf hinv
  | trackEvent t ed => exact inv_trackEvent c.faults s t ed hwf hinv
  | updateTimeSpent t u d => exact inv_updateTimeSpent c.faults c.now s t u d hwf hinv
  | linkInquiryToSession t q => exact inv_linkInquiryToSession c.faults s t q hwf hinv
  | getSummary days => exact ⟨hwf, hinv⟩

theorem inv_run (parseUA : Option String → ParsedUA) (calls : List Call) :
    ∀ s : Store, s.WF → s.CountInv →
      (∀ c ∈ calls, c.faults.updateSession = Option.none) →
      (run parseUA s calls).WF ∧ (run parseUA s calls).CountInv := by
  induction calls with
  | nil => intro s hwf hinv _; exact ⟨hwf, hinv⟩
  | cons c cs ih =>
    intro s hwf hinv hok
    have h1 := inv_exec parseUA s c (hok c (List.mem_cons_self c cs)) hwf hinv
    exact ih (c.exec parseUA s) h1.1 h1.2 (fun c2 hc2 => hok c2 (List.mem_cons_of_mem c hc2))

/-! ## The key constraints hold of every reachable store -/

theorem wf_getOrCreateSession (parseUA : Option String → ParsedUA) (F : Faults) (now : Nat)
    (s : Store) (t : String) (m : Metadata) (hwf : s.WF) :
    (getOrCreateSession parseUA F now s t m).2.WF ∧
      ∀ session, (getOrCreateSession parseUA F now s t m).1 = Except.ok session →
        session ∈ (getOrCreateSession parseUA F now s t m).2.visitor_sessions := by
  unfold getOrCreateSession
  cases hsel : selectSession F s t with
  | some existing =>
    refine ⟨hwf, ?_⟩
    intro session hs
    cases hs
    exact selectSession_mem F s t existing hsel
  | none =>
    cases F.insertSession with
    | some e =>
      refine ⟨hwf, ?_⟩
      intro session hs
      cases hs
    | none =>
      refine ⟨wf_insertSessionRow s _ hwf rfl, ?_⟩
      intro session hs
      cases hs
      exact List.mem_append_right _ (List.mem_singleton_self _)

theorem wf_trackPageView (parseUA : Option String → ParsedUA) (F : Faults) (now : Nat)
    (s : Store) (t : String) (pd : PageData) (hwf : s.WF) :
    (trackPageView parseUA F now s t pd).2.WF := by
  have hg := wf_getOrCreateSession parseUA F now s t
    { userAgent := pd.userAgent, ipAddress := pd.ipAddress, referrer := pd.referrer,
      pageUrl := some pd.url } hwf
  unfold trackPageView
  generalize getOrCreateSession parseUA F now s t
    { userAgent := pd.userAgent, ipAddress := pd.ipAddress, referrer := pd.referrer,
      pageUrl := some pd.url } = res at hg
  obtain ⟨out, s1⟩ := res
  obtain ⟨hwf1, hmem⟩ := hg
  cases out with
  | error e => exact hwf1
  | ok session =>
    have hin : session ∈ s1.visitor_sessions := hmem session rfl
    have hwf2 := wf_insertPageViewRow s1 (newPageViewRow now s1.nextPageViewId session pd)
      hwf1 rfl ⟨session, hin, rfl⟩
    cases F.insertPageView with
    | some e => exact hwf1
    | none =>
      cases F.updateSession with
      | some e => exact hwf2
      | none =>
        exact wf_updateSessionsById _ _ (pageViewUpdate session now pd.url) (fun _ => rfl) hwf2

theorem wf_exec (parseUA : Option String → ParsedUA) (s : Store) (c : Call) (hwf : s.WF) :
    (c.exec parseUA s).WF := by
  unfold Call.exec
  cases c.op with
  | getOrCreateSession t m => exact (wf_getOrCreateSession parseUA c.faults c.now s t m hwf).1
  | trackPageView t pd => exact wf_trackPageView parseUA c.faults c.now s t pd hwf
  | trackEvent t ed =>
    simp only
    unfold trackEvent
    cases selectSession c.faults s t with
    | none => exact hwf
    | some session =>
      cases c.faults.insertEvent with
      | some e => exact hwf
      | none => exact hwf
  | updateTimeSpent t u d =>
    simp only
    unfold updateTimeSpent
    cases selectSession c.faults s t with
    | none => exact hwf
    | some session =>
      have h1 : (match c.faults.updateSession with
          | some _ => s
          | Option.none =>
            updateSessionsById s session.id (timeSpentUpdate session c.now d)).WF := by
        cases c.faults.updateSession with
        | some e => exact hwf
        | none => exact wf_updateSessionsById s _ _ (fun _ => rfl) hwf
      simp only
      generalize (match c.faults.updateSession with
          | some _ => s
          | Option.none =>
            updateSessionsById s session.id (timeSpentUpdate session c.now d)) = s1 at h1
      cases selectRecentPageView c.faults s1 session.id u with
      | none => exact h1
      | some p =>
        cases c.faults.updatePageView with
        | some e => exact h1
        | none => exact wf_updatePageViewsById s1 _ _ (fun _ => rfl) (fun _ => rfl) h1
  | linkInquiryToSession t q =>
    simp only
    unfold linkInquiryToSession
    cases c.faults.updateSession with
    | some e => exact hwf
    | none => exact wf_updateSessionsByToken s _ _ (fun _ => rfl) hwf
  | getSummary days => exact hwf

/-- Every store reached from a store with the key constraints by a sequential
execution satisfies them, whichever store calls report an error. -/
theorem wf_run (parseUA : Option String → ParsedUA) (calls : List Call) :
    ∀ s : Store, s.WF → (run parseUA s calls).WF := by
  induction calls with
  | nil => intro s hwf; exact hwf
  | cons c cs ih =>
    intro s hwf
    exact ih (c.exec parseUA s) (wf_exec parseUA s c hwf)

theorem wf_empty : Store.empty.WF := by decide

/-! # The claims -/

/-- Claim C1. On a store with no session row for token `t`, a page-view call that meets
no store error succeeds and leaves exactly one session row for `t`; that row has
`page_views = 1` and `exit_page` equal to the submitted URL. When the store satisfies
its key constraints, exactly one PageView row is linked to that session row, and it
carries the submitted URL. -/
theorem trackPageView_first_creates_session (parseUA : Option String → ParsedUA) (now : Nat)
    (s : Store) (t : String) (pageData : PageData) (hnone : sessionsByToken s t = []) :
    (trackPageView parseUA Faults.none now s t pageData).1 = Except.ok { success := true } ∧
      ∃ r, sessionsByToken (trackPageView parseUA Faults.none now s t pageData).2 t = [r] ∧
        r.page_views = 1 ∧ r.exit_page = some pageData.url ∧
        (s.WF → ∃ p,
          linkedPageViews (trackPageView parseUA Faults.none now s t pageData).2 r.id = [p] ∧
          p.page_url = pageData.url) := by
  rw [trackPageView_of_session parseUA now s _ t pageData _
    (getOrCreateSession_of_empty parseUA now s t _ hnone)]
  generalize hrow : newSessionRow parseUA now s.nextSessionId t
      { userAgent := pageData.userAgent, ipAddress := pageData.ipAddress,
        referrer := pageData.referrer, pageUrl := some pageData.url } = row
  have hid : row.id = s.nextSessionId := by rw [← hrow]; rfl
  have htok : row.session_id = t := by rw [← hrow]; rfl
  have hpv : row.page_views = 0 := by rw [← hrow]; rfl
  dsimp only
  refine ⟨rfl, pageViewUpdate row now pageData.url row, ?_, ?_, rfl, ?_⟩
  · rw [sessionsByToken_updateSessionsById _ t row.id (pageViewUpdate row now pageData.url)
      (fun _ => rfl)]
    unfold sessionsByToken at hnone ⊢
    simp [insertPageViewRow, insertSessionRow, List.filter_append, hnone, htok]
  · simp [pageViewUpdate, hpv]
  · intro hwf
    have hfresh := wf_no_pageView_at_next s hwf
    have hlinked : s.page_views.filter (fun p => p.session_id = s.nextSessionId) = [] := by
      rw [List.filter_eq_nil_iff]
      intro p hp
      simpa using hfresh p hp
    refine ⟨newPageViewRow now s.nextPageViewId row pageData, ?_, rfl⟩
    simp [linkedPageViews, updateSessionsById, insertPageViewRow, insertSessionRow,
      newPageViewRow, List.filter_append, hlinked, pageViewUpdate, hid]

/-- Witness of C1: token `s2` on the sample store. -/
theorem trackPageView_first_creates_session_witness :
    sessionsByToken sampleStore "s2" = [] ∧ sampleStore.WF ∧
    ((trackPageView sampleParseUA Faults.none 20 sampleStore "s2" (samplePage "/home")).1
        = Except.ok { success := true } ∧
      ∃ r, sessionsByToken
          (trackPageView sampleParseUA Faults.none 20 sampleStore "s2" (samplePage "/home")).2
          "s2" = [r] ∧
        r.page_views = 1 ∧ r.exit_page = some (samplePage "/home").url ∧
        (sampleStore.WF → ∃ p,
          linkedPageViews
            (trackPageView sampleParseUA Faults.none 20 sampleStore "s2" (samplePage "/home")).2
            r.id = [p] ∧
          p.page_url = (samplePage "/home").url)) :=
  ⟨by decide, by decide,
    trackPageView_first_creates_session sampleParseUA 20 sampleStore "s2" (samplePage "/home")
      (by decide)⟩

/-- Claim C2. Starting from a store with no session row for token `t`, after N sequential
page-view calls for `t` that meet no store error (the calls `earlier` followed by the
call `last`, so N counts every page-view call since the session was created by the
first of them), the token has exactly one session row, its `page_views` equals N and
its `exit_page` is the URL of the last call. -/
theorem trackPageView_sequence_counts (parseUA : Option String → ParsedUA) (s : Store)
    (t : String) (earlier : List (Nat × PageData)) (last : Nat × PageData)
    (hnone : sessionsByToken s t = []) :
    ∃ r, sessionsByToken (run parseUA s (pageViewCalls t (earlier ++ [last]))) t = [r] ∧
      r.page_views = (earlier ++ [last]).length ∧ r.exit_page = some last.2.url := by
  rw [run_pageViewCalls_snoc]
  rcases run_pageViewCalls_rows parseUA s t hnone earlier with ⟨hnil, hrows⟩ | ⟨r, hrows, hcount⟩
  · obtain ⟨r, hr, hpv, hexit⟩ := trackPageView_rows_of_empty parseUA last.1 _ t last.2 hrows
    exact ⟨r, hr, by simp [hnil, hpv], hexit⟩
  · refine ⟨_, trackPageView_rows_of_single parseUA last.1 _ t last.2 r hrows, ?_, rfl⟩
    simp [pageViewUpdate, hcount]

/-- Witness of C2: three page views for token `s2` on the sample store. -/
theorem trackPageView_sequence_counts_witness :
    sessionsByToken sampleStore "s2" = [] ∧
    ∃ r, sessionsByToken (run sampleParseUA sampleStore (pageViewCalls "s2"
          ([(20, samplePage "/home"), (21, samplePage "/pricing")]
            ++ [(22, samplePage "/contact")]))) "s2" = [r] ∧
      r.page_views = ([(20, samplePage "/home"), (21, samplePage "/pricing")]
          ++ [(22, samplePage "/contact")]).length ∧
      r.exit_page = some ((22, samplePage "/contact") : Nat × PageData).2.url :=
  ⟨by decide,
    trackPageView_sequence_counts sampleParseUA sampleStore "s2"
      [(20, samplePage "/home"), (21, samplePage "/pricing")] (22, samplePage "/contact")
      (by decide)⟩

/-- Claim C3. The counter invariant is preserved by sequential execution: from a store
that satisfies its key constraints and in which the `page_views` of every session row
equals the number of PageView rows linked to it (the empty store is one), after any
sequence of calls of the service methods in which no update of a session row reports
an error (in particular after any sequence without store errors, and so after every
successful page-view call), the `page_views` of every session row again equals the
number of PageView rows linked to it. -/
theorem page_views_counts_linked_rows (parseUA : Option String → ParsedUA) (s : Store)
    (calls : List Call) (hwf : s.WF) (hinv : s.CountInv)
    (hok : ∀ c ∈ calls, c.faults.updateSession = Option.none) :
    ∀ r ∈ (run parseUA s calls).visitor_sessions,
      r.page_views = (linkedPageViews (run parseUA s calls) r.id).length :=
  (inv_run parseUA calls s hwf hinv hok).2

/-- Witness of C3: the sample execution on the sample store. -/
theorem page_views_counts_linked_rows_witness :
    sampleStore.WF ∧ sampleStore.CountInv ∧
    (∀ c ∈ sampleCalls, c.faults.updateSession = Option.none) ∧
    ∀ r ∈ (run sampleParseUA sampleStore sampleCalls).visitor_sessions,
      r.page_views = (linkedPageViews (run sampleParseUA sampleStore sampleCalls) r.id).length :=
  ⟨by decide, by decide, by decide,
    page_views_counts_linked_rows sampleParseUA sampleStore sampleCalls
      (by decide) (by decide) (by decide)⟩

/-- Claim C4. On a store with no session row for token `t`, `updateTimeSpent` resolves to
`{ success: false }` and leaves the store unchanged, whichever store calls report an
error; in particular the token still has no session row. -/
theorem updateTimeSpent_unknown_session (F : Faults) (now : Nat) (s : Store) (t : String)
    (pageUrl : String) (d : Int) (h : sessionsByToken s t = []) :
    updateTimeSpent F now s t pageUrl d = (Except.ok { success := false }, s) ∧
      sessionsByToken (updateTimeSpent F now s t pageUrl d).2 t = [] := by
  rw [updateTimeSpent_of_empty F now s t pageUrl d h]
  exact ⟨rfl, h⟩

/-- Witness of C4: token `s2` on the sample store. -/
theorem updateTimeSpent_unknown_session_witness :
    sessionsByToken sampleStore "s2" = [] ∧
    (updateTimeSpent Faults.none 30 sampleStore "s2" "/pricing" 45
        = (Except.ok { success := false }, sampleStore) ∧
      sessionsByToken (updateTimeSpent Faults.none 30 sampleStore "s2" "/pricing" 45).2 "s2"
        = []) :=
  ⟨by decide, updateTimeSpent_unknown_session Faults.none 30 sampleStore "s2" "/pricing" 45
    (by decide)⟩

/-- Counterexample to C5 as stated: on the empty store token `s1` has no session row, and
the time-spent route answers a request with all required fields with status 200 and
`{ success: true }`, not `{ success: false }`. -/
theorem timeSpentRoute_unknown_session_reports_success :
    sessionsByToken Store.empty "s1" = [] ∧
      (timeSpentRoute Faults.none 0 Store.empty
        { sessionId := some "s1", pageUrl := some "/pricing", timeSpent := some 45 }).1
        = { status := 200, success := true, message := Option.none } ∧
      ¬ (timeSpentRoute Faults.none 0 Store.empty
        { sessionId := some "s1", pageUrl := some "/pricing", timeSpent := some 45 }).1.success
        = false := by
  decide

/-- Claim C5, amended. When the time-spent route receives a request with all required
fields present, it answers with status 200 and body `{ success: true }` whether or not
the session token has a session row, and whichever store calls report an error; for a
token without a session row the store is left unchanged. -/
theorem timeSpentRoute_success_for_any_token (F : Faults) (now : Nat) (s : Store)
    (sessionId pageUrl : String) (timeSpent : Int)
    (hs : sessionId ≠ "") (hp : pageUrl ≠ "") :
    (timeSpentRoute F now s
        { sessionId := some sessionId, pageUrl := some pageUrl, timeSpent := some timeSpent }).1
      = { status := 200, success := true, message := Option.none } ∧
    (sessionsByToken s sessionId = [] →
      (timeSpentRoute F now s
        { sessionId := some sessionId, pageUrl := some pageUrl,
          timeSpent := some timeSpent }).2 = s) := by
  obtain ⟨res, hres⟩ := updateTimeSpent_ok F now s sessionId pageUrl timeSpent
  constructor
  · simp only [timeSpentRoute, falsy, hs, hp, decide_False, Bool.or_self, Bool.false_eq_true,
      if_false]
    split
    · rfl
    · rename_i e s1 heq
      rw [heq] at hres
      cases hres
  · intro h
    simp [timeSpentRoute, falsy, hs, hp, updateTimeSpent_of_empty F now s sessionId pageUrl timeSpent h]

/-- Witness of the amended C5: a known and an unknown token on the sample store. -/
theorem timeSpentRoute_success_for_any_token_witness :
    ("s2" : String) ≠ "" ∧ ("/pricing" : String) ≠ "" ∧
    ((timeSpentRoute Faults.none 30 sampleStore
        { sessionId := some "s2", pageUrl := some "/pricing", timeSpent := some 45 }).1
      = { status := 200, success := true, message := Option.none } ∧
    (sessionsByToken sampleStore "s2" = [] →
      (timeSpentRoute Faults.none 30 sampleStore
        { sessionId := some "s2", pageUrl := some "/pricing",
          timeSpent := some 45 }).2 = sampleStore)) :=
  ⟨by decide, by decide,
    timeSpentRoute_success_for_any_token Faults.none 30 sampleStore "s2" "/pricing" 45
      (by decide) (by decide)⟩

/-- Claim C6. On a store with no session row for token `t`, `trackEvent` fails with the
`Session not found` error and leaves the store unchanged, whichever store calls report
an error: no Event row and no session row is created. -/
theorem trackEvent_unknown_session (F : Faults) (s : Store) (t : String)
    (eventData : EventData) (h : sessionsByToken s t = []) :
    trackEvent F s t eventData = (Except.error ServiceError.sessionNotFound, s) ∧
      (trackEvent F s t eventData).2.events = s.events ∧
      sessionsByToken (trackEvent F s t eventData).2 t = [] := by
  have hres : trackEvent F s t eventData = (Except.error ServiceError.sessionNotFound, s) := by
    simp [trackEvent, selectSession_of_empty F s t h]
  rw [hres]
  exact ⟨rfl, rfl, h⟩

/-- Witness of C6: token `s2` on the sample store. -/
theorem trackEvent_unknown_session_witness :
    sessionsByToken sampleStore "s2" = [] ∧
    (trackEvent Faults.none sampleStore "s2"
        { name := "button_click", category := Option.none, label := Option.none,
          value := Option.none, pageUrl := Option.none, metadata := Option.none }
      = (Except.error ServiceError.sessionNotFound, sampleStore) ∧
      (trackEvent Faults.none sampleStore "s2"
        { name := "button_click", category := Option.none, label := Option.none,
          value := Option.none, pageUrl := Option.none, metadata := Option.none }).2.events
        = sampleStore.events ∧
      sessionsByToken (trackEvent Faults.none sampleStore "s2"
        { name := "button_click", category := Option.none, label := Option.none,
          value := Option.none, pageUrl := Option.none, metadata := Option.none }).2 "s2"
        = []) :=
  ⟨by decide, trackEvent_unknown_session Faults.none sampleStore "s2"
    { name := "button_click", category := Option.none, label := Option.none,
      value := Option.none, pageUrl := Option.none, metadata := Option.none } (by decide)⟩

/-- Claim C7. For a token whose session row `r` has cumulative time `T`, and every reported
duration `d` and page URL, an `updateTimeSpent` call that meets no store error resolves
to `{ success: true }` and leaves the token with the one row `r` in which
`total_time_spent` is `T + d` and `last_seen` is the clock reading; no assumption is
made on the PageView rows, so this holds whether or not one has the reported URL. -/
theorem updateTimeSpent_adds_duration (now : Nat) (s : Store) (t pageUrl : String) (d : Int)
    (r : Session) (h : sessionsByToken s t = [r]) :
    (updateTimeSpent Faults.none now s t pageUrl d).1 = Except.ok { success := true } ∧
      sessionsByToken (updateTimeSpent Faults.none now s t pageUrl d).2 t
        = [{ r with total_time_spent := r.total_time_spent + d, last_seen := now }] := by
  have hsel := selectSession_of_single s t r h
  have hrows : sessionsByToken (updateSessionsById s r.id (timeSpentUpdate r now d)) t
      = [{ r with total_time_spent := r.total_time_spent + d, last_seen := now }] := by
    rw [sessionsByToken_updateSessionsById s t r.id (timeSpentUpdate r now d) (fun _ => rfl), h]
    simp [timeSpentUpdate]
  unfold updateTimeSpent
  rw [hsel]
  simp only [Faults.none]
  split
  · exact ⟨rfl, hrows⟩
  · exact ⟨rfl, hrows⟩

/-- Witness of C7: token `s1` on the sample store, on a page it never viewed. -/
theorem updateTimeSpent_adds_duration_witness :
    sessionsByToken sampleStore "s1" = [sampleSession] ∧
    ((updateTimeSpent Faults.none 30 sampleStore "s1" "/about" 45).1
        = Except.ok { success := true } ∧
      sessionsByToken (updateTimeSpent Faults.none 30 sampleStore "s1" "/about" 45).2 "s1"
        = [{ sampleSession with
              total_time_spent := sampleSession.total_time_spent + 45, last_seen := 30 }]) :=
  ⟨by decide, updateTimeSpent_adds_duration 30 sampleStore "s1" "/about" 45 sampleSession
    (by decide)⟩

/-- Claim C8. On a store that satisfies its key constraints, for a token with session row
`r`, an `updateTimeSpent` call that meets no store error either finds no PageView row
of `r` with the reported URL and leaves the PageView table as it was, or there is a
PageView row `p` of `r` with the reported URL whose `viewed_at` no other such row
exceeds, and the PageView table afterwards is the old one with `time_spent` of `p`
set to the reported duration (whatever it was before) and every other row
unchanged. -/
theorem updateTimeSpent_overwrites_latest_view (now : Nat) (s : Store) (t pageUrl : String)
    (d : Int) (r : Session) (hwf : s.WF) (h : sessionsByToken s t = [r]) :
    (pageViewsFor s r.id pageUrl = [] ∧
      (updateTimeSpent Faults.none now s t pageUrl d).2.page_views = s.page_views) ∨
    ∃ p, p ∈ s.page_views ∧ p.session_id = r.id ∧ p.page_url = pageUrl ∧
      (∀ q ∈ s.page_views, q.session_id = r.id → q.page_url = pageUrl →
        q.viewed_at ≤ p.viewed_at) ∧
      (updateTimeSpent Faults.none now s t pageUrl d).2.page_views
        = s.page_views.map (fun q => if q = p then { p with time_spent := some d } else q) := by
  rw [updateTimeSpent_of_single now s t pageUrl d r h]
  rcases selectRecentPageView_spec s r.id pageUrl with ⟨hnil, hnone⟩ | ⟨p, hsome, hmem, hmax⟩
  · left
    refine ⟨hnil, ?_⟩
    rw [hnone]
    rfl
  · right
    have hmem2 : p ∈ s.page_views ∧ p.session_id = r.id ∧ p.page_url = pageUrl := by
      simpa [pageViewsFor, List.mem_filter] using hmem
    refine ⟨p, hmem2.1, hmem2.2.1, hmem2.2.2, ?_, ?_⟩
    · intro q hq hk hu
      apply hmax
      simp [pageViewsFor, List.mem_filter, hq, hk, hu]
    · rw [hsome]
      show s.page_views.map (fun q => if q.id = p.id then pageTimeUpdate d q else q) = _
      exact map_update_by_id s.page_views p (pageTimeUpdate d) hwf.2.2.1 hmem2.1

/-- Witness of C8: token `s1` on the sample store, which viewed `/pricing` twice. -/
theorem updateTimeSpent_overwrites_latest_view_witness :
    sampleStore.WF ∧ sessionsByToken sampleStore "s1" = [sampleSession] ∧
    ((pageViewsFor sampleStore sampleSession.id "/pricing" = [] ∧
      (updateTimeSpent Faults.none 30 sampleStore "s1" "/pricing" 45).2.page_views
        = sampleStore.page_views) ∨
    ∃ p, p ∈ sampleStore.page_views ∧ p.session_id = sampleSession.id ∧
      p.page_url = "/pricing" ∧
      (∀ q ∈ sampleStore.page_views, q.session_id = sampleSession.id →
        q.page_url = "/pricing" → q.viewed_at ≤ p.viewed_at) ∧
      (updateTimeSpent Faults.none 30 sampleStore "s1" "/pricing" 45).2.page_views
        = sampleStore.page_views.map
            (fun q => if q = p then { p with time_spent := some 45 } else q)) :=
  ⟨by decide, by decide,
    updateTimeSpent_overwrites_latest_view 30 sampleStore "s1" "/pricing" 45 sampleSession
      (by decide) (by decide)⟩

/-- Claim C9. The method `linkInquiryToSession` is idempotent: for every store, token `t`
and inquiry id `q`, a second call with the same arguments leaves the store that the
first call left (also when the update reports an error, which changes nothing); and
after one call or two calls that meet no store error, the session rows of `t` are the
old ones with `submitted_inquiry = true` and `inquiry_id = q`. -/
theorem linkInquiryToSession_idempotent (F : Faults) (s : Store) (t : String) (q : Nat) :
    (linkInquiryToSession F (linkInquiryToSession F s t q).2 t q).2
        = (linkInquiryToSession F s t q).2 ∧
      sessionsByToken (linkInquiryToSession Faults.none s t q).2 t
        = (sessionsByToken s t).map (fun r =>
            { r with submitted_inquiry := true, inquiry_id := some q }) ∧
      (∀ r ∈ sessionsByToken (linkInquiryToSession Faults.none s t q).2 t,
        r.submitted_inquiry = true ∧ r.inquiry_id = some q) ∧
      (∀ r ∈ sessionsByToken (linkInquiryToSession Faults.none
          (linkInquiryToSession Faults.none s t q).2 t q).2 t,
        r.submitted_inquiry = true ∧ r.inquiry_id = some q) := by
  have hidem : ∀ G : Faults, (linkInquiryToSession G (linkInquiryToSession G s t q).2 t q).2
        = (linkInquiryToSession G s t q).2 := by
    intro G
    unfold linkInquiryToSession
    cases G.updateSession with
    | some e => rfl
    | none =>
      simp only
      exact updateSessionsByToken_idem s t (inquiryUpdate q) (fun _ => rfl) (fun _ => rfl)
  have hrows : sessionsByToken (linkInquiryToSession Faults.none s t q).2 t
        = (sessionsByToken s t).map (fun r =>
            { r with submitted_inquiry := true, inquiry_id := some q }) :=
    sessionsByToken_updateSessionsByToken s t (inquiryUpdate q) (fun _ => rfl)
  have hflag : ∀ r ∈ sessionsByToken (linkInquiryToSession Faults.none s t q).2 t,
        r.submitted_inquiry = true ∧ r.inquiry_id = some q := by
    intro r hr
    rw [hrows] at hr
    obtain ⟨r0, _, rfl⟩ := List.mem_map.mp hr
    exact ⟨rfl, rfl⟩
  refine ⟨hidem F, hrows, hflag, ?_⟩
  rw [hidem Faults.none]
  exact hflag

/-- Claim C10. On a store with no session row for token `t`, a `linkInquiryToSession` call
whose update reports no error resolves to `{ success: true }`, raises nothing and
leaves the store unchanged. -/
theorem linkInquiryToSession_unknown_session (s : Store) (t : String) (q : Nat)
    (h : sessionsByToken s t = []) :
    linkInquiryToSession Faults.none s t q = (Except.ok { success := true }, s) := by
  simp [linkInquiryToSession, Faults.none, updateSessionsByToken_of_empty s t _ h]

/-- Witness of C10: token `s2` on the sample store. -/
theorem linkInquiryToSession_unknown_session_witness :
    sessionsByToken sampleStore "s2" = [] ∧
    linkInquiryToSession Faults.none sampleStore "s2" 5
      = (Except.ok { success := true }, sampleStore) :=
  ⟨by decide, linkInquiryToSession_unknown_session sampleStore "s2" 5 (by decide)⟩

/-! # Theorems for the second group of claims -/

/-! ## One row per token -/

theorem filter_token_eq_nil (l : List Session) (t : String)
    (h : t ∉ l.map (fun r => r.session_id)) :
    l.filter (fun r => r.session_id = t) = [] := by
  rw [List.filter_eq_nil_iff]
  intro r hr
  have hne : r.session_id ≠ t := by
    intro heq
    exact h (heq ▸ List.mem_map_of_mem (fun r => r.session_id) hr)
  simpa using hne

theorem token_not_mem_of_filter_nil (l : List Session) (t : String)
    (h : l.filter (fun r => r.session_id = t) = []) :
    t ∉ l.map (fun r => r.session_id) := by
  intro hmem
  obtain ⟨r, hr, htok⟩ := List.mem_map.mp hmem
  have : r ∈ l.filter (fun r => r.session_id = t) := by
    simp [List.mem_filter, hr, htok]
  rw [h] at this
  exact absurd this (List.not_mem_nil r)

theorem filter_token_of_nodup (l : List Session) (t : String)
    (h : (l.map (fun r => r.session_id)).Nodup) :
    l.filter (fun r => r.session_id = t) = [] ∨
      ∃ r, l.filter (fun r => r.session_id = t) = [r] := by
  induction l with
  | nil => exact Or.inl rfl
  | cons r rs ih =>
    rw [List.map_cons, List.nodup_cons] at h
    by_cases hr : r.session_id = t
    · right
      refine ⟨r, ?_⟩
      have hnil := filter_token_eq_nil rs t (hr ▸ h.1)
      simp [List.filter_cons, hr, hnil]
    · rcases ih h.2 with h0 | ⟨r0, h0⟩
      · left
        simp [List.filter_cons, hr, h0]
      · right
        exact ⟨r0, by simp [List.filter_cons, hr, h0]⟩

theorem sessionsByToken_of_unique (s : Store) (t : String) (hu : s.UniqueTokens) :
    sessionsByToken s t = [] ∨ ∃ r, sessionsByToken s t = [r] :=
  filter_token_of_nodup s.visitor_sessions t hu

/-- With one row per token, a lookup that reports no error and yields no data means
that the token has no row. -/
theorem sessionsByToken_of_select_none (F : Faults) (s : Store) (t : String)
    (hu : s.UniqueTokens) (hF : F.selectSession = Option.none)
    (h : selectSession F s t = Option.none) : sessionsByToken s t = [] := by
  rcases sessionsByToken_of_unique s t hu with h0 | ⟨r, h0⟩
  · exact h0
  · simp [selectSession, hF, h0, single] at h

theorem unique_insertSessionRow (s : Store) (row : Session) (hu : s.UniqueTokens)
    (hnone : sessionsByToken s row.session_id = []) : (insertSessionRow s row).UniqueTokens := by
  show ((s.visitor_sessions ++ [row]).map (fun r => r.session_id)).Nodup
  rw [List.map_append, List.nodup_append]
  refine ⟨hu, List.nodup_singleton _, ?_⟩
  intro a ha hb
  have hnot := token_not_mem_of_filter_nil s.visitor_sessions row.session_id hnone
  simp at hb
  exact hnot (hb ▸ ha)

theorem unique_mapSessions (s : Store) (g : Session → Session)
    (hg : ∀ r, (g r).session_id = r.session_id) (hu : s.UniqueTokens) :
    ({ s with visitor_sessions := s.visitor_sessions.map g } : Store).UniqueTokens := by
  show ((s.visitor_sessions.map g).map (fun r => r.session_id)).Nodup
  have : (s.visitor_sessions.map g).map (fun r => r.session_id)
      = s.visitor_sessions.map (fun r => r.session_id) := by
    rw [List.map_map]
    apply List.map_congr_left
    intro r _
    exact hg r
  rw [this]
  exact hu

theorem unique_updateSessionsById (s : Store) (id : Nat) (f : Session → Session)
    (hf : ∀ r, (f r).session_id = r.session_id) (hu : s.UniqueTokens) :
    (updateSessionsById s id f).UniqueTokens := by
  apply unique_mapSessions s _ _ hu
  intro r
  by_cases h : r.id = id <;> simp [h, hf]

theorem unique_updateSessionsByToken (s : Store) (t : String) (f : Session → Session)
    (hf : ∀ r, (f r).session_id = r.session_id) (hu : s.UniqueTokens) :
    (updateSessionsByToken s t f).UniqueTokens := by
  apply unique_mapSessions s _ _ hu
  intro r
  by_cases h : r.session_id = t <;> simp [h, hf]

theorem unique_getOrCreateSession (parseUA : Option String → ParsedUA) (F : Faults)
    (now : Nat) (s : Store) (t : String) (m : Metadata) (hu : s.UniqueTokens)
    (hF : F.selectSession = Option.none) :
    (getOrCreateSession parseUA F now s t m).2.UniqueTokens := by
  unfold getOrCreateSession
  cases hsel : selectSession F s t with
  | some existing => exact hu
  | none =>
    cases F.insertSession with
    | some e => exact hu
    | none =>
      exact unique_insertSessionRow s _ hu (sessionsByToken_of_select_none F s t hu hF hsel)

theorem unique_trackPageView (parseUA : Option String → ParsedUA) (F : Faults)
    (now : Nat) (s : Store) (t : String) (pd : PageData) (hu : s.UniqueTokens)
    (hF : F.selectSession = Option.none) :
    (trackPageView parseUA F now s t pd).2.UniqueTokens := by
  have hg := unique_getOrCreateSession parseUA F now s t
    { userAgent := pd.userAgent, ipAddress := pd.ipAddress, referrer := pd.referrer,
      pageUrl := some pd.url } hu hF
  unfold trackPageView
  generalize getOrCreateSession parseUA F now s t
    { userAgent := pd.userAgent, ipAddress := pd.ipAddress, referrer := pd.referrer,
      pageUrl := some pd.url } = res at hg
  obtain ⟨out, s1⟩ := res
  cases out with
  | error e => exact hg
  | ok session =>
    cases F.insertPageView with
    | some e => exact hg
    | none =>
      cases F.updateSession with
      | some e => exact hg
      | none =>
        exact unique_updateSessionsById _ _ (pageViewUpdate session now pd.url) (fun _ => rfl) hg

theorem unique_exec (parseUA : Option String → ParsedUA) (s : Store) (c : Call)
    (hF : c.faults.selectSession = Option.none) (hu : s.UniqueTokens) :
    (c.exec parseUA s).UniqueTokens := by
  unfold Call.exec
  cases c.op with
  | getOrCreateSession t m => exact unique_getOrCreateSession parseUA c.faults c.now s t m hu hF
  | trackPageView t pd => exact unique_trackPageView parseUA c.faults c.now s t pd hu hF
  | trackEvent t ed =>
    simp only
    unfold trackEvent
    cases selectSession c.faults s t with
    | none => exact hu
    | some session =>
      cases c.faults.insertEvent with
      | some e => exact hu
      | none => exact hu
  | updateTimeSpent t u d =>
    simp only
    unfold updateTimeSpent
    cases selectSession c.faults s t with
    | none => exact hu
    | some session =>
      have h1 : (match c.faults.updateSession with
          | some _ => s
          | Option.none =>
            updateSessionsById s session.id (timeSpentUpdate session c.now d)).UniqueTokens := by
        cases c.faults.updateSession with
        | some e => exact hu
        | none => exact unique_updateSessionsById s _ _ (fun _ => rfl) hu
      simp only
      generalize (match c.faults.updateSession with
          | some _ => s
          | Option.none =>
            updateSessionsById s session.id (timeSpentUpdate session c.now d)) = s1 at h1
      cases selectRecentPageView c.faults s1 session.id u with
      | none => exact h1
      | some p =>
        cases c.faults.updatePageView with
        | some e => exact h1
        | none => exact h1
  | linkInquiryToSession t q =>
    simp only
    unfold linkInquiryToSession
    cases c.faults.updateSession with
    | some e => exact hu
    | none => exact unique_updateSessionsByToken s _ _ (fun _ => rfl) hu
  | getSummary days => exact hu

theorem unique_run (parseUA : Option String → ParsedUA) (calls : List Call) :
    ∀ s : Store, s.UniqueTokens → (∀ c ∈ calls, c.faults.selectSession = Option.none) →
      (run parseUA s calls).UniqueTokens := by
  induction calls with
  | nil => intro s hu _; exact hu
  | cons c cs ih =>
    intro s hu hok
    exact ih (c.exec parseUA s)
      (unique_exec parseUA s c (hok c (List.mem_cons_self c cs)) hu)
      (fun c2 hc2 => hok c2 (List.mem_cons_of_mem c hc2))

/-- With one row per token, `getOrCreateSession` on a token that has a row returns
that row and leaves the store as it was. -/
theorem getOrCreateSession_of_mem (parseUA : Option String → ParsedUA) (F : Faults)
    (now : Nat) (s : Store) (t : String) (m : Metadata) (r : Session)
    (hu : s.UniqueTokens) (hF : F.selectSession = Option.none)
    (hr : r ∈ sessionsByToken s t) :
    getOrCreateSession parseUA F now s t m = (Except.ok r, s) := by
  have hrows : sessionsByToken s t = [r] := by
    rcases sessionsByToken_of_unique s t hu with h0 | ⟨r0, h0⟩
    · rw [h0] at hr
      exact absurd hr (List.not_mem_nil r)
    · rw [h0] at hr
      rw [h0, List.mem_singleton.mp hr]
  unfold getOrCreateSession
  have hsel : selectSession F s t = some r := by
    simp [selectSession, hF, hrows, single]
  rw [hsel]

/-! ## Device class, new rows and events -/

theorem getDeviceType_eq (ua : ParsedUA) :
    getDeviceType ua = if ua.deviceFamily = "Other" then "desktop" else "mobile" := by
  unfold getDeviceType
  by_cases hOther : ua.deviceFamily = "Other"
  · have h1 : ¬ (ua.deviceFamily = "iPhone" ∨ ua.deviceFamily = "iPad") := by
      rw [hOther]
      decide
    simp [hOther]
  · by_cases hPhone : ua.deviceFamily = "iPhone" ∨ ua.deviceFamily = "iPad"
    · simp [hOther, hPhone]
    · simp [hOther, hPhone]

theorem trackEvent_of_empty (F : Faults) (s : Store) (t : String) (ed : EventData)
    (h : sessionsByToken s t = []) :
    trackEvent F s t ed = (Except.error ServiceError.sessionNotFound, s) := by
  simp [trackEvent, selectSession_of_empty F s t h]

theorem trackEvent_of_single (s : Store) (t : String) (ed : EventData) (r : Session)
    (h : sessionsByToken s t = [r]) :
    trackEvent Faults.none s t ed
      = (Except.ok { success := true },
          insertEventRow s (newEventRow s.nextEventId r.id ed)) := by
  unfold trackEvent
  rw [selectSession_of_single s t r h]
  rfl

theorem sessionsByToken_insertSessionRow_of_empty (s : Store) (row : Session)
    (h : sessionsByToken s row.session_id = []) :
    sessionsByToken (insertSessionRow s row) row.session_id = [row] := by
  unfold sessionsByToken at h ⊢
  simp [insertSessionRow, List.filter_append, h]

/-! ## Validation in the routes -/

theorem falsy_iff (v : Option String) :
    falsy v = true ↔ (v = Option.none ∨ v = some "") := by
  cases v with
  | none => simp [falsy]
  | some x => simp [falsy]

theorem pageViewRoute_rejects (parseUA : Option String → ParsedUA) (F : Faults) (now : Nat)
    (s : Store) (req : PageViewRequest)
    (h : falsy req.sessionId = true ∨ falsy req.url = true) :
    pageViewRoute parseUA F now s req
      = ({ status := 400, success := false,
           message := some "Session ID and URL are required" }, s) := by
  unfold pageViewRoute
  cases hs : req.sessionId with
  | none => rfl
  | some sid =>
    cases hu : req.url with
    | none => rfl
    | some url =>
      rw [hs, hu] at h
      have hb : (falsy (some sid) || falsy (some url)) = true := by
        rcases h with h | h <;> simp [h]
      simp only [hb, if_true]

theorem pageViewRoute_accepts (parseUA : Option String → ParsedUA) (F : Faults) (now : Nat)
    (s : Store) (req : PageViewRequest)
    (h : ¬ (falsy req.sessionId = true ∨ falsy req.url = true)) :
    (pageViewRoute parseUA F now s req).1.status = 200 ∨
      (pageViewRoute parseUA F now s req).1.status = 500 := by
  unfold pageViewRoute
  cases hs : req.sessionId with
  | none => exact absurd (Or.inl (by rw [hs]; rfl)) h
  | some sid =>
    cases hu : req.url with
    | none => exact absurd (Or.inr (by rw [hu]; rfl)) h
    | some url =>
      rw [hs, hu] at h
      have hb : (falsy (some sid) || falsy (some url)) = false := by
        cases h1 : falsy (some sid) <;> cases h2 : falsy (some url) <;> simp_all
      simp only [hb, Bool.false_eq_true, if_false]
      split
      · exact Or.inl rfl
      · exact Or.inr rfl

theorem eventRoute_rejects (F : Faults) (s : Store) (body : EventBody)
    (h : falsy body.sessionId = true ∨ falsy body.name = true) :
    eventRoute F s body
      = ({ status := 400, success := false,
           message := some "Session ID and event name are required" }, s) := by
  unfold eventRoute
  cases hs : body.sessionId with
  | none => rfl
  | some sid =>
    cases hu : body.name with
    | none => rfl
    | some name =>
      rw [hs, hu] at h
      have hb : (falsy (some sid) || falsy (some name)) = true := by
        rcases h with h | h <;> simp [h]
      simp only [hb, if_true]

theorem eventRoute_accepts (F : Faults) (s : Store) (body : EventBody)
    (h : ¬ (falsy body.sessionId = true ∨ falsy body.name = true)) :
    (eventRoute F s body).1.status = 200 ∨ (eventRoute F s body).1.status = 500 := by
  unfold eventRoute
  cases hs : body.sessionId with
  | none => exact absurd (Or.inl (by rw [hs]; rfl)) h
  | some sid =>
    cases hu : body.name with
    | none => exact absurd (Or.inr (by rw [hu]; rfl)) h
    | some name =>
      rw [hs, hu] at h
      have hb : (falsy (some sid) || falsy (some name)) = false := by
        cases h1 : falsy (some sid) <;> cases h2 : falsy (some name) <;> simp_all
      simp only [hb, Bool.false_eq_true, if_false]
      split
      · exact Or.inl rfl
      · exact Or.inr rfl

theorem timeSpentRoute_rejects (F : Faults) (now : Nat) (s : Store) (body : TimeSpentBody)
    (h : falsy body.sessionId = true ∨ falsy body.pageUrl = true ∨
      body.timeSpent = Option.none) :
    timeSpentRoute F now s body
      = ({ status := 400, success := false,
           message := some "Session ID, page URL, and time spent are required" }, s) := by
  unfold timeSpentRoute
  cases hs : body.sessionId with
  | none => rfl
  | some sid =>
    cases hu : body.pageUrl with
    | none => rfl
    | some url =>
      cases ht : body.timeSpent with
      | none => rfl
      | some d =>
        rw [hs, hu, ht] at h
        have hb : (falsy (some sid) || falsy (some url)) = true := by
          rcases h with h | h | h
          · simp [h]
          · simp [h]
          · cases h
        simp only [hb, if_true]

theorem timeSpentRoute_accepts (F : Faults) (now : Nat) (s : Store) (body : TimeSpentBody)
    (h : ¬ (falsy body.sessionId = true ∨ falsy body.pageUrl = true ∨
      body.timeSpent = Option.none)) :
    (timeSpentRoute F now s body).1.status = 200 ∨
      (timeSpentRoute F now s body).1.status = 500 := by
  unfold timeSpentRoute
  cases hs : body.sessionId with
  | none => exact absurd (Or.inl (by rw [hs]; rfl)) h
  | some sid =>
    cases hu : body.pageUrl with
    | none => exact absurd (Or.inr (Or.inl (by rw [hu]; rfl))) h
    | some url =>
      cases ht : body.timeSpent with
      | none => exact absurd (Or.inr (Or.inr ht)) h
      | some d =>
        rw [hs, hu, ht] at h
        have hb : (falsy (some sid) || falsy (some url)) = false := by
          cases h1 : falsy (some sid) <;> cases h2 : falsy (some url) <;> simp_all
        simp only [hb, Bool.false_eq_true, if_false]
        split
        · exact Or.inl rfl
        · exact Or.inr rfl

/-! ## Store errors in `trackPageView` -/

theorem selectSession_of_fault (F : Faults) (s : Store) (t e : String)
    (h : F.selectSession = some e) : selectSession F s t = Option.none := by
  simp [selectSession, h]

theorem trackPageView_insertSession_fault (parseUA : Option String → ParsedUA) (F : Faults)
    (now : Nat) (s : Store) (t : String) (pd : PageData) (e : String)
    (hins : F.insertSession = some e) (hsel : selectSession F s t = Option.none) :
    trackPageView parseUA F now s t pd = (Except.error (ServiceError.store e), s) := by
  simp [trackPageView, getOrCreateSession, hsel, hins]

theorem trackPageView_insertPageView_fault (parseUA : Option String → ParsedUA) (F : Faults)
    (now : Nat) (s s1 : Store) (t : String) (pd : PageData) (e : String) (session : Session)
    (hins : F.insertPageView = some e)
    (hg : getOrCreateSession parseUA F now s t
      { userAgent := pd.userAgent, ipAddress := pd.ipAddress, referrer := pd.referrer,
        pageUrl := some pd.url } = (Except.ok session, s1)) :
    trackPageView parseUA F now s t pd = (Except.error (ServiceError.store e), s1) := by
  unfold trackPageView
  rw [hg]
  simp [hins]

theorem tokens_updateSessionsById (s : Store) (id : Nat) (f : Session → Session)
    (hf : ∀ r, (f r).session_id = r.session_id) :
    (updateSessionsById s id f).visitor_sessions.map (fun r => r.session_id)
      = s.visitor_sessions.map (fun r => r.session_id) := by
  unfold updateSessionsById
  simp only [List.map_map]
  apply List.map_congr_left
  intro r _
  by_cases h : r.id = id <;> simp [h, hf]

theorem trackPageView_lookup_fault (parseUA : Option String → ParsedUA) (F : Faults)
    (now : Nat) (s : Store) (t : String) (pd : PageData) (e : String)
    (hsel : F.selectSession = some e) (h1 : F.insertSession = Option.none)
    (h2 : F.insertPageView = Option.none) (h3 : F.updateSession = Option.none) :
    (trackPageView parseUA F now s t pd).1 = Except.ok { success := true } ∧
      (trackPageView parseUA F now s t pd).2.visitor_sessions.map (fun r => r.session_id)
        = s.visitor_sessions.map (fun r => r.session_id) ++ [t] := by
  generalize hrow : newSessionRow parseUA now s.nextSessionId t
      { userAgent := pd.userAgent, ipAddress := pd.ipAddress, referrer := pd.referrer,
        pageUrl := some pd.url } = row
  have htok : row.session_id = t := by rw [← hrow]; rfl
  have hg : getOrCreateSession parseUA F now s t
      { userAgent := pd.userAgent, ipAddress := pd.ipAddress, referrer := pd.referrer,
        pageUrl := some pd.url } = (Except.ok row, insertSessionRow s row) := by
    simp [getOrCreateSession, selectSession_of_fault F s t e hsel, h1, hrow]
  have heq : trackPageView parseUA F now s t pd
      = (Except.ok { success := true },
          updateSessionsById
            (insertPageViewRow (insertSessionRow s row)
              (newPageViewRow now (insertSessionRow s row).nextPageViewId row pd))
            row.id (pageViewUpdate row now pd.url)) := by
    unfold trackPageView
    rw [hg]
    simp only [h2, h3]
  rw [heq]
  refine ⟨rfl, ?_⟩
  dsimp only
  rw [tokens_updateSessionsById _ row.id (pageViewUpdate row now pd.url) (fun _ => rfl)]
  simp [insertPageViewRow, insertSessionRow, htok]

/-! ## The summary window -/

theorem summaryDays_of_nan (q : Option String) (h : parseInt q = Option.none) :
    summaryDays q = 30 := by
  simp [summaryDays, h]

theorem summaryDays_of_zero (q : Option String) (h : parseInt q = some 0) :
    summaryDays q = 30 := by
  simp [summaryDays, h]

theorem summaryDays_of_nonzero (q : Option String) (n : Int) (h : parseInt q = some n)
    (hn : n ≠ 0) : summaryDays q = n := by
  simp [summaryDays, h, hn]

theorem summaryDays_ne_zero (q : Option String) : summaryDays q ≠ 0 := by
  unfold summaryDays
  cases parseInt q with
  | none => decide
  | some n =>
    by_cases hn : n = 0
    · simp [hn]
    · simp [hn]

theorem summaryDays_pos_iff (q : Option String) :
    0 < summaryDays q ↔ ¬ ∃ n, parseInt q = some n ∧ n < 0 := by
  unfold summaryDays
  cases parseInt q with
  | none => simp
  | some n =>
    by_cases hn : n = 0
    · simp [hn]
    · simp only [hn, if_false, Option.some.injEq, exists_eq_left', not_lt]
      omega

/-- The readings of `parseInt` on the kinds of `days` values a request can carry. -/
theorem parseInt_samples :
    parseInt Option.none = Option.none ∧ parseInt (some "abc") = Option.none ∧
      parseInt (some "") = Option.none ∧ parseInt (some "30") = some 30 ∧
      parseInt (some "0") = some 0 ∧ parseInt (some "-5") = some (-5) ∧
      parseInt (some "2.7") = some 2 ∧ parseInt (some "12abc") = some 12 ∧
      parseInt (some "  +42") = some 42 ∧ parseInt (some "0x1A") = some 26 := by
  decide

/-- The summary of the sample views on day 1000 with a window of 30 days: the row of day
969 is left out, the others come latest first, and ten of the twelve top pages are
returned. -/
theorem getSummary_sample :
    (getSummary sampleViews SummaryFaults.none 1000 sampleStore 30).1
      = Except.ok
          { stats := some [ { date := 1000, columns := "b" }, { date := 985, columns := "d" },
                            { date := 970, columns := "c" } ],
            topPages := some ((List.range 10).map (fun i => { columns := toString i })),
            sources := some [ { columns := "direct" }, { columns := "search" } ] } := by
  rfl

theorem summaryRoute_congr (V : ReportingViews) (F : SummaryFaults) (today : Int) (s : Store)
    (q1 q2 : Option String) (h : summaryDays q1 = summaryDays q2) :
    summaryRoute V F today s q1 = summaryRoute V F today s q2 := by
  unfold summaryRoute
  rw [h]

theorem getSummary_store (V : ReportingViews) (F : SummaryFaults) (today : Int) (s : Store)
    (d : Int) : (getSummary V F today s d).2 = s := rfl

theorem getSummary_noFault (V : ReportingViews) (today : Int) (s : Store) (d : Int) :
    getSummary V SummaryFaults.none today s d
      = (Except.ok
          { stats := some (orderByDateDesc
              ((V.daily_visitor_stats s).filter (fun r => today - d ≤ r.date))),
            topPages := some ((V.top_pages s).take 10),
            sources := some (V.traffic_sources s) }, s) := rfl

theorem mem_orderByDateDesc (rows : List DailyStat) (r : DailyStat) :
    r ∈ orderByDateDesc rows ↔ r ∈ rows :=
  (List.perm_insertionSort (fun a b : DailyStat => a.date ≥ b.date) rows).mem_iff

theorem sorted_orderByDateDesc (rows : List DailyStat) :
    (orderByDateDesc rows).Sorted (fun a b => a.date ≥ b.date) :=
  List.sorted_insertionSort (fun a b : DailyStat => a.date ≥ b.date) rows

theorem perm_orderByDateDesc (rows : List DailyStat) :
    (orderByDateDesc rows).Perm rows :=
  List.perm_insertionSort (fun a b : DailyStat => a.date ≥ b.date) rows

theorem trackPageView_rows_of_empty_eq (parseUA : Option String → ParsedUA) (now : Nat)
    (s : Store) (t : String) (pd : PageData) (hnone : sessionsByToken s t = []) :
    sessionsByToken (trackPageView parseUA Faults.none now s t pd).2 t
      = [pageViewUpdate
          (newSessionRow parseUA now s.nextSessionId t
            { userAgent := pd.userAgent, ipAddress := pd.ipAddress, referrer := pd.referrer,
              pageUrl := some pd.url }) now pd.url
          (newSessionRow parseUA now s.nextSessionId t
            { userAgent := pd.userAgent, ipAddress := pd.ipAddress, referrer := pd.referrer,
              pageUrl := some pd.url })] := by
  rw [trackPageView_of_session parseUA now s _ t pd _
    (getOrCreateSession_of_empty parseUA now s t _ hnone)]
  generalize hrow : newSessionRow parseUA now s.nextSessionId t
      { userAgent := pd.userAgent, ipAddress := pd.ipAddress,
        referrer := pd.referrer, pageUrl := some pd.url } = row
  have htok : row.session_id = t := by rw [← hrow]; rfl
  dsimp only
  rw [sessionsByToken_updateSessionsById _ t row.id (pageViewUpdate row now pd.url)
    (fun _ => rfl)]
  unfold sessionsByToken at hnone ⊢
  simp [insertPageViewRow, insertSessionRow, List.filter_append, hnone, htok]

/-! # The second group of claims -/

/-- Claim C11. At most one session row per token is preserved by sequential execution:
from a store whose rows have pairwise distinct tokens, after any sequence of calls of
`getOrCreateSession`, `trackPageView`, `trackEvent`, `updateTimeSpent`,
`linkInquiryToSession` (and `getSummary`) in which no session lookup reports a store
error, the rows again have pairwise distinct tokens, so every token has at most one
row; and on such a store `getOrCreateSession` for a token that has a row returns that
row and leaves the store as it was. -/
theorem one_session_row_per_token (parseUA : Option String → ParsedUA) (s : Store)
    (calls : List Call) (hu : s.UniqueTokens)
    (hok : ∀ c ∈ calls, c.faults.selectSession = Option.none) :
    (run parseUA s calls).UniqueTokens ∧
      (∀ t, (sessionsByToken (run parseUA s calls) t).length ≤ 1) ∧
      ∀ (F : Faults) (now : Nat) (t : String) (m : Metadata) (r : Session),
        F.selectSession = Option.none → r ∈ sessionsByToken (run parseUA s calls) t →
        getOrCreateSession parseUA F now (run parseUA s calls) t m
          = (Except.ok r, run parseUA s calls) := by
  have hrun := unique_run parseUA calls s hu hok
  refine ⟨hrun, ?_, ?_⟩
  · intro t
    rcases sessionsByToken_of_unique (run parseUA s calls) t hrun with h0 | ⟨r, h0⟩
    · simp [h0]
    · simp [h0]
  · intro F now t m r hF hr
    exact getOrCreateSession_of_mem parseUA F now (run parseUA s calls) t m r hrun hF hr

/-- Witness of C11: the sample execution on the sample store. -/
theorem one_session_row_per_token_witness :
    sampleStore.UniqueTokens ∧
    (∀ c ∈ sampleCalls, c.faults.selectSession = Option.none) ∧
    ((run sampleParseUA sampleStore sampleCalls).UniqueTokens ∧
      (∀ t, (sessionsByToken (run sampleParseUA sampleStore sampleCalls) t).length ≤ 1) ∧
      ∀ (F : Faults) (now : Nat) (t : String) (m : Metadata) (r : Session),
        F.selectSession = Option.none →
        r ∈ sessionsByToken (run sampleParseUA sampleStore sampleCalls) t →
        getOrCreateSession sampleParseUA F now (run sampleParseUA sampleStore sampleCalls) t m
          = (Except.ok r, run sampleParseUA sampleStore sampleCalls)) :=
  ⟨by decide, by decide,
    one_session_row_per_token sampleParseUA sampleStore sampleCalls (by decide) (by decide)⟩

/-- Claim C12. For every parsed user agent `getDeviceType` returns `desktop` exactly when
the device family is the literal string `Other`, and `mobile` in every other case; in
particular the families `iPhone` and `iPad` are classified as `mobile`. -/
theorem getDeviceType_desktop_iff_other (ua : ParsedUA) :
    (getDeviceType ua = "desktop" ↔ ua.deviceFamily = "Other") ∧
      (getDeviceType ua = "mobile" ↔ ua.deviceFamily ≠ "Other") ∧
      ((ua.deviceFamily = "iPhone" ∨ ua.deviceFamily = "iPad") →
        getDeviceType ua = "mobile") := by
  rw [getDeviceType_eq]
  by_cases h : ua.deviceFamily = "Other"
  · refine ⟨by simp [h], by simp [h], ?_⟩
    rw [h]
    decide
  · refine ⟨by simp [h], by simp [h], ?_⟩
    intro _
    simp [h]

/-- Claim C13. On a store with no session row for token `t`, a `getOrCreateSession` call
that meets no store error inserts and returns one row for `t` with `page_views = 0`,
`total_time_spent = 0`, `submitted_inquiry = false` and `landing_page` equal to the
page URL of its metadata; when the row is created by `trackPageView`, that is the URL
of the page view, and it is still the landing page of the row, with no time spent and
no inquiry, when the call returns. -/
theorem new_session_row_defaults (parseUA : Option String → ParsedUA) (now : Nat)
    (s : Store) (t : String) (m : Metadata) (hnone : sessionsByToken s t = []) :
    (∃ r, getOrCreateSession parseUA Faults.none now s t m
          = (Except.ok r, insertSessionRow s r) ∧
        sessionsByToken (getOrCreateSession parseUA Faults.none now s t m).2 t = [r] ∧
        r.session_id = t ∧ r.page_views = 0 ∧ r.total_time_spent = 0 ∧
        r.submitted_inquiry = false ∧ r.landing_page = m.pageUrl) ∧
      ∀ pd : PageData, ∃ r,
        sessionsByToken (trackPageView parseUA Faults.none now s t pd).2 t = [r] ∧
        r.landing_page = some pd.url ∧ r.total_time_spent = 0 ∧
        r.submitted_inquiry = false := by
  constructor
  · refine ⟨newSessionRow parseUA now s.nextSessionId t m,
      getOrCreateSession_of_empty parseUA now s t m hnone, ?_, rfl, rfl, rfl, rfl, rfl⟩
    rw [getOrCreateSession_of_empty parseUA now s t m hnone]
    exact sessionsByToken_insertSessionRow_of_empty s
      (newSessionRow parseUA now s.nextSessionId t m) hnone
  · intro pd
    exact ⟨_, trackPageView_rows_of_empty_eq parseUA now s t pd hnone, rfl, rfl, rfl⟩

/-- Witness of C13: token `s2` on the sample store. -/
theorem new_session_row_defaults_witness :
    sessionsByToken sampleStore "s2" = [] ∧
    ((∃ r, getOrCreateSession sampleParseUA Faults.none 20 sampleStore "s2" sampleMetadata
          = (Except.ok r, insertSessionRow sampleStore r) ∧
        sessionsByToken
          (getOrCreateSession sampleParseUA Faults.none 20 sampleStore "s2" sampleMetadata).2
          "s2" = [r] ∧
        r.session_id = "s2" ∧ r.page_views = 0 ∧ r.total_time_spent = 0 ∧
        r.submitted_inquiry = false ∧ r.landing_page = sampleMetadata.pageUrl) ∧
      ∀ pd : PageData, ∃ r,
        sessionsByToken (trackPageView sampleParseUA Faults.none 20 sampleStore "s2" pd).2 "s2"
          = [r] ∧
        r.landing_page = some pd.url ∧ r.total_time_spent = 0 ∧
        r.submitted_inquiry = false) :=
  ⟨by decide,
    new_session_row_defaults sampleParseUA 20 sampleStore "s2" sampleMetadata (by decide)⟩

/-- Counterexample to C14 as stated: on the empty store token `s1` has no session row, and
after `trackEvent` for `s1`, which fails with `Session not found`, it still has
none. -/
theorem trackEvent_creates_no_session :
    sessionsByToken Store.empty "s1" = [] ∧
      (trackEvent Faults.none Store.empty "s1" sampleEventData).1
        = Except.error ServiceError.sessionNotFound ∧
      sessionsByToken (trackEvent Faults.none Store.empty "s1" sampleEventData).2 "s1" = [] ∧
      (trackEvent Faults.none Store.empty "s1" sampleEventData).2.visitor_sessions = [] :=
  ⟨by decide, rfl, by decide, by decide⟩

/-- Claim C14, amended. A session is created on the first page view that refers to an
unseen token, and not by an event: on a store with no session row for token `t`, after
a `trackPageView` call for `t` that meets no store error the token has a session row,
while a `trackEvent` call for `t` fails with `Session not found` and leaves the token
without a row. -/
theorem session_created_by_page_view_not_event (parseUA : Option String → ParsedUA)
    (F : Faults) (now : Nat) (s : Store) (t : String) (pd : PageData) (ed : EventData)
    (hnone : sessionsByToken s t = []) :
    (∃ r, sessionsByToken (trackPageView parseUA Faults.none now s t pd).2 t = [r]) ∧
      (trackEvent F s t ed).1 = Except.error ServiceError.sessionNotFound ∧
      sessionsByToken (trackEvent F s t ed).2 t = [] := by
  refine ⟨⟨_, trackPageView_rows_of_empty_eq parseUA now s t pd hnone⟩, ?_, ?_⟩
  · rw [trackEvent_of_empty F s t ed hnone]
  · rw [trackEvent_of_empty F s t ed hnone]
    exact hnone

/-- Witness of the amended C14: token `s2` on the sample store. -/
theorem session_created_by_page_view_not_event_witness :
    sessionsByToken sampleStore "s2" = [] ∧
    ((∃ r, sessionsByToken
        (trackPageView sampleParseUA Faults.none 20 sampleStore "s2" (samplePage "/home")).2
        "s2" = [r]) ∧
      (trackEvent Faults.none sampleStore "s2" sampleEventData).1
        = Except.error ServiceError.sessionNotFound ∧
      sessionsByToken (trackEvent Faults.none sampleStore "s2" sampleEventData).2 "s2" = []) :=
  ⟨by decide,
    session_created_by_page_view_not_event sampleParseUA Faults.none 20 sampleStore "s2"
      (samplePage "/home") sampleEventData (by decide)⟩

/-- Claim C15. For a token with session row `r`, a `trackEvent` call that meets no store
error resolves to `{ success: true }`, appends exactly one row to the Event table, that
row being linked to `r` and carrying the supplied name, category, label, value, page
URL and metadata as given, and leaves the session table and the PageView table
unchanged. -/
theorem trackEvent_inserts_one_event (s : Store) (t : String) (ed : EventData) (r : Session)
    (h : sessionsByToken s t = [r]) :
    (trackEvent Faults.none s t ed).1 = Except.ok { success := true } ∧
      (∃ e, (trackEvent Faults.none s t ed).2.events = s.events ++ [e] ∧
        e.session_id = r.id ∧ e.event_name = ed.name ∧ e.event_category = ed.category ∧
        e.event_label = ed.label ∧ e.event_value = ed.value ∧ e.page_url = ed.pageUrl ∧
        e.metadata = ed.metadata) ∧
      (trackEvent Faults.none s t ed).2.visitor_sessions = s.visitor_sessions ∧
      (trackEvent Faults.none s t ed).2.page_views = s.page_views := by
  rw [trackEvent_of_single s t ed r h]
  exact ⟨rfl, ⟨newEventRow s.nextEventId r.id ed, rfl, rfl, rfl, rfl, rfl, rfl, rfl, rfl⟩,
    rfl, rfl⟩

/-- Witness of C15: token `s1` on the sample store. -/
theorem trackEvent_inserts_one_event_witness :
    sessionsByToken sampleStore "s1" = [sampleSession] ∧
    ((trackEvent Faults.none sampleStore "s1" sampleEventData).1
        = Except.ok { success := true } ∧
      (∃ e, (trackEvent Faults.none sampleStore "s1" sampleEventData).2.events
          = sampleStore.events ++ [e] ∧
        e.session_id = sampleSession.id ∧ e.event_name = sampleEventData.name ∧
        e.event_category = sampleEventData.category ∧
        e.event_label = sampleEventData.label ∧ e.event_value = sampleEventData.value ∧
        e.page_url = sampleEventData.pageUrl ∧ e.metadata = sampleEventData.metadata) ∧
      (trackEvent Faults.none sampleStore "s1" sampleEventData).2.visitor_sessions
        = sampleStore.visitor_sessions ∧
      (trackEvent Faults.none sampleStore "s1" sampleEventData).2.page_views
        = sampleStore.page_views) :=
  ⟨by decide,
    trackEvent_inserts_one_event sampleStore "s1" sampleEventData sampleSession (by decide)⟩

/-- The test `!field` of the routes does not tell an empty string from an absent field: a
page-view request whose `sessionId` is the empty string is rejected with status 400. -/
theorem pageViewRoute_rejects_empty_session_id :
    (samplePageViewRequest (some "") (some "/home")).sessionId ≠ Option.none ∧
      (samplePageViewRequest (some "") (some "/home")).url ≠ Option.none ∧
      (pageViewRoute sampleParseUA Faults.none 5 Store.empty
        (samplePageViewRequest (some "") (some "/home"))).1.status = 400 := by
  decide

/-- Claim C16. Each tracking route answers with status 400 exactly when a required field
is missing, a string field counting as missing when it is absent or the empty string:
the page-view route when `sessionId` or `url` is missing, the event route when
`sessionId` or `name` is, the time-spent route when `sessionId` or `pageUrl` is or
when `timeSpent` is undefined. The rejection is the same for every store and every
choice of failing store calls, and it leaves the store as it was, so it comes before
any store access. A time-spent request with `timeSpent = 0` and the two string fields
given is not rejected. -/
theorem tracking_routes_reject_missing_or_empty (parseUA : Option String → ParsedUA)
    (F : Faults) (now : Nat) (s : Store) (pv : PageViewRequest) (ev : EventBody)
    (ts : TimeSpentBody) :
    ((pageViewRoute parseUA F now s pv).1.status = 400 ↔
        (pv.sessionId = Option.none ∨ pv.sessionId = some "") ∨
        (pv.url = Option.none ∨ pv.url = some "")) ∧
      (((pv.sessionId = Option.none ∨ pv.sessionId = some "") ∨
        (pv.url = Option.none ∨ pv.url = some "")) →
        pageViewRoute parseUA F now s pv
          = ({ status := 400, success := false,
               message := some "Session ID and URL are required" }, s)) ∧
      ((eventRoute F s ev).1.status = 400 ↔
        (ev.sessionId = Option.none ∨ ev.sessionId = some "") ∨
        (ev.name = Option.none ∨ ev.name = some "")) ∧
      (((ev.sessionId = Option.none ∨ ev.sessionId = some "") ∨
        (ev.name = Option.none ∨ ev.name = some "")) →
        eventRoute F s ev
          = ({ status := 400, success := false,
               message := some "Session ID and event name are required" }, s)) ∧
      ((timeSpentRoute F now s ts).1.status = 400 ↔
        (ts.sessionId = Option.none ∨ ts.sessionId = some "") ∨
        (ts.pageUrl = Option.none ∨ ts.pageUrl = some "") ∨
        ts.timeSpent = Option.none) ∧
      (((ts.sessionId = Option.none ∨ ts.sessionId = some "") ∨
        (ts.pageUrl = Option.none ∨ ts.pageUrl = some "") ∨
        ts.timeSpent = Option.none) →
        timeSpentRoute F now s ts
          = ({ status := 400, success := false,
               message := some "Session ID, page URL, and time spent are required" }, s)) ∧
      (∀ sessionId pageUrl : String, sessionId ≠ "" → pageUrl ≠ "" →
        (timeSpentRoute F now s
          { sessionId := some sessionId, pageUrl := some pageUrl,
            timeSpent := some 0 }).1.status ≠ 400) := by
  have hpv : ((pv.sessionId = Option.none ∨ pv.sessionId = some "") ∨
      (pv.url = Option.none ∨ pv.url = some "")) ↔
      (falsy pv.sessionId = true ∨ falsy pv.url = true) := by
    rw [falsy_iff, falsy_iff]
  have hev : ((ev.sessionId = Option.none ∨ ev.sessionId = some "") ∨
      (ev.name = Option.none ∨ ev.name = some "")) ↔
      (falsy ev.sessionId = true ∨ falsy ev.name = true) := by
    rw [falsy_iff, falsy_iff]
  have hts : ((ts.sessionId = Option.none ∨ ts.sessionId = some "") ∨
      (ts.pageUrl = Option.none ∨ ts.pageUrl = some "") ∨ ts.timeSpent = Option.none) ↔
      (falsy ts.sessionId = true ∨ falsy ts.pageUrl = true ∨
        ts.timeSpent = Option.none) := by
    rw [falsy_iff, falsy_iff]
  refine ⟨?_, ?_, ?_, ?_, ?_, ?_, ?_⟩
  · rw [hpv]
    constructor
    · intro h400
      by_contra hno
      rcases pageViewRoute_accepts parseUA F now s pv hno with h | h <;> omega
    · intro h
      rw [pageViewRoute_rejects parseUA F now s pv h]
  · intro h
    exact pageViewRoute_rejects parseUA F now s pv (hpv.mp h)
  · rw [hev]
    constructor
    · intro h400
      by_contra hno
      rcases eventRoute_accepts F s ev hno with h | h <;> omega
    · intro h
      rw [eventRoute_rejects F s ev h]
  · intro h
    exact eventRoute_rejects F s ev (hev.mp h)
  · rw [hts]
    constructor
    · intro h400
      by_contra hno
      rcases timeSpentRoute_accepts F now s ts hno with h | h <;> omega
    · intro h
      rw [timeSpentRoute_rejects F now s ts h]
  · intro h
    exact timeSpentRoute_rejects F now s ts (hts.mp h)
  · intro sessionId pageUrl hs hp h400
    have hno : ¬ (falsy (some sessionId) = true ∨ falsy (some pageUrl) = true ∨
        (some (0 : Int)) = Option.none) := by
      simp [falsy, hs, hp]
    rcases timeSpentRoute_accepts F now s
      { sessionId := some sessionId, pageUrl := some pageUrl, timeSpent := some 0 } hno
      with h | h <;> omega

/-- Counterexample to C17 as stated: on the empty store, a page-view call whose session
lookup reports the store error `timeout`, and whose other store calls go through,
returns `{ success: true }`. -/
theorem trackPageView_succeeds_after_lookup_error :
    sampleLookupFault.selectSession = some "timeout" ∧
      (trackPageView sampleParseUA sampleLookupFault 10 Store.empty "s1"
        (samplePage "/home")).1 = Except.ok { success := true } :=
  ⟨rfl, rfl⟩

/-- Claim C17, amended. In `trackPageView`, a store error reported by the session insert or
by the PageView insert aborts the operation and is surfaced to the caller as a failure
that carries the error: after a failed session insert the store is as it was, after a
failed PageView insert it is as `getOrCreateSession` left it. An error reported by the
session lookup is not surfaced: the lookup is taken to have found no row, and when the
later store calls go through the method inserts a session row for the token and
returns `{ success: true }`. -/
theorem trackPageView_surfaces_insert_errors (parseUA : Option String → ParsedUA)
    (F : Faults) (now : Nat) (s : Store) (t : String) (pd : PageData) (e : String) :
    (F.insertSession = some e → selectSession F s t = Option.none →
        trackPageView parseUA F now s t pd = (Except.error (ServiceError.store e), s)) ∧
      (F.insertPageView = some e → ∀ (session : Session) (s1 : Store),
        getOrCreateSession parseUA F now s t
          { userAgent := pd.userAgent, ipAddress := pd.ipAddress, referrer := pd.referrer,
            pageUrl := some pd.url } = (Except.ok session, s1) →
        trackPageView parseUA F now s t pd = (Except.error (ServiceError.store e), s1)) ∧
      (F.selectSession = some e → F.insertSession = Option.none →
        F.insertPageView = Option.none → F.updateSession = Option.none →
        (trackPageView parseUA F now s t pd).1 = Except.ok { success := true } ∧
        (trackPageView parseUA F now s t pd).2.visitor_sessions.map (fun r => r.session_id)
          = s.visitor_sessions.map (fun r => r.session_id) ++ [t]) :=
  ⟨fun hins hsel => trackPageView_insertSession_fault parseUA F now s t pd e hins hsel,
    fun hins session s1 hg =>
      trackPageView_insertPageView_fault parseUA F now s s1 t pd e session hins hg,
    fun hsel h1 h2 h3 => trackPageView_lookup_fault parseUA F now s t pd e hsel h1 h2 h3⟩

/-- Witness of the amended C17: a failed session insert for the unseen token `s2`, a
failed PageView insert for the known token `s1`, and a failed lookup for `s1`, on the
sample store. -/
theorem trackPageView_surfaces_insert_errors_witness :
    trackPageView sampleParseUA sampleInsertFault 30 sampleStore "s2" (samplePage "/home")
        = (Except.error (ServiceError.store "timeout"), sampleStore) ∧
      trackPageView sampleParseUA samplePageViewFault 30 sampleStore "s1" (samplePage "/home")
        = (Except.error (ServiceError.store "timeout"), sampleStore) ∧
      ((trackPageView sampleParseUA sampleLookupFault 30 sampleStore "s1"
          (samplePage "/home")).1 = Except.ok { success := true } ∧
        (trackPageView sampleParseUA sampleLookupFault 30 sampleStore "s1"
          (samplePage "/home")).2.visitor_sessions.map (fun r => r.session_id)
          = sampleStore.visitor_sessions.map (fun r => r.session_id) ++ ["s1"]) :=
  ⟨(trackPageView_surfaces_insert_errors sampleParseUA sampleInsertFault 30 sampleStore "s2"
      (samplePage "/home") "timeout").1 rfl (by decide),
    (trackPageView_surfaces_insert_errors sampleParseUA samplePageViewFault 30 sampleStore "s1"
      (samplePage "/home") "timeout").2.1 rfl sampleSession sampleStore rfl,
    (trackPageView_surfaces_insert_errors sampleParseUA sampleLookupFault 30 sampleStore "s1"
      (samplePage "/home") "timeout").2.2 rfl rfl rfl rfl⟩

/-- Counterexample to C18 as stated: for `days=-5` the summary route passes the window
`-5` to `getSummary`, which is not positive. -/
theorem summaryDays_negative_passes_through :
    summaryDays (some "-5") = -5 ∧ ¬ 0 < summaryDays (some "-5") := by
  decide

/-- Claim C18, amended. The window the summary route passes to `getSummary` is always a
non-zero integer, and it is positive for every value of the `days` parameter except
one that `parseInt` reads as a negative number, which is passed on as it is: an absent
parameter, a non-numeric one and zero give 30, a fractional value and a number with
trailing text give their leading integer. -/
theorem summaryDays_nonzero_and_positive_unless_negative (days : Option String) :
    summaryDays days ≠ 0 ∧
      (0 < summaryDays days ↔ ¬ ∃ n, parseInt days = some n ∧ n < 0) ∧
      (∀ n, parseInt days = some n → n < 0 → summaryDays days = n) ∧
      (parseInt days = Option.none → summaryDays days = 30) ∧
      (parseInt days = some 0 → summaryDays days = 30) ∧
      summaryDays Option.none = 30 ∧ summaryDays (some "abc") = 30 ∧
      summaryDays (some "0") = 30 ∧ summaryDays (some "2.7") = 2 ∧
      summaryDays (some "12abc") = 12 := by
  refine ⟨summaryDays_ne_zero days, summaryDays_pos_iff days, ?_,
    summaryDays_of_nan days, summaryDays_of_zero days,
    by decide, by decide, by decide, by decide, by decide⟩
  intro n hn hneg
  exact summaryDays_of_nonzero days n hn (by omega)

/-- Claim C19. For every value of the `days` parameter that `parseInt` does not read as a
number, the absent parameter included, the summary route passes the window 30 to
`getSummary`, as it does for `days=30`, and its response and the store it leaves are
those of the request with `days=30` for the same views, store, day and failing
queries. -/
theorem summaryRoute_defaults_to_thirty (V : ReportingViews) (F : SummaryFaults)
    (today : Int) (s : Store) (days : Option String) (h : parseInt days = Option.none) :
    summaryDays days = 30 ∧ summaryDays (some "30") = 30 ∧
      summaryRoute V F today s days = summaryRoute V F today s (some "30") ∧
      summaryRoute V F today s Option.none = summaryRoute V F today s (some "30") := by
  have h30 : summaryDays (some "30") = 30 := by decide
  have hdays := summaryDays_of_nan days h
  have habsent : summaryDays Option.none = 30 := by decide
  exact ⟨hdays, h30, summaryRoute_congr V F today s _ _ (hdays.trans h30.symm),
    summaryRoute_congr V F today s _ _ (habsent.trans h30.symm)⟩

/-- Witness of C19: the value `abc` on the sample store and views. -/
theorem summaryRoute_defaults_to_thirty_witness :
    parseInt (some "abc") = Option.none ∧
    (summaryDays (some "abc") = 30 ∧ summaryDays (some "30") = 30 ∧
      summaryRoute sampleViews SummaryFaults.none 1000 sampleStore (some "abc")
        = summaryRoute sampleViews SummaryFaults.none 1000 sampleStore (some "30") ∧
      summaryRoute sampleViews SummaryFaults.none 1000 sampleStore Option.none
        = summaryRoute sampleViews SummaryFaults.none 1000 sampleStore (some "30")) :=
  ⟨by decide,
    summaryRoute_defaults_to_thirty sampleViews SummaryFaults.none 1000 sampleStore
      (some "abc") (by decide)⟩

/-- Claim C20. For every window `d` (30 in particular), a `getSummary` call whose queries
report no error returns as `stats` exactly the rows of the daily statistics view dated
at most `d` days before today, each as often as the view holds it, ordered by date
descending; when the view holds no row dated after today, every returned row is dated
from `today - d` to `today`. It returns the first ten rows of the top-pages view, so
at most ten, and all rows of the traffic-sources view. Whatever its queries report, it
leaves the store as it was. -/
theorem getSummary_returns_window (V : ReportingViews) (today : Int) (s : Store) (d : Int) :
    (∃ stats topPages sources,
        getSummary V SummaryFaults.none today s d
          = (Except.ok { stats := some stats, topPages := some topPages,
                         sources := some sources }, s) ∧
        (∀ r, r ∈ stats ↔ (r ∈ V.daily_visitor_stats s ∧ today - d ≤ r.date)) ∧
        stats.Perm ((V.daily_visitor_stats s).filter (fun r => today - d ≤ r.date)) ∧
        stats.Sorted (fun a b => a.date ≥ b.date) ∧
        ((∀ r ∈ V.daily_visitor_stats s, r.date ≤ today) →
          ∀ r ∈ stats, today - d ≤ r.date ∧ r.date ≤ today) ∧
        topPages = (V.top_pages s).take 10 ∧ topPages.length ≤ 10 ∧
        sources = V.traffic_sources s) ∧
      ∀ F : SummaryFaults, (getSummary V F today s d).2 = s := by
  have hmem : ∀ r, r ∈ orderByDateDesc
      ((V.daily_visitor_stats s).filter (fun r => today - d ≤ r.date))
      ↔ (r ∈ V.daily_visitor_stats s ∧ today - d ≤ r.date) := by
    intro r
    rw [mem_orderByDateDesc, List.mem_filter]
    simp
  refine ⟨⟨_, _, _, getSummary_noFault V today s d, hmem, perm_orderByDateDesc _,
    sorted_orderByDateDesc _, ?_, rfl, List.length_take_le 10 _, rfl⟩,
    fun F => getSummary_store V F today s d⟩
  intro hpast r hr
  have hr2 := (hmem r).mp hr
  exact ⟨hr2.2, hpast r hr2.1⟩

/-! # Theorems for the third group of claims -/

/-! ## Lead score -/

theorem leadScoreSum_cases (data : LeadData) :
    ∃ a b c d e f : Nat, leadScoreSum data = a + b + c + d + e + f ∧
      (a = 0 ∨ a = 10) ∧ (b = 0 ∨ b = 15) ∧ (c = 0 ∨ c = 20) ∧ (d = 0 ∨ d = 10) ∧
      (e = 0 ∨ e = 25) ∧ (f = 0 ∨ f = 10) := by
  refine ⟨if longerThan data.company 0 then 10 else 0,
    if longerThan data.phone 0 then 15 else 0,
    if longerThan data.message 50 then 20 else 0,
    if longerThan data.message 200 then 10 else 0,
    if data.source = some "direct" then 25 else 0,
    (match data.referrer with
      | Option.none => 0
      | some referrer =>
        if !falsy (some referrer) && jsIncludes referrer "google" then 10 else 0),
    ?_, ?_, ?_, ?_, ?_, ?_, ?_⟩
  · unfold leadScoreSum
    cases data.referrer with
    | none => simp only []; split <;> split <;> split <;> split <;> split <;> omega
    | some referrer =>
      simp only []
      split <;> split <;> split <;> split <;> split <;> split <;> omega
  · split <;> simp
  · split <;> simp
  · split <;> simp
  · split <;> simp
  · split <;> simp
  · cases data.referrer with
    | none => simp
    | some referrer => simp only []; split <;> simp

/-! ## The client timer -/

theorem clientRun_pageLoadTime (es : List ClientEvent) :
    ∀ a : ClientTimer, (clientRun a es).2.pageLoadTime = lastReset a.pageLoadTime es := by
  induction es with
  | nil => intro a; rfl
  | cons e es ih =>
    intro a
    cases e with
    | beforeUnload now => exact ih a
    | intervalTick now resetAt => exact ih { pageLoadTime := resetAt }

theorem lastReset_of_no_tick (start : Int) (es : List ClientEvent)
    (h : ∀ e ∈ es, e.isTick = false) : lastReset start es = start := by
  induction es with
  | nil => rfl
  | cons e es ih =>
    have he := h e (List.mem_cons_self e es)
    cases e with
    | beforeUnload now => exact ih (fun e2 h2 => h e2 (List.mem_cons_of_mem _ h2))
    | intervalTick now resetAt => exact absurd he (by simp [ClientEvent.isTick])

theorem lastReset_append (start : Int) (pre post : List ClientEvent) (t r : Int) :
    lastReset start (pre ++ ClientEvent.intervalTick t r :: post) = lastReset r post := by
  induction pre generalizing start with
  | nil => rfl
  | cons e es ih =>
    cases e with
    | beforeUnload now => exact ih start
    | intervalTick now resetAt => exact ih resetAt

/-! ## Creating an inquiry -/

theorem createInquiry_of_insert (IF : InquiryFaults) (site : Site) (data : InquiryData)
    (metadata : InquiryMetadata) (h : IF.insertInquiry = Option.none) :
    createInquiry IF site data metadata
      = (Except.ok { success := true,
                     inquiry := newInquiryRow site.nextInquiryId data metadata },
          { store := site.store,
            inquiries := site.inquiries ++ [newInquiryRow site.nextInquiryId data metadata],
            nextInquiryId := site.nextInquiryId + 1,
            outbox := (sendNotifications IF site.outbox
              (newInquiryRow site.nextInquiryId data metadata)).2 }) := by
  unfold createInquiry
  rw [h]

theorem createInquiry_of_fault (IF : InquiryFaults) (site : Site) (data : InquiryData)
    (metadata : InquiryMetadata) (e : String) (h : IF.insertInquiry = some e) :
    createInquiry IF site data metadata = (Except.error (ServiceError.store e), site) := by
  unfold createInquiry
  rw [h]

/-! ## The language of the email pattern -/

/-- A class that `[^\s@]` matches. -/
theorem mem_emailPlainChar (x : List EmailChar) :
    x ∈ emailPlainChar.matches' ↔
      ∃ c, x = [c] ∧ (c = EmailChar.dot ∨ c = EmailChar.other) := by
  unfold emailPlainChar
  rw [← RegularExpression.plus_def]
  simp only [RegularExpression.matches', Language.mem_add]
  constructor
  · rintro (h | h)
    · exact ⟨EmailChar.dot, h, Or.inl rfl⟩
    · exact ⟨EmailChar.other, h, Or.inr rfl⟩
  · rintro ⟨c, rfl, (rfl | rfl)⟩
    · exact Or.inl rfl
    · exact Or.inr rfl

theorem mem_emailPlainStar (x : List EmailChar) :
    x ∈ (RegularExpression.star emailPlainChar).matches' ↔
      ∀ c ∈ x, (c = EmailChar.dot ∨ c = EmailChar.other) := by
  simp only [RegularExpression.matches', Language.mem_kstar]
  constructor
  · rintro ⟨L, rfl, hL⟩ c hc
    obtain ⟨y, hy, hcy⟩ := List.mem_flatten.mp hc
    obtain ⟨d, rfl, hd⟩ := (mem_emailPlainChar y).mp (hL y hy)
    rw [List.mem_singleton.mp hcy]
    exact hd
  · intro h
    refine ⟨x.map (fun c => [c]), ?_, ?_⟩
    · induction x with
      | nil => rfl
      | cons c cs ih =>
        simp only [List.map_cons, List.flatten_cons, List.singleton_append]
        rw [← ih (fun d hd => h d (List.mem_cons_of_mem c hd))]
    · intro y hy
      obtain ⟨c, hc, rfl⟩ := List.mem_map.mp hy
      exact (mem_emailPlainChar [c]).mpr ⟨c, rfl, h c hc⟩

theorem mem_emailPlainRun (x : List EmailChar) :
    x ∈ emailPlainRun.matches' ↔
      x ≠ [] ∧ ∀ c ∈ x, (c = EmailChar.dot ∨ c = EmailChar.other) := by
  unfold emailPlainRun
  rw [← RegularExpression.comp_def, RegularExpression.matches', Language.mem_mul]
  constructor
  · rintro ⟨a, ha, b, hb, rfl⟩
    obtain ⟨c, rfl, hc⟩ := (mem_emailPlainChar a).mp ha
    refine ⟨by simp, ?_⟩
    intro d hd
    rcases List.mem_append.mp hd with h1 | h1
    · rw [List.mem_singleton.mp h1]
      exact hc
    · exact (mem_emailPlainStar b).mp hb d h1
  · rintro ⟨hne, hall⟩
    cases x with
    | nil => exact absurd rfl hne
    | cons c cs =>
      refine ⟨[c], (mem_emailPlainChar [c]).mpr ⟨c, rfl, hall c (List.mem_cons_self c cs)⟩,
        cs, (mem_emailPlainStar cs).mpr (fun d hd => hall d (List.mem_cons_of_mem c hd)), rfl⟩

/-- The language of the email pattern over the classes: a run, the `@`, a run, a dot, a
run. -/
theorem mem_emailRegex (w : List EmailChar) :
    w ∈ emailRegex.matches' ↔
      ∃ x y z, w = x ++ EmailChar.atSign :: (y ++ EmailChar.dot :: z) ∧
        (x ≠ [] ∧ ∀ c ∈ x, (c = EmailChar.dot ∨ c = EmailChar.other)) ∧
        (y ≠ [] ∧ ∀ c ∈ y, (c = EmailChar.dot ∨ c = EmailChar.other)) ∧
        (z ≠ [] ∧ ∀ c ∈ z, (c = EmailChar.dot ∨ c = EmailChar.other)) := by
  unfold emailRegex
  rw [RegularExpression.matches'_mul, RegularExpression.matches'_mul,
    RegularExpression.matches'_mul, RegularExpression.matches'_mul,
    RegularExpression.matches'_char, RegularExpression.matches'_char]
  simp only [Language.mem_mul, mem_emailPlainRun]
  constructor
  · rintro ⟨a, ⟨a1, ⟨a2, ⟨x, hx, a3, ha3, rfl⟩, y, hy, rfl⟩, a4, ha4, rfl⟩, z, hz, rfl⟩
    have h3 : a3 = [EmailChar.atSign] := ha3
    have h4 : a4 = [EmailChar.dot] := ha4
    subst h3 h4
    exact ⟨x, y, z, by simp, hx, hy, hz⟩
  · rintro ⟨x, y, z, rfl, hx, hy, hz⟩
    refine ⟨x ++ [EmailChar.atSign] ++ y ++ [EmailChar.dot],
      ⟨x ++ [EmailChar.atSign] ++ y,
        ⟨x ++ [EmailChar.atSign], ⟨x, hx, [EmailChar.atSign], rfl, rfl⟩, y, hy, rfl⟩,
        [EmailChar.dot], rfl, rfl⟩, z, hz, by simp⟩

theorem isStrWhiteSpace_atSign : isStrWhiteSpace '@' = false := by decide

theorem isStrWhiteSpace_dot : isStrWhiteSpace '.' = false := by decide

theorem classify_plain_iff (c : Char) :
    (classifyEmailChar c = EmailChar.dot ∨ classifyEmailChar c = EmailChar.other) ↔
      (isStrWhiteSpace c = false ∧ c ≠ '@') := by
  unfold classifyEmailChar
  split_ifs with hw ha hd
  · simp [hw]
  · simp [ha]
  · simp [ha]
    simpa using hw
  · simp [ha]
    simpa using hw

theorem classify_atSign_iff (c : Char) :
    classifyEmailChar c = EmailChar.atSign ↔ c = '@' := by
  unfold classifyEmailChar
  split_ifs with hw ha hd
  · have hne : c ≠ '@' := by
      intro h
      rw [h, isStrWhiteSpace_atSign] at hw
      cases hw
    simp [hne]
  · simp [ha]
  · simp [ha]
  · simp [ha]

theorem classify_dot_iff (c : Char) :
    classifyEmailChar c = EmailChar.dot ↔ c = '.' := by
  unfold classifyEmailChar
  split_ifs with hw ha hd
  · have hne : c ≠ '.' := by
      intro h
      rw [h, isStrWhiteSpace_dot] at hw
      cases hw
    simp [hne]
  · have : ('@' : Char) ≠ '.' := by decide
    simp [ha, this]
  · simp [hd]
  · simp [hd]

theorem plain_of_classify_map (l : List Char)
    (h : ∀ c ∈ l.map classifyEmailChar, (c = EmailChar.dot ∨ c = EmailChar.other)) :
    ∀ c ∈ l, isStrWhiteSpace c = false ∧ c ≠ '@' := by
  intro c hc
  exact (classify_plain_iff c).mp (h _ (List.mem_map_of_mem classifyEmailChar hc))

theorem classify_map_of_plain (l : List Char)
    (h : ∀ c ∈ l, isStrWhiteSpace c = false ∧ c ≠ '@') :
    ∀ c ∈ l.map classifyEmailChar, (c = EmailChar.dot ∨ c = EmailChar.other) := by
  intro c hc
  obtain ⟨d, hd, rfl⟩ := List.mem_map.mp hc
  exact (classify_plain_iff d).mpr (h d hd)

theorem count_atSign_of_plain (l : List Char)
    (h : ∀ c ∈ l, isStrWhiteSpace c = false ∧ c ≠ '@') : l.count '@' = 0 := by
  rw [List.count_eq_zero]
  intro hmem
  exact (h '@' hmem).2 rfl

theorem not_mem_atSign_of_count (l : List Char) (h : l.count '@' = 0) : '@' ∉ l :=
  List.count_eq_zero.mp h

/-- The test of the email pattern holds exactly for the strings of the shape described
in words. -/
theorem emailRegexTest_iff (email : String) :
    emailRegexTest email = true ↔ EmailShape email.toList := by
  unfold emailRegexTest EmailShape
  rw [RegularExpression.rmatch_iff_matches', mem_emailRegex]
  generalize email.toList = cs
  constructor
  · rintro ⟨x, y, z, hw, ⟨hx0, hx⟩, ⟨hy0, hy⟩, ⟨hz0, hz⟩⟩
    obtain ⟨X, rest, rfl, hX, hrest⟩ := List.map_eq_append_iff.mp hw
    obtain ⟨a, rest2, rfl, ha, hrest2⟩ := List.map_eq_cons_iff.mp hrest
    obtain ⟨Y, rest3, rfl, hY, hrest3⟩ := List.map_eq_append_iff.mp hrest2
    obtain ⟨d, Z, rfl, hd, hZ⟩ := List.map_eq_cons_iff.mp hrest3
    have ha2 : a = '@' := (classify_atSign_iff a).mp ha
    have hd2 : d = '.' := (classify_dot_iff d).mp hd
    subst ha2 hd2
    have hXp := plain_of_classify_map X (hX ▸ hx)
    have hYp := plain_of_classify_map Y (hY ▸ hy)
    have hZp := plain_of_classify_map Z (hZ ▸ hz)
    have hXne : X ≠ [] := by
      intro h
      rw [h] at hX
      exact hx0 hX.symm
    have hYne : Y ≠ [] := by
      intro h
      rw [h] at hY
      exact hy0 hY.symm
    have hZne : Z ≠ [] := by
      intro h
      rw [h] at hZ
      exact hz0 hZ.symm
    refine ⟨?_, ?_, X, Y ++ '.' :: Z, rfl, hXne, Y, Z, rfl, hYne, hZne⟩
    · intro c hc
      simp only [List.mem_append, List.mem_cons] at hc
      rcases hc with h | h | h | h | h
      · exact (hXp c h).1
      · rw [h]; exact isStrWhiteSpace_atSign
      · exact (hYp c h).1
      · rw [h]; exact isStrWhiteSpace_dot
      · exact (hZp c h).1
    · have hdot : ('@' : Char) ≠ '.' := by decide
      simp [List.count_append, List.count_cons, count_atSign_of_plain X hXp,
        count_atSign_of_plain Y hYp, count_atSign_of_plain Z hZp]
  · rintro ⟨hws, hcount, X, post, rfl, hXne, Y, Z, rfl, hYne, hZne⟩
    have hdot : ('@' : Char) ≠ '.' := by decide
    have hc : X.count '@' + (Y.count '@' + Z.count '@') = 0 := by
      simp [List.count_append, List.count_cons] at hcount
      omega
    have hXc : X.count '@' = 0 := by omega
    have hYc : Y.count '@' = 0 := by omega
    have hZc : Z.count '@' = 0 := by omega
    have hplain : ∀ (l : List Char), l.count '@' = 0 →
        (∀ c ∈ l, c ∈ X ++ '@' :: (Y ++ '.' :: Z)) →
        ∀ c ∈ l, isStrWhiteSpace c = false ∧ c ≠ '@' := by
      intro l hl hsub c hcl
      refine ⟨hws c (hsub c hcl), ?_⟩
      intro heq
      exact not_mem_atSign_of_count l hl (heq ▸ hcl)
    have hXp := hplain X hXc (fun c h => by simp [h])
    have hYp := hplain Y hYc (fun c h => by simp [h])
    have hZp := hplain Z hZc (fun c h => by simp [h])
    refine ⟨X.map classifyEmailChar, Y.map classifyEmailChar, Z.map classifyEmailChar,
      ?_, ⟨by simpa using hXne, classify_map_of_plain X hXp⟩,
      ⟨by simpa using hYne, classify_map_of_plain Y hYp⟩,
      ⟨by simpa using hZne, classify_map_of_plain Z hZp⟩⟩
    simp [(classify_atSign_iff '@').mpr rfl, (classify_dot_iff '.').mpr rfl]

/-! ## The two validations of an inquiry -/

theorem jsLength_empty : jsLength "" = 0 := rfl

theorem falsy_some_of_length (v : String) (n : Nat) (h : n < jsLength v) :
    falsy (some v) = false := by
  unfold falsy
  have hne : v ≠ "" := by
    intro heq
    rw [heq, jsLength_empty] at h
    omega
  simpa using hne

theorem emailRegexTest_empty : emailRegexTest "" = false := by decide

theorem falsy_some_of_email (v : String) (h : emailRegexTest v = true) :
    falsy (some v) = false := by
  unfold falsy
  have hne : v ≠ "" := by
    intro heq
    rw [heq, emailRegexTest_empty] at h
    cases h
  simpa using hne

/-- The middleware calls `next` exactly for the bodies that pass its four checks. -/
theorem validateInquiry_next_iff (body : InquiryBody) :
    validateInquiry body = Validation.next ↔
      ∃ name email message, body.name = some name ∧ body.email = some email ∧
        body.message = some message ∧ emailRegexTest email = true ∧
        2 ≤ jsLength name ∧ jsLength name ≤ 255 ∧ 10 ≤ jsLength message := by
  unfold validateInquiry
  cases hn : body.name with
  | none => simp
  | some name =>
    cases he : body.email with
    | none => simp
    | some email =>
      cases hm : body.message with
      | none => simp
      | some message =>
        simp only [Option.some.injEq, exists_and_left, exists_eq_left']
        constructor
        · intro h
          split_ifs at h with h1 h2 h3 h4
          have e2 : emailRegexTest email = true := by
            cases hE : emailRegexTest email
            · simp [hE] at h2
            · rfl
          have e3 : ¬ (jsLength name < 2 ∨ jsLength name > 255) := by simpa using h3
          have e4 : ¬ jsLength message < 10 := by simpa using h4
          exact ⟨e2, by omega, by omega, by omega⟩
        · rintro ⟨h2, h3, h3b, h4⟩
          have f1 := falsy_some_of_length name 0 (by omega)
          have f2 := falsy_some_of_email email h2
          have f3 := falsy_some_of_length message 0 (by omega)
          have g3 : ¬ (jsLength name < 2) := by omega
          have g3b : ¬ (jsLength name > 255) := by omega
          have g4 : ¬ (jsLength message < 10) := by omega
          simp [f1, f2, f3, h2, g3, g3b, g4]

/-- A body that is not passed on is answered with status 400 and `success: false`. -/
theorem validateInquiry_respond (body : InquiryBody) :
    validateInquiry body = Validation.next ∨
      ∃ msg, validateInquiry body
        = Validation.respond { status := 400, success := false, message := some msg } := by
  unfold validateInquiry
  split
  · split_ifs
    · exact Or.inr ⟨_, rfl⟩
    · exact Or.inr ⟨_, rfl⟩
    · exact Or.inr ⟨_, rfl⟩
    · exact Or.inr ⟨_, rfl⟩
    · exact Or.inl rfl
  · exact Or.inr ⟨_, rfl⟩

/-- The form handler accepts exactly the objects that pass its three checks. -/
theorem validateForm_iff (data : InquiryBody) :
    validateForm data = true ↔
      ∃ name email message, data.name = some name ∧ data.email = some email ∧
        data.message = some message ∧ emailRegexTest email = true ∧
        2 ≤ jsLength name ∧ 10 ≤ jsLength message := by
  unfold validateForm
  cases hn : data.name with
  | none => simp
  | some name =>
    cases he : data.email with
    | none => simp
    | some email =>
      cases hm : data.message with
      | none => simp
      | some message =>
        simp only [Option.some.injEq, exists_and_left, exists_eq_left']
        constructor
        · intro h
          simp only [Bool.and_eq_true, Bool.not_eq_true', Bool.or_eq_false_iff,
            decide_eq_false_iff_not, not_lt, Bool.not_eq_false'] at h
          exact ⟨h.1.2.2, h.1.1.2, h.2.2⟩
        · rintro ⟨h2, h3, h4⟩
          have f1 := falsy_some_of_length name 0 (by omega)
          have f2 := falsy_some_of_email email h2
          have f3 := falsy_some_of_length message 0 (by omega)
          have g3 : ¬ (jsLength name < 2) := by omega
          have g4 : ¬ (jsLength message < 10) := by omega
          simp [f1, f2, f3, h2, g3, g4]

/-! ## Store errors that differ in their detail only -/

theorem isSome_cases {a b : Option String} (h : a.isSome = b.isSome) :
    (a = none ∧ b = none) ∨ ∃ x y, a = some x ∧ b = some y := by
  cases a <;> cases b <;> simp at h ⊢

theorem selectSession_sameCalls (F G : Faults) (s : Store) (t : String)
    (h : F.selectSession.isSome = G.selectSession.isSome) :
    selectSession F s t = selectSession G s t := by
  unfold selectSession
  cases hF : F.selectSession <;> cases hG : G.selectSession <;> simp [hF, hG] at h ⊢

theorem selectRecentPageView_sameCalls (F G : Faults) (s : Store) (key : Nat) (u : String)
    (h : F.selectPageView.isSome = G.selectPageView.isSome) :
    selectRecentPageView F s key u = selectRecentPageView G s key u := by
  unfold selectRecentPageView
  cases hF : F.selectPageView <;> cases hG : G.selectPageView <;> simp [hF, hG] at h ⊢

theorem getOrCreateSession_sameCalls (parseUA : Option String → ParsedUA) (F G : Faults)
    (now : Nat) (s : Store) (t : String) (m : Metadata) (h : F.sameCalls G) :
    (getOrCreateSession parseUA F now s t m).1.toOption
        = (getOrCreateSession parseUA G now s t m).1.toOption ∧
      (getOrCreateSession parseUA F now s t m).2
        = (getOrCreateSession parseUA G now s t m).2 := by
  obtain ⟨h1, h2, -, -, -, -, -⟩ := h
  unfold getOrCreateSession
  rw [selectSession_sameCalls F G s t h1]
  cases selectSession G s t with
  | some existing => exact ⟨rfl, rfl⟩
  | none =>
    rcases isSome_cases h2 with ⟨hF, hG⟩ | ⟨x, y, hF, hG⟩ <;> rw [hF, hG] <;>
      exact ⟨rfl, rfl⟩

theorem trackPageView_sameCalls (parseUA : Option String → ParsedUA) (F G : Faults)
    (now : Nat) (s : Store) (t : String) (pd : PageData) (h : F.sameCalls G) :
    (trackPageView parseUA F now s t pd).1.toOption
        = (trackPageView parseUA G now s t pd).1.toOption ∧
      (trackPageView parseUA F now s t pd).2 = (trackPageView parseUA G now s t pd).2 := by
  have hg := getOrCreateSession_sameCalls parseUA F G now s t
    { userAgent := pd.userAgent, ipAddress := pd.ipAddress, referrer := pd.referrer,
      pageUrl := some pd.url } h
  obtain ⟨-, -, h3, h4, -, -, -⟩ := h
  unfold trackPageView
  generalize getOrCreateSession parseUA F now s t
    { userAgent := pd.userAgent, ipAddress := pd.ipAddress, referrer := pd.referrer,
      pageUrl := some pd.url } = rF at hg
  generalize getOrCreateSession parseUA G now s t
    { userAgent := pd.userAgent, ipAddress := pd.ipAddress, referrer := pd.referrer,
      pageUrl := some pd.url } = rG at hg
  obtain ⟨oF, sF⟩ := rF
  obtain ⟨oG, sG⟩ := rG
  obtain ⟨ho, hs⟩ := hg
  simp only at hs
  subst hs
  cases oF with
  | error eF =>
    cases oG with
    | error eG => exact ⟨rfl, rfl⟩
    | ok b => simp [Except.toOption] at ho
  | ok a =>
    cases oG with
    | error eG => simp [Except.toOption] at ho
    | ok b =>
      have hab : a = b := by simpa [Except.toOption] using ho
      subst hab
      rcases isSome_cases h3 with ⟨hF3, hG3⟩ | ⟨x3, y3, hF3, hG3⟩ <;>
        rcases isSome_cases h4 with ⟨hF4, hG4⟩ | ⟨x4, y4, hF4, hG4⟩ <;>
        rw [hF3, hG3, hF4, hG4] <;> exact ⟨rfl, rfl⟩

theorem trackEvent_sameCalls (F G : Faults) (s : Store) (t : String) (ed : EventData)
    (h : F.sameCalls G) :
    (trackEvent F s t ed).1.toOption = (trackEvent G s t ed).1.toOption ∧
      (trackEvent F s t ed).2 = (trackEvent G s t ed).2 := by
  obtain ⟨h1, -, -, -, h5, -, -⟩ := h
  unfold trackEvent
  rw [selectSession_sameCalls F G s t h1]
  cases selectSession G s t with
  | none => exact ⟨rfl, rfl⟩
  | some session =>
    rcases isSome_cases h5 with ⟨hF, hG⟩ | ⟨x, y, hF, hG⟩ <;> rw [hF, hG] <;>
      exact ⟨rfl, rfl⟩

theorem updateTimeSpent_sameCalls (F G : Faults) (now : Nat) (s : Store) (t u : String)
    (d : Int) (h : F.sameCalls G) :
    updateTimeSpent F now s t u d = updateTimeSpent G now s t u d := by
  obtain ⟨h1, -, -, h4, -, h6, h7⟩ := h
  unfold updateTimeSpent
  rw [selectSession_sameCalls F G s t h1]
  cases selectSession G s t with
  | none => rfl
  | some session =>
    have hs1 : (match F.updateSession with
        | some _ => s
        | Option.none => updateSessionsById s session.id (timeSpentUpdate session now d))
        = (match G.updateSession with
        | some _ => s
        | Option.none => updateSessionsById s session.id (timeSpentUpdate session now d)) := by
      cases hF : F.updateSession <;> cases hG : G.updateSession <;> simp [hF, hG] at h4 ⊢
    simp only [hs1, selectRecentPageView_sameCalls F G _ session.id u h6]
    cases selectRecentPageView G _ session.id u with
    | none => rfl
    | some p =>
      cases hF : F.updatePageView <;> cases hG : G.updatePageView <;> simp [hF, hG] at h7 ⊢

theorem linkInquiryToSession_sameCalls (F G : Faults) (s : Store) (t : String) (q : Nat)
    (h : F.sameCalls G) :
    (linkInquiryToSession F s t q).1.toOption = (linkInquiryToSession G s t q).1.toOption ∧
      (linkInquiryToSession F s t q).2 = (linkInquiryToSession G s t q).2 := by
  obtain ⟨-, -, -, h4, -, -, -⟩ := h
  unfold linkInquiryToSession
  rcases isSome_cases h4 with ⟨hF, hG⟩ | ⟨x, y, hF, hG⟩ <;> rw [hF, hG] <;>
    exact ⟨rfl, rfl⟩

theorem pageViewRoute_sameCalls (parseUA : Option String → ParsedUA) (F G : Faults)
    (now : Nat) (s : Store) (req : PageViewRequest) (h : F.sameCalls G) :
    pageViewRoute parseUA F now s req = pageViewRoute parseUA G now s req := by
  unfold pageViewRoute
  split
  · rename_i sid url _ _
    split_ifs
    · rfl
    · have hl := trackPageView_sameCalls parseUA F G now s sid
        { url := url, title := req.title, referrer := req.referrer,
          screenWidth := req.screenWidth, screenHeight := req.screenHeight,
          viewportWidth := req.viewportWidth, viewportHeight := req.viewportHeight,
          userAgent := req.userAgent, ipAddress := req.ip } h
      generalize trackPageView parseUA F now s sid _ = x at hl ⊢
      generalize trackPageView parseUA G now s sid _ = y at hl ⊢
      obtain ⟨ox, sx⟩ := x
      obtain ⟨oy, sy⟩ := y
      obtain ⟨h1, h2⟩ := hl
      simp only at h2
      subst h2
      cases ox <;> cases oy <;> simp [Except.toOption] at h1 ⊢
  · rfl

theorem eventRoute_sameCalls (F G : Faults) (s : Store) (body : EventBody)
    (h : F.sameCalls G) : eventRoute F s body = eventRoute G s body := by
  unfold eventRoute
  split
  · rename_i sid name _ _
    split_ifs
    · rfl
    · have hl := trackEvent_sameCalls F G s sid
        { name := name, category := body.category, label := body.label,
          value := body.value, pageUrl := body.pageUrl, metadata := body.metadata } h
      generalize trackEvent F s sid _ = x at hl ⊢
      generalize trackEvent G s sid _ = y at hl ⊢
      obtain ⟨ox, sx⟩ := x
      obtain ⟨oy, sy⟩ := y
      obtain ⟨h1, h2⟩ := hl
      simp only at h2
      subst h2
      cases ox <;> cases oy <;> simp [Except.toOption] at h1 ⊢
  · rfl

theorem timeSpentRoute_sameCalls (F G : Faults) (now : Nat) (s : Store)
    (body : TimeSpentBody) (h : F.sameCalls G) :
    timeSpentRoute F now s body = timeSpentRoute G now s body := by
  unfold timeSpentRoute
  split
  · split_ifs
    · rfl
    · rw [updateTimeSpent_sameCalls F G now s _ _ _ h]
  · rfl

theorem getSummary_sameCalls (V : ReportingViews) (F G : SummaryFaults) (today : Int)
    (s : Store) (d : Int) (h : F.sameCalls G) :
    getSummary V F today s d = getSummary V G today s d := by
  obtain ⟨h1, h2, h3⟩ := h
  unfold getSummary
  cases hF1 : F.selectStats <;> cases hG1 : G.selectStats <;> simp [hF1, hG1] at h1 ⊢ <;>
    cases hF2 : F.selectTopPages <;> cases hG2 : G.selectTopPages <;>
      simp [hF2, hG2] at h2 ⊢ <;>
    cases hF3 : F.selectSources <;> cases hG3 : G.selectSources <;> simp [hF3, hG3] at h3 ⊢

theorem summaryRoute_sameCalls (V : ReportingViews) (F G : SummaryFaults) (today : Int)
    (s : Store) (q : Option String) (h : F.sameCalls G) :
    summaryRoute V F today s q = summaryRoute V G today s q := by
  unfold summaryRoute
  rw [getSummary_sameCalls V F G today s _ h]

theorem sendNotifications_sameCalls (F G : InquiryFaults) (outbox : List Email)
    (inquiry : Inquiry) (h : F.sameCalls G) :
    (sendNotifications F outbox inquiry).2 = (sendNotifications G outbox inquiry).2 := by
  obtain ⟨-, h2, h3⟩ := h
  unfold sendNotifications
  cases hF2 : F.sendAdmin <;> cases hG2 : G.sendAdmin <;> simp [hF2, hG2] at h2 ⊢ <;>
    cases hF3 : F.sendCustomer <;> cases hG3 : G.sendCustomer <;> simp [hF3, hG3] at h3 ⊢

theorem createInquiry_sameCalls (F G : InquiryFaults) (site : Site) (data : InquiryData)
    (metadata : InquiryMetadata) (h : F.sameCalls G) :
    (createInquiry F site data metadata).1.toOption
        = (createInquiry G site data metadata).1.toOption ∧
      (createInquiry F site data metadata).2 = (createInquiry G site data metadata).2 := by
  have hsend := sendNotifications_sameCalls F G site.outbox
    (newInquiryRow site.nextInquiryId data metadata) h
  obtain ⟨h1, -, -⟩ := h
  unfold createInquiry
  rcases isSome_cases h1 with ⟨hF, hG⟩ | ⟨x, y, hF, hG⟩ <;> rw [hF, hG]
  · exact ⟨rfl, by simp only [hsend]⟩
  · exact ⟨rfl, rfl⟩

theorem inquiryHandler_sameCalls (IF IG : InquiryFaults) (F G : Faults) (site : Site)
    (req : InquiryRequest) (hI : IF.sameCalls IG) (hF : F.sameCalls G) :
    inquiryHandler IF F site req = inquiryHandler IG G site req := by
  have hc := createInquiry_sameCalls IF IG site
    { name := req.body.name, email := req.body.email, phone := req.body.phone,
      company := req.body.company, message := req.body.message,
      source := req.body.source }
    { referrer := req.referer, ipAddress := req.ip, userAgent := req.userAgent } hI
  unfold inquiryHandler
  generalize createInquiry IF site _ _ = rF at hc
  generalize createInquiry IG site _ _ = rG at hc
  obtain ⟨oF, sF⟩ := rF
  obtain ⟨oG, sG⟩ := rG
  obtain ⟨ho, hs⟩ := hc
  simp only at hs
  subst hs
  cases oF with
  | error eF =>
    cases oG with
    | error eG => rfl
    | ok b => simp [Except.toOption] at ho
  | ok a =>
    cases oG with
    | error eG => simp [Except.toOption] at ho
    | ok b =>
      have hab : a = b := by simpa [Except.toOption] using ho
      subst hab
      simp only
      cases req.body.sessionId with
      | none => rfl
      | some sid =>
        simp only
        split_ifs
        · rfl
        · have hl := linkInquiryToSession_sameCalls F G sF.store sid a.inquiry.id hF
          generalize linkInquiryToSession F sF.store sid a.inquiry.id = lF at hl
          generalize linkInquiryToSession G sF.store sid a.inquiry.id = lG at hl
          obtain ⟨olF, stF⟩ := lF
          obtain ⟨olG, stG⟩ := lG
          obtain ⟨hlo, hls⟩ := hl
          simp only at hls
          subst hls
          cases olF <;> cases olG <;> simp [Except.toOption] at hlo ⊢

theorem inquiryRoute_sameCalls (IF IG : InquiryFaults) (F G : Faults) (site : Site)
    (req : InquiryRequest) (hI : IF.sameCalls IG) (hF : F.sameCalls G) :
    inquiryRoute IF F site req = inquiryRoute IG G site req := by
  unfold inquiryRoute
  cases validateInquiry req.body with
  | respond r => rfl
  | next => exact inquiryHandler_sameCalls IF IG F G site req hI hF

/-! ## No row is removed -/

theorem keeps_refl (s : Store) : s.Keeps s :=
  ⟨⟨id, fun _ => ⟨rfl, rfl⟩, [], by simp⟩, ⟨id, fun _ => rfl, [], by simp⟩, [], by simp⟩

theorem sameButTimeSpent_trans {p q r : PageView} (h1 : p.sameButTimeSpent q)
    (h2 : q.sameButTimeSpent r) : p.sameButTimeSpent r := by
  cases p
  cases q
  cases r
  simp only [PageView.sameButTimeSpent, PageView.mk.injEq] at *
  obtain ⟨a1, a2, a3, a4, a5, a6, a7, a8, a9, -⟩ := h1
  obtain ⟨b1, b2, b3, b4, b5, b6, b7, b8, b9, -⟩ := h2
  exact ⟨b1.trans a1, b2.trans a2, b3.trans a3, b4.trans a4, b5.trans a5, b6.trans a6,
    b7.trans a7, b8.trans a8, b9.trans a9, trivial⟩

theorem keeps_trans {s1 s2 s3 : Store} (h12 : s1.Keeps s2) (h23 : s2.Keeps s3) :
    s1.Keeps s3 := by
  obtain ⟨⟨g1, hg1, a1, e1⟩, ⟨h1, hh1, b1, f1⟩, c1, k1⟩ := h12
  obtain ⟨⟨g2, hg2, a2, e2⟩, ⟨h2, hh2, b2, f2⟩, c2, k2⟩ := h23
  refine ⟨⟨g2 ∘ g1, fun r => ?_, a1.map g2 ++ a2, ?_⟩,
    ⟨h2 ∘ h1, fun p => ?_, b1.map h2 ++ b2, ?_⟩, c1 ++ c2, ?_⟩
  · exact ⟨(hg2 (g1 r)).1.trans (hg1 r).1, (hg2 (g1 r)).2.trans (hg1 r).2⟩
  · rw [e2, e1]
    simp
  · exact sameButTimeSpent_trans (hh1 p) (hh2 (h1 p))
  · rw [f2, f1]
    simp
  · rw [k2, k1]
    simp

theorem keeps_insertSessionRow (s : Store) (row : Session) :
    s.Keeps (insertSessionRow s row) :=
  ⟨⟨id, fun _ => ⟨rfl, rfl⟩, [row], by simp [insertSessionRow]⟩,
    ⟨id, fun _ => rfl, [], by simp [insertSessionRow]⟩, [], by simp [insertSessionRow]⟩

theorem keeps_insertPageViewRow (s : Store) (row : PageView) :
    s.Keeps (insertPageViewRow s row) :=
  ⟨⟨id, fun _ => ⟨rfl, rfl⟩, [], by simp [insertPageViewRow]⟩,
    ⟨id, fun _ => rfl, [row], by simp [insertPageViewRow]⟩, [], by simp [insertPageViewRow]⟩

theorem keeps_insertEventRow (s : Store) (row : Event) :
    s.Keeps (insertEventRow s row) :=
  ⟨⟨id, fun _ => ⟨rfl, rfl⟩, [], by simp [insertEventRow]⟩,
    ⟨id, fun _ => rfl, [], by simp [insertEventRow]⟩, [row], by simp [insertEventRow]⟩

theorem keeps_updateSessionsById (s : Store) (key : Nat) (f : Session → Session)
    (hf : ∀ r, Session.sameRow r (f r)) : s.Keeps (updateSessionsById s key f) := by
  refine ⟨⟨fun r => if r.id = key then f r else r, fun r => ?_, [], by
    simp [updateSessionsById]⟩, ⟨id, fun _ => rfl, [], by simp [updateSessionsById]⟩, [], by
    simp [updateSessionsById]⟩
  by_cases h : r.id = key
  · simp only [h, if_true]
    exact hf r
  · simp only [h, if_false]
    exact ⟨rfl, rfl⟩

theorem keeps_updateSessionsByToken (s : Store) (t : String) (f : Session → Session)
    (hf : ∀ r, Session.sameRow r (f r)) : s.Keeps (updateSessionsByToken s t f) := by
  refine ⟨⟨fun r => if r.session_id = t then f r else r, fun r => ?_, [], by
    simp [updateSessionsByToken]⟩, ⟨id, fun _ => rfl, [], by
    simp [updateSessionsByToken]⟩, [], by simp [updateSessionsByToken]⟩
  by_cases h : r.session_id = t
  · simp only [h, if_true]
    exact hf r
  · simp only [h, if_false]
    exact ⟨rfl, rfl⟩

theorem keeps_updatePageViewsById (s : Store) (key : Nat) (d : Int) :
    s.Keeps (updatePageViewsById s key (pageTimeUpdate d)) := by
  refine ⟨⟨id, fun _ => ⟨rfl, rfl⟩, [], by simp [updatePageViewsById]⟩,
    ⟨fun p => if p.id = key then pageTimeUpdate d p else p, fun p => ?_, [], by
      simp [updatePageViewsById]⟩, [], by simp [updatePageViewsById]⟩
  unfold PageView.sameButTimeSpent
  by_cases h : p.id = key
  · simp only [h, if_true]
    rfl
  · simp only [h, if_false]

theorem keeps_getOrCreateSession (parseUA : Option String → ParsedUA) (F : Faults)
    (now : Nat) (s : Store) (t : String) (m : Metadata) :
    s.Keeps (getOrCreateSession parseUA F now s t m).2 := by
  unfold getOrCreateSession
  cases selectSession F s t with
  | some existing => exact keeps_refl s
  | none =>
    cases F.insertSession with
    | some e => exact keeps_refl s
    | none => exact keeps_insertSessionRow s _

theorem keeps_trackPageView (parseUA : Option String → ParsedUA) (F : Faults) (now : Nat)
    (s : Store) (t : String) (pd : PageData) :
    s.Keeps (trackPageView parseUA F now s t pd).2 := by
  have hg := keeps_getOrCreateSession parseUA F now s t
    { userAgent := pd.userAgent, ipAddress := pd.ipAddress, referrer := pd.referrer,
      pageUrl := some pd.url }
  unfold trackPageView
  generalize getOrCreateSession parseUA F now s t _ = r at hg
  obtain ⟨o, s1⟩ := r
  cases o with
  | error e => exact hg
  | ok session =>
    cases F.insertPageView with
    | some e => exact hg
    | none =>
      cases F.updateSession with
      | some e => exact keeps_trans hg (keeps_insertPageViewRow s1 _)
      | none =>
        exact keeps_trans hg (keeps_trans (keeps_insertPageViewRow s1 _)
          (keeps_updateSessionsById _ session.id (pageViewUpdate session now pd.url)
            (fun _ => ⟨rfl, rfl⟩)))

theorem keeps_trackEvent (F : Faults) (s : Store) (t : String) (ed : EventData) :
    s.Keeps (trackEvent F s t ed).2 := by
  unfold trackEvent
  cases selectSession F s t with
  | none => exact keeps_refl s
  | some session =>
    cases F.insertEvent with
    | some e => exact keeps_refl s
    | none => exact keeps_insertEventRow s _

theorem keeps_updateTimeSpent (F : Faults) (now : Nat) (s : Store) (t u : String)
    (d : Int) : s.Keeps (updateTimeSpent F now s t u d).2 := by
  unfold updateTimeSpent
  cases selectSession F s t with
  | none => exact keeps_refl s
  | some session =>
    have h1 : s.Keeps (match F.updateSession with
        | some _ => s
        | Option.none => updateSessionsById s session.id (timeSpentUpdate session now d)) := by
      cases F.updateSession with
      | some e => exact keeps_refl s
      | none =>
        exact keeps_updateSessionsById s session.id (timeSpentUpdate session now d)
          (fun _ => ⟨rfl, rfl⟩)
    simp only
    generalize (match F.updateSession with
        | some _ => s
        | Option.none => updateSessionsById s session.id (timeSpentUpdate session now d))
      = s1 at h1
    cases selectRecentPageView F s1 session.id u with
    | none => exact h1
    | some p =>
      cases F.updatePageView with
      | some e => exact h1
      | none => exact keeps_trans h1 (keeps_updatePageViewsById s1 p.id d)

theorem keeps_linkInquiryToSession (F : Faults) (s : Store) (t : String) (q : Nat) :
    s.Keeps (linkInquiryToSession F s t q).2 := by
  unfold linkInquiryToSession
  cases F.updateSession with
  | some e => exact keeps_refl s
  | none => exact keeps_updateSessionsByToken s t (inquiryUpdate q) (fun _ => ⟨rfl, rfl⟩)

theorem keeps_exec (parseUA : Option String → ParsedUA) (s : Store) (c : Call) :
    s.Keeps (c.exec parseUA s) := by
  unfold Call.exec
  cases c.op with
  | getOrCreateSession t m => exact keeps_getOrCreateSession parseUA _ _ s t m
  | trackPageView t pd => exact keeps_trackPageView parseUA _ _ s t pd
  | trackEvent t ed => exact keeps_trackEvent _ s t ed
  | updateTimeSpent t u d => exact keeps_updateTimeSpent _ _ s t u d
  | linkInquiryToSession t q => exact keeps_linkInquiryToSession _ s t q
  | getSummary d => exact keeps_refl s

theorem keeps_run (parseUA : Option String → ParsedUA) (calls : List Call) :
    ∀ s : Store, s.Keeps (run parseUA s calls) := by
  induction calls with
  | nil => exact fun s => keeps_refl s
  | cons c cs ih =>
    intro s
    exact keeps_trans (keeps_exec parseUA s c) (ih (c.exec parseUA s))

/-- A call other than `updateTimeSpent` leaves the rows of `page_views` as they are
and at most adds one. -/
theorem pageViews_exec (parseUA : Option String → ParsedUA) (s : Store) (c : Call)
    (h : c.op.isUpdateTimeSpent = false) :
    ∃ added, (c.exec parseUA s).page_views = s.page_views ++ added := by
  unfold Call.exec
  cases hop : c.op with
  | getOrCreateSession t m =>
    simp only
    unfold getOrCreateSession
    cases selectSession c.faults s t with
    | some existing => exact ⟨[], by simp⟩
    | none =>
      cases c.faults.insertSession with
      | some e => exact ⟨[], by simp⟩
      | none => exact ⟨[], by simp [insertSessionRow]⟩
  | trackPageView t pd =>
    simp only
    unfold trackPageView getOrCreateSession
    cases selectSession c.faults s t <;> cases c.faults.insertSession <;>
      cases c.faults.insertPageView <;> cases c.faults.updateSession <;>
      first
        | exact ⟨_, rfl⟩
        | exact ⟨[], (List.append_nil _).symm⟩
  | trackEvent t ed =>
    simp only
    unfold trackEvent
    cases selectSession c.faults s t with
    | none => exact ⟨[], by simp⟩
    | some session =>
      cases c.faults.insertEvent with
      | some e => exact ⟨[], by simp⟩
      | none => exact ⟨[], by simp [insertEventRow]⟩
  | updateTimeSpent t u d =>
    rw [hop] at h
    exact absurd h (by simp [Op.isUpdateTimeSpent])
  | linkInquiryToSession t q =>
    simp only
    unfold linkInquiryToSession
    cases c.faults.updateSession with
    | some e => exact ⟨[], by simp⟩
    | none => exact ⟨[], by simp [updateSessionsByToken]⟩
  | getSummary d => exact ⟨[], by simp⟩

theorem pageViews_run (parseUA : Option String → ParsedUA) (calls : List Call) :
    ∀ s : Store, (∀ c ∈ calls, c.op.isUpdateTimeSpent = false) →
      ∃ added, (run parseUA s calls).page_views = s.page_views ++ added := by
  induction calls with
  | nil => exact fun s _ => ⟨[], by simp [run]⟩
  | cons c cs ih =>
    intro s h
    obtain ⟨a1, h1⟩ := pageViews_exec parseUA s c (h c (List.mem_cons_self _ _))
    obtain ⟨a2, h2⟩ := ih (c.exec parseUA s) (fun x hx => h x (List.mem_cons_of_mem _ hx))
    refine ⟨a1 ++ a2, ?_⟩
    have : run parseUA s (c :: cs) = run parseUA (c.exec parseUA s) cs := rfl
    rw [this, h2, h1, List.append_assoc]

/-! ## The inquiry route -/

theorem pageViewRoute_of_error (parseUA : Option String → ParsedUA) (F : Faults) (now : Nat)
    (s s1 : Store) (req : PageViewRequest) (sid url : String) (e : ServiceError)
    (hs : req.sessionId = some sid) (hu : req.url = some url)
    (hv : (falsy (some sid) || falsy (some url)) = false)
    (h : trackPageView parseUA F now s sid
        { url := url, title := req.title, referrer := req.referrer,
          screenWidth := req.screenWidth, screenHeight := req.screenHeight,
          viewportWidth := req.viewportWidth, viewportHeight := req.viewportHeight,
          userAgent := req.userAgent, ipAddress := req.ip } = (Except.error e, s1)) :
    pageViewRoute parseUA F now s req
      = ({ status := 500, success := false, message := some "Tracking error" }, s1) := by
  unfold pageViewRoute
  rw [hs, hu]
  simp only [hv, Bool.false_eq_true, if_false, h]

theorem eventRoute_of_error (F : Faults) (s s1 : Store) (body : EventBody)
    (sid name : String) (e : ServiceError)
    (hs : body.sessionId = some sid) (hn : body.name = some name)
    (hv : (falsy (some sid) || falsy (some name)) = false)
    (h : trackEvent F s sid
        { name := name, category := body.category, label := body.label,
          value := body.value, pageUrl := body.pageUrl, metadata := body.metadata }
        = (Except.error e, s1)) :
    eventRoute F s body
      = ({ status := 500, success := false, message := some "Tracking error" }, s1) := by
  unfold eventRoute
  rw [hs, hn]
  simp only [hv, Bool.false_eq_true, if_false, h]

theorem inquiryHandler_of_insert_fault (IF : InquiryFaults) (F : Faults) (site : Site)
    (req : InquiryRequest) (e : String) (h : IF.insertInquiry = some e) :
    inquiryHandler IF F site req = (inquiryErrorResponse, site) := by
  unfold inquiryHandler createInquiry
  rw [h]

theorem inquiryHandler_of_link_fault (IF : InquiryFaults) (F : Faults) (site : Site)
    (req : InquiryRequest) (sid e : String)
    (hI : IF.insertInquiry = none) (hs : req.body.sessionId = some sid)
    (hsid : falsy (some sid) = false) (hF : F.updateSession = some e) :
    inquiryHandler IF F site req
      = (inquiryErrorResponse,
          { site with
            inquiries := site.inquiries ++
              [newInquiryRow site.nextInquiryId
                { name := req.body.name, email := req.body.email, phone := req.body.phone,
                  company := req.body.company, message := req.body.message,
                  source := req.body.source }
                { referrer := req.referer, ipAddress := req.ip,
                  userAgent := req.userAgent }],
            nextInquiryId := site.nextInquiryId + 1,
            outbox := (sendNotifications IF site.outbox
              (newInquiryRow site.nextInquiryId
                { name := req.body.name, email := req.body.email, phone := req.body.phone,
                  company := req.body.company, message := req.body.message,
                  source := req.body.source }
                { referrer := req.referer, ipAddress := req.ip,
                  userAgent := req.userAgent })).2 }) := by
  unfold inquiryHandler createInquiry linkInquiryToSession
  rw [hI, hs, hF]
  simp only [hsid, Bool.false_eq_true, if_false]

/-! ## The rows of one token -/

theorem mem_sessionKeys (s : Store) (t : String) (k : Nat) :
    k ∈ sessionKeys s t ↔ ∃ r ∈ s.visitor_sessions, r.session_id = t ∧ r.id = k := by
  unfold sessionKeys sessionsByToken
  simp only [List.mem_map, List.mem_filter, decide_eq_true_eq]
  constructor
  · rintro ⟨r, ⟨hr, ht⟩, hk⟩
    exact ⟨r, hr, ht, hk⟩
  · rintro ⟨r, hr, ht, hk⟩
    exact ⟨r, ⟨hr, ht⟩, hk⟩

theorem tokenPageViews_congr (s s1 : Store) (t : String)
    (h1 : s1.page_views = s.page_views) (h2 : sessionKeys s1 t = sessionKeys s t) :
    tokenPageViews s1 t = tokenPageViews s t := by
  unfold tokenPageViews
  rw [h1, h2]

theorem tokenEvents_congr (s s1 : Store) (t : String)
    (h1 : s1.events = s.events) (h2 : sessionKeys s1 t = sessionKeys s t) :
    tokenEvents s1 t = tokenEvents s t := by
  unfold tokenEvents
  rw [h1, h2]

theorem sessionKeys_congr (s s1 : Store) (t : String)
    (h : sessionsByToken s1 t = sessionsByToken s t) : sessionKeys s1 t = sessionKeys s t := by
  unfold sessionKeys
  rw [h]

/-- A key is not among the keys of a token other than that of its row. -/
theorem key_not_mem_sessionKeys (s : Store) (hwf : s.WF) (r : Session)
    (hr : r ∈ s.visitor_sessions) (t : String) (ht : r.session_id ≠ t) :
    r.id ∉ sessionKeys s t := by
  intro hk
  obtain ⟨q, hq, hqt, hqk⟩ := (mem_sessionKeys s t r.id).1 hk
  have hnd := hwf.1
  have : q = r := List.inj_on_of_nodup_map hnd hq hr hqk
  rw [this] at hqt
  exact ht hqt

theorem fresh_not_mem_sessionKeys (s : Store) (hwf : s.WF) (t : String) :
    s.nextSessionId ∉ sessionKeys s t := by
  intro hk
  obtain ⟨q, hq, -, hqk⟩ := (mem_sessionKeys s t s.nextSessionId).1 hk
  have := hwf.2.1 q hq
  omega

theorem sessionsByToken_insertSessionRow (s : Store) (row : Session) (t : String) :
    sessionsByToken (insertSessionRow s row) t
      = sessionsByToken s t ++ (if row.session_id = t then [row] else []) := by
  unfold sessionsByToken insertSessionRow
  simp only [List.filter_append, List.filter_cons, List.filter_nil, decide_eq_true_eq]

theorem sessionKeys_updateSessionsById (s : Store) (t : String) (key : Nat)
    (f : Session → Session) (hf : ∀ r, Session.sameRow r (f r)) :
    sessionKeys (updateSessionsById s key f) t = sessionKeys s t := by
  unfold sessionKeys
  rw [sessionsByToken_updateSessionsById s t key f (fun r => (hf r).2), List.map_map]
  apply List.map_congr_left
  intro r _
  by_cases h : r.id = key
  · simp only [Function.comp, h, if_true]
    rw [← h]
    exact (hf r).1
  · simp only [Function.comp, h, if_false]

theorem sessionsByToken_updateSessionsById_of_not_mem (s : Store) (t : String) (key : Nat)
    (f : Session → Session) (hf : ∀ r, Session.sameRow r (f r))
    (hk : key ∉ sessionKeys s t) :
    sessionsByToken (updateSessionsById s key f) t = sessionsByToken s t := by
  rw [sessionsByToken_updateSessionsById s t key f (fun r => (hf r).2)]
  conv_rhs => rw [← List.map_id (sessionsByToken s t)]
  apply List.map_congr_left
  intro r hr
  have : r.id ≠ key := by
    intro h
    apply hk
    unfold sessionKeys
    exact List.mem_map.2 ⟨r, hr, h⟩
  simp only [this, if_false, id]

theorem sessionsByToken_updateSessionsByToken_of_ne (s : Store) (a t : String)
    (f : Session → Session) (hf : ∀ r, Session.sameRow r (f r)) (hne : a ≠ t) :
    sessionsByToken (updateSessionsByToken s a f) t = sessionsByToken s t := by
  unfold sessionsByToken updateSessionsByToken
  simp only
  rw [filter_token_map _ t (fun r => if r.session_id = a then f r else r)]
  · conv_rhs => rw [← List.map_id (s.visitor_sessions.filter (fun r => r.session_id = t))]
    apply List.map_congr_left
    intro r hr
    have ht : r.session_id = t := by simpa using (List.mem_filter.1 hr).2
    have : r.session_id ≠ a := by
      rw [ht]
      exact fun h => hne h.symm
    simp only [this, if_false, id]
  · intro r
    by_cases h : r.session_id = a
    · simp only [h, if_true]
      rw [← h]
      exact (hf r).2
    · simp only [h, if_false]

theorem sessionKeys_updateSessionsByToken (s : Store) (a t : String)
    (f : Session → Session) (hf : ∀ r, Session.sameRow r (f r)) :
    sessionKeys (updateSessionsByToken s a f) t = sessionKeys s t := by
  unfold sessionKeys sessionsByToken updateSessionsByToken
  simp only
  rw [filter_token_map _ t (fun r => if r.session_id = a then f r else r), List.map_map]
  · apply List.map_congr_left
    intro r _
    by_cases h : r.session_id = a
    · simp only [Function.comp, h, if_true]
      exact (hf r).1
    · simp only [Function.comp, h, if_false]
  · intro r
    by_cases h : r.session_id = a
    · simp only [h, if_true]
      rw [← h]
      exact (hf r).2
    · simp only [h, if_false]

theorem tokenPageViews_insertPageViewRow (s : Store) (row : PageView) (t : String) :
    tokenPageViews (insertPageViewRow s row) t
      = tokenPageViews s t ++ (if row.session_id ∈ sessionKeys s t then [row] else []) := by
  unfold tokenPageViews
  have hk : sessionKeys (insertPageViewRow s row) t = sessionKeys s t := rfl
  rw [hk]
  simp only [insertPageViewRow, List.filter_append, List.filter_cons, List.filter_nil,
    decide_eq_true_eq]

theorem tokenEvents_insertEventRow (s : Store) (row : Event) (t : String) :
    tokenEvents (insertEventRow s row) t
      = tokenEvents s t ++ (if row.session_id ∈ sessionKeys s t then [row] else []) := by
  unfold tokenEvents
  have hk : sessionKeys (insertEventRow s row) t = sessionKeys s t := rfl
  rw [hk]
  simp only [insertEventRow, List.filter_append, List.filter_cons, List.filter_nil,
    decide_eq_true_eq]

theorem tokenPageViews_updatePageViewsById (s : Store) (key : Nat) (d : Int) (t : String) :
    tokenPageViews (updatePageViewsById s key (pageTimeUpdate d)) t
      = (tokenPageViews s t).map (fun p => if p.id = key then pageTimeUpdate d p else p) := by
  unfold tokenPageViews
  have hk : sessionKeys (updatePageViewsById s key (pageTimeUpdate d)) t = sessionKeys s t :=
    rfl
  rw [hk]
  simp only [updatePageViewsById, List.filter_map]
  congr 1
  apply List.filter_congr
  intro p _
  by_cases h : p.id = key <;> simp [h, pageTimeUpdate]

/-- The key of a new session row is not referred to yet, so the rows of page views
and events of every token are those from before the insert. -/
theorem tokenPageViews_insertSessionRow (s : Store) (hwf : s.WF) (row : Session)
    (hid : row.id = s.nextSessionId) (t : String) :
    tokenPageViews (insertSessionRow s row) t = tokenPageViews s t := by
  unfold tokenPageViews
  have hp : (insertSessionRow s row).page_views = s.page_views := rfl
  rw [hp]
  apply List.filter_congr
  intro p hp
  obtain ⟨q, hq, hqp⟩ := hwf.2.2.2.2 p hp
  have hlt := hwf.2.1 q hq
  have hne : p.session_id ≠ row.id := by omega
  unfold sessionKeys
  rw [sessionsByToken_insertSessionRow]
  by_cases h : row.session_id = t <;> simp [h, hne]

theorem tokenEvents_insertSessionRow (s : Store) (hwf : s.WF) (hev : s.EventsLinked)
    (row : Session) (hid : row.id = s.nextSessionId) (t : String) :
    tokenEvents (insertSessionRow s row) t = tokenEvents s t := by
  unfold tokenEvents
  have hp : (insertSessionRow s row).events = s.events := rfl
  rw [hp]
  apply List.filter_congr
  intro e he
  obtain ⟨q, hq, hqe⟩ := hev e he
  have hlt := hwf.2.1 q hq
  have hne : e.session_id ≠ row.id := by omega
  unfold sessionKeys
  rw [sessionsByToken_insertSessionRow]
  by_cases h : row.session_id = t <;> simp [h, hne]

/-! ## A call leaves the rows of other tokens alone -/

theorem selectSession_token (F : Faults) (s : Store) (t : String) (r : Session)
    (h : selectSession F s t = some r) : r.session_id = t := by
  unfold selectSession at h
  cases hF : F.selectSession with
  | some e => rw [hF] at h; exact absurd h (by simp)
  | none =>
    rw [hF] at h
    have hl := single_eq_some _ _ h
    have hm : r ∈ sessionsByToken s t := by rw [hl]; exact List.mem_singleton_self r
    simpa using (List.mem_filter.1 hm).2

theorem frame_insertSessionRow (s : Store) (hwf : s.WF) (hev : s.EventsLinked)
    (row : Session) (hid : row.id = s.nextSessionId) (t : String)
    (hne : row.session_id ≠ t) :
    sessionsByToken (insertSessionRow s row) t = sessionsByToken s t ∧
      tokenPageViews (insertSessionRow s row) t = tokenPageViews s t ∧
      tokenEvents (insertSessionRow s row) t = tokenEvents s t := by
  refine ⟨?_, tokenPageViews_insertSessionRow s hwf row hid t,
    tokenEvents_insertSessionRow s hwf hev row hid t⟩
  rw [sessionsByToken_insertSessionRow]
  simp [hne]

theorem frame_insertPageViewRow (s : Store) (row : PageView) (t : String)
    (hk : row.session_id ∉ sessionKeys s t) :
    sessionsByToken (insertPageViewRow s row) t = sessionsByToken s t ∧
      tokenPageViews (insertPageViewRow s row) t = tokenPageViews s t ∧
      tokenEvents (insertPageViewRow s row) t = tokenEvents s t := by
  refine ⟨rfl, ?_, rfl⟩
  rw [tokenPageViews_insertPageViewRow]
  simp [hk]

theorem frame_insertEventRow (s : Store) (row : Event) (t : String)
    (hk : row.session_id ∉ sessionKeys s t) :
    sessionsByToken (insertEventRow s row) t = sessionsByToken s t ∧
      tokenPageViews (insertEventRow s row) t = tokenPageViews s t ∧
      tokenEvents (insertEventRow s row) t = tokenEvents s t := by
  refine ⟨rfl, rfl, ?_⟩
  rw [tokenEvents_insertEventRow]
  simp [hk]

theorem frame_updateSessionsById (s : Store) (key : Nat) (f : Session → Session)
    (hf : ∀ r, Session.sameRow r (f r)) (t : String) (hk : key ∉ sessionKeys s t) :
    sessionsByToken (updateSessionsById s key f) t = sessionsByToken s t ∧
      tokenPageViews (updateSessionsById s key f) t = tokenPageViews s t ∧
      tokenEvents (updateSessionsById s key f) t = tokenEvents s t :=
  ⟨sessionsByToken_updateSessionsById_of_not_mem s t key f hf hk,
    tokenPageViews_congr _ _ t rfl (sessionKeys_updateSessionsById s t key f hf),
    tokenEvents_congr _ _ t rfl (sessionKeys_updateSessionsById s t key f hf)⟩

theorem frame_updateSessionsByToken (s : Store) (a : String) (f : Session → Session)
    (hf : ∀ r, Session.sameRow r (f r)) (t : String) (hne : a ≠ t) :
    sessionsByToken (updateSessionsByToken s a f) t = sessionsByToken s t ∧
      tokenPageViews (updateSessionsByToken s a f) t = tokenPageViews s t ∧
      tokenEvents (updateSessionsByToken s a f) t = tokenEvents s t :=
  ⟨sessionsByToken_updateSessionsByToken_of_ne s a t f hf hne,
    tokenPageViews_congr _ _ t rfl (sessionKeys_updateSessionsByToken s a t f hf),
    tokenEvents_congr _ _ t rfl (sessionKeys_updateSessionsByToken s a t f hf)⟩

theorem frame_updatePageViewsById (s : Store) (key : Nat) (d : Int) (t : String)
    (hk : ∀ p ∈ tokenPageViews s t, p.id ≠ key) :
    sessionsByToken (updatePageViewsById s key (pageTimeUpdate d)) t = sessionsByToken s t ∧
      tokenPageViews (updatePageViewsById s key (pageTimeUpdate d)) t = tokenPageViews s t ∧
      tokenEvents (updatePageViewsById s key (pageTimeUpdate d)) t = tokenEvents s t := by
  refine ⟨rfl, ?_, rfl⟩
  rw [tokenPageViews_updatePageViewsById]
  conv_rhs => rw [← List.map_id (tokenPageViews s t)]
  apply List.map_congr_left
  intro p hp
  simp only [hk p hp, if_false, id]

theorem sameRowsOf_refl (s : Store) (t : String) : s.sameRowsOf s t := ⟨rfl, rfl, rfl⟩

theorem sameRowsOf_trans {s1 s2 s3 : Store} {t : String} (h12 : s1.sameRowsOf s2 t)
    (h23 : s2.sameRowsOf s3 t) : s1.sameRowsOf s3 t :=
  ⟨h23.1.trans h12.1, h23.2.1.trans h12.2.1, h23.2.2.trans h12.2.2⟩

theorem sessionKeys_of_sameRowsOf {s1 s2 : Store} {t : String} (h : s1.sameRowsOf s2 t) :
    sessionKeys s2 t = sessionKeys s1 t :=
  sessionKeys_congr s1 s2 t h.1

theorem selectRecentPageView_mem (F : Faults) (s : Store) (key : Nat) (u : String)
    (p : PageView) (h : selectRecentPageView F s key u = some p) :
    p ∈ s.page_views ∧ p.session_id = key := by
  unfold selectRecentPageView at h
  cases hF : F.selectPageView with
  | some e => rw [hF] at h; exact absurd h (by simp)
  | none =>
    rw [hF] at h
    have hl := single_eq_some _ _ h
    have hm : p ∈ (orderByViewedAtDesc (pageViewsFor s key u)).take 1 := by
      rw [hl]
      exact List.mem_singleton_self p
    have hm2 : p ∈ orderByViewedAtDesc (pageViewsFor s key u) := List.mem_of_mem_take hm
    have hm3 : p ∈ pageViewsFor s key u :=
      (List.perm_insertionSort _ _).mem_iff.1 hm2
    unfold pageViewsFor at hm3
    have := List.mem_filter.1 hm3
    exact ⟨this.1, by simpa using (of_decide_eq_true this.2).1⟩

theorem getOrCreateSession_key (parseUA : Option String → ParsedUA) (F : Faults) (now : Nat)
    (s s1 : Store) (a t : String) (m : Metadata) (session : Session) (hwf : s.WF)
    (hev : s.EventsLinked) (hne : a ≠ t)
    (h : getOrCreateSession parseUA F now s a m = (Except.ok session, s1)) :
    s.sameRowsOf s1 t ∧ session.id ∉ sessionKeys s1 t := by
  unfold getOrCreateSession at h
  cases hsel : selectSession F s a with
  | some existing =>
    rw [hsel] at h
    simp only [Prod.mk.injEq, Except.ok.injEq] at h
    obtain ⟨h1, h2⟩ := h
    subst h1
    subst h2
    refine ⟨sameRowsOf_refl s t, key_not_mem_sessionKeys s hwf existing
      (selectSession_mem F s a existing hsel) t ?_⟩
    rw [selectSession_token F s a existing hsel]
    exact hne
  | none =>
    rw [hsel] at h
    cases hins : F.insertSession with
    | some e => rw [hins] at h; simp at h
    | none =>
      rw [hins] at h
      simp only [Prod.mk.injEq, Except.ok.injEq] at h
      obtain ⟨h1, h2⟩ := h
      subst h1
      subst h2
      have hfr := frame_insertSessionRow s hwf hev
        (newSessionRow parseUA now s.nextSessionId a m) rfl t hne
      refine ⟨hfr, ?_⟩
      rw [sessionKeys_congr _ _ t hfr.1]
      exact fresh_not_mem_sessionKeys s hwf t

theorem getOrCreateSession_error_store (parseUA : Option String → ParsedUA) (F : Faults)
    (now : Nat) (s s1 : Store) (a : String) (m : Metadata) (e : ServiceError)
    (h : getOrCreateSession parseUA F now s a m = (Except.error e, s1)) : s1 = s := by
  unfold getOrCreateSession at h
  cases hsel : selectSession F s a with
  | some existing => rw [hsel] at h; simp at h
  | none =>
    rw [hsel] at h
    cases hins : F.insertSession with
    | some e =>
      rw [hins] at h
      simp only [Prod.mk.injEq] at h
      exact h.2.symm
    | none => rw [hins] at h; simp at h

theorem frame_trackPageView (parseUA : Option String → ParsedUA) (F : Faults) (now : Nat)
    (s : Store) (a t : String) (pd : PageData) (hwf : s.WF) (hev : s.EventsLinked)
    (hne : a ≠ t) : s.sameRowsOf (trackPageView parseUA F now s a pd).2 t := by
  unfold trackPageView
  cases hg : getOrCreateSession parseUA F now s a
      { userAgent := pd.userAgent, ipAddress := pd.ipAddress, referrer := pd.referrer,
        pageUrl := some pd.url } with
  | mk o s1 =>
    cases o with
    | error e =>
      rw [getOrCreateSession_error_store parseUA F now s s1 a _ e hg]
      exact sameRowsOf_refl s t
    | ok session =>
      obtain ⟨hfr, hk⟩ := getOrCreateSession_key parseUA F now s s1 a t _ session hwf hev hne hg
      cases F.insertPageView with
      | some e => exact hfr
      | none =>
        have h2 : s1.sameRowsOf
            (insertPageViewRow s1 (newPageViewRow now s1.nextPageViewId session pd)) t :=
          frame_insertPageViewRow s1 _ t hk
        cases F.updateSession with
        | some e => exact sameRowsOf_trans hfr h2
        | none =>
          refine sameRowsOf_trans hfr (sameRowsOf_trans h2 ?_)
          refine frame_updateSessionsById _ session.id (pageViewUpdate session now pd.url)
            (fun _ => ⟨rfl, rfl⟩) t ?_
          rw [sessionKeys_of_sameRowsOf h2]
          exact hk

theorem frame_trackEvent (F : Faults) (s : Store) (a t : String) (ed : EventData)
    (hwf : s.WF) (hne : a ≠ t) : s.sameRowsOf (trackEvent F s a ed).2 t := by
  unfold trackEvent
  cases hsel : selectSession F s a with
  | none => exact sameRowsOf_refl s t
  | some session =>
    cases F.insertEvent with
    | some e => exact sameRowsOf_refl s t
    | none =>
      apply frame_insertEventRow
      apply key_not_mem_sessionKeys s hwf session (selectSession_mem F s a session hsel)
      rw [selectSession_token F s a session hsel]
      exact hne

theorem frame_updateTimeSpent (F : Faults) (now : Nat) (s : Store) (a t u : String)
    (d : Int) (hwf : s.WF) (hne : a ≠ t) :
    s.sameRowsOf (updateTimeSpent F now s a u d).2 t := by
  unfold updateTimeSpent
  cases hsel : selectSession F s a with
  | none => exact sameRowsOf_refl s t
  | some session =>
    have hk : session.id ∉ sessionKeys s t := by
      apply key_not_mem_sessionKeys s hwf session (selectSession_mem F s a session hsel)
      rw [selectSession_token F s a session hsel]
      exact hne
    have h1 : s.sameRowsOf (match F.updateSession with
        | some _ => s
        | Option.none => updateSessionsById s session.id (timeSpentUpdate session now d)) t ∧
        (match F.updateSession with
        | some _ => s
        | Option.none => updateSessionsById s session.id
            (timeSpentUpdate session now d)).page_views = s.page_views := by
      cases F.updateSession with
      | some e => exact ⟨sameRowsOf_refl s t, rfl⟩
      | none =>
        exact ⟨frame_updateSessionsById s session.id (timeSpentUpdate session now d)
          (fun _ => ⟨rfl, rfl⟩) t hk, rfl⟩
    simp only
    generalize (match F.updateSession with
        | some _ => s
        | Option.none => updateSessionsById s session.id (timeSpentUpdate session now d))
      = s1 at h1
    obtain ⟨hfr, hpv⟩ := h1
    cases hrec : selectRecentPageView F s1 session.id u with
    | none => exact hfr
    | some p =>
      cases F.updatePageView with
      | some e => exact hfr
      | none =>
        refine sameRowsOf_trans hfr (frame_updatePageViewsById s1 p.id d t ?_)
        intro q hq hqp
        obtain ⟨hp1, hp2⟩ := selectRecentPageView_mem F s1 session.id u p hrec
        unfold tokenPageViews at hq
        obtain ⟨hq1, hq2⟩ := List.mem_filter.1 hq
        have hq3 : q.session_id ∈ sessionKeys s1 t := of_decide_eq_true hq2
        rw [hpv] at hq1 hp1
        have hqeq : q = p := List.inj_on_of_nodup_map hwf.2.2.1 hq1 hp1 hqp
        rw [hqeq, hp2, sessionKeys_of_sameRowsOf hfr] at hq3
        exact hk hq3

theorem frame_linkInquiryToSession (F : Faults) (s : Store) (a t : String) (q : Nat)
    (hne : a ≠ t) : s.sameRowsOf (linkInquiryToSession F s a q).2 t := by
  unfold linkInquiryToSession
  cases F.updateSession with
  | some e => exact sameRowsOf_refl s t
  | none =>
    exact frame_updateSessionsByToken s a (inquiryUpdate q) (fun _ => ⟨rfl, rfl⟩) t hne

theorem frame_exec (parseUA : Option String → ParsedUA) (s : Store) (c : Call)
    (a t : String) (hwf : s.WF) (hev : s.EventsLinked) (htok : c.op.token = some a)
    (hne : a ≠ t) : s.sameRowsOf (c.exec parseUA s) t := by
  unfold Call.exec
  cases hop : c.op with
  | getOrCreateSession x m => rw [hop] at htok; simp [Op.token] at htok
  | getSummary x => rw [hop] at htok; simp [Op.token] at htok
  | trackPageView x pd =>
    rw [hop] at htok
    have hx : x = a := by simpa [Op.token] using htok
    subst hx
    exact frame_trackPageView parseUA _ _ s x t pd hwf hev hne
  | trackEvent x ed =>
    rw [hop] at htok
    have hx : x = a := by simpa [Op.token] using htok
    subst hx
    exact frame_trackEvent _ s x t ed hwf hne
  | updateTimeSpent x u d =>
    rw [hop] at htok
    have hx : x = a := by simpa [Op.token] using htok
    subst hx
    exact frame_updateTimeSpent _ _ s x t u d hwf hne
  | linkInquiryToSession x q =>
    rw [hop] at htok
    have hx : x = a := by simpa [Op.token] using htok
    subst hx
    exact frame_linkInquiryToSession _ s x t q hne

/-! ## The foreign key of `events` is kept -/

theorem eventsLinked_of_keeps {s s1 : Store} (hev : s.EventsLinked) (hk : s.Keeps s1)
    (he : s1.events = s.events) : s1.EventsLinked := by
  intro e hmem
  rw [he] at hmem
  obtain ⟨r, hr, hre⟩ := hev e hmem
  obtain ⟨⟨g, hg, added, hgs⟩, -, -⟩ := hk
  refine ⟨g r, ?_, (hg r).1.trans hre⟩
  rw [hgs]
  exact List.mem_append_left _ (List.mem_map_of_mem g hr)

theorem eventsLinked_trackEvent (F : Faults) (s : Store) (t : String) (ed : EventData)
    (hev : s.EventsLinked) : (trackEvent F s t ed).2.EventsLinked := by
  unfold trackEvent
  cases hsel : selectSession F s t with
  | none => exact hev
  | some session =>
    cases F.insertEvent with
    | some e => exact hev
    | none =>
      intro e hmem
      have hm : e ∈ s.events ++ [newEventRow s.nextEventId session.id ed] := hmem
      rcases List.mem_append.1 hm with h | h
      · exact hev e h
      · rw [List.mem_singleton.1 h]
        exact ⟨session, selectSession_mem F s t session hsel, rfl⟩

theorem events_exec (parseUA : Option String → ParsedUA) (s : Store) (c : Call)
    (h : ∀ t ed, c.op ≠ Op.trackEvent t ed) : (c.exec parseUA s).events = s.events := by
  unfold Call.exec
  cases hop : c.op with
  | getOrCreateSession t m =>
    simp only
    unfold getOrCreateSession
    cases selectSession c.faults s t <;> cases c.faults.insertSession <;> rfl
  | trackPageView t pd =>
    simp only
    unfold trackPageView getOrCreateSession
    cases selectSession c.faults s t <;> cases c.faults.insertSession <;>
      cases c.faults.insertPageView <;> cases c.faults.updateSession <;> rfl
  | trackEvent t ed => exact absurd hop (h t ed)
  | updateTimeSpent t u d =>
    simp only
    unfold updateTimeSpent
    cases selectSession c.faults s t with
    | none => rfl
    | some session =>
      simp only
      cases c.faults.updateSession <;>
        cases selectRecentPageView c.faults _ session.id u <;>
        cases c.faults.updatePageView <;> rfl
  | linkInquiryToSession t q =>
    simp only
    unfold linkInquiryToSession
    cases c.faults.updateSession <;> rfl
  | getSummary d => rfl

theorem eventsLinked_exec (parseUA : Option String → ParsedUA) (s : Store) (c : Call)
    (hev : s.EventsLinked) : (c.exec parseUA s).EventsLinked := by
  by_cases h : ∃ t ed, c.op = Op.trackEvent t ed
  · obtain ⟨t, ed, hop⟩ := h
    unfold Call.exec
    rw [hop]
    exact eventsLinked_trackEvent _ s t ed hev
  · refine eventsLinked_of_keeps hev (keeps_exec parseUA s c) (events_exec parseUA s c ?_)
    intro t ed hop
    exact h ⟨t, ed, hop⟩

/-! ## The rows of the token of a call -/

theorem sessionKeys_of_empty (s : Store) (t : String) (h : sessionsByToken s t = []) :
    sessionKeys s t = [] := by
  unfold sessionKeys
  rw [h]
  rfl

theorem sessionKeys_of_single (s : Store) (t : String) (r : Session)
    (h : sessionsByToken s t = [r]) : sessionKeys s t = [r.id] := by
  unfold sessionKeys
  rw [h]
  rfl

theorem tokenPageViews_of_empty (s : Store) (t : String) (h : sessionsByToken s t = []) :
    tokenPageViews s t = [] := by
  unfold tokenPageViews
  rw [sessionKeys_of_empty s t h]
  simp

theorem tokenEvents_of_empty (s : Store) (t : String) (h : sessionsByToken s t = []) :
    tokenEvents s t = [] := by
  unfold tokenEvents
  rw [sessionKeys_of_empty s t h]
  simp

theorem pageViewsFor_of_single (s : Store) (t u : String) (r : Session)
    (h : sessionsByToken s t = [r]) :
    pageViewsFor s r.id u = (tokenPageViews s t).filter (fun p => p.page_url = u) := by
  unfold pageViewsFor tokenPageViews
  rw [sessionKeys_of_single s t r h, List.filter_filter]
  apply List.filter_congr
  intro p _
  by_cases h1 : p.session_id = r.id <;> by_cases h2 : p.page_url = u <;> simp [h1, h2]

/-- The rows of a token after `trackPageView` for it, when the token had no row. -/
theorem rows_trackPageView_of_empty (parseUA : Option String → ParsedUA) (now : Nat)
    (s : Store) (a : String) (pd : PageData) (hwf : s.WF) (hev : s.EventsLinked)
    (h : sessionsByToken s a = []) :
    sessionsByToken (trackPageView parseUA Faults.none now s a pd).2 a
        = [pageViewUpdate
            (newSessionRow parseUA now s.nextSessionId a
              { userAgent := pd.userAgent, ipAddress := pd.ipAddress,
                referrer := pd.referrer, pageUrl := some pd.url }) now pd.url
            (newSessionRow parseUA now s.nextSessionId a
              { userAgent := pd.userAgent, ipAddress := pd.ipAddress,
                referrer := pd.referrer, pageUrl := some pd.url })] ∧
      tokenPageViews (trackPageView parseUA Faults.none now s a pd).2 a
        = [newPageViewRow now s.nextPageViewId
            (newSessionRow parseUA now s.nextSessionId a
              { userAgent := pd.userAgent, ipAddress := pd.ipAddress,
                referrer := pd.referrer, pageUrl := some pd.url }) pd] ∧
      tokenEvents (trackPageView parseUA Faults.none now s a pd).2 a = [] := by
  rw [trackPageView_of_session parseUA now s _ a pd _
    (getOrCreateSession_of_empty parseUA now s a _ h)]
  simp only
  generalize hrow : newSessionRow parseUA now s.nextSessionId a
    { userAgent := pd.userAgent, ipAddress := pd.ipAddress,
      referrer := pd.referrer, pageUrl := some pd.url } = row
  have hid : row.id = s.nextSessionId := by rw [← hrow]; rfl
  have htok : row.session_id = a := by rw [← hrow]; rfl
  have hS1 : sessionsByToken (insertSessionRow s row) a = [row] := by
    rw [sessionsByToken_insertSessionRow, h]
    simp [htok]
  have hnp : (insertSessionRow s row).nextPageViewId = s.nextPageViewId := rfl
  rw [hnp]
  generalize hpv : newPageViewRow now s.nextPageViewId row pd = pv
  have hpvk : pv.session_id = row.id := by rw [← hpv]; rfl
  have hS2 : sessionsByToken (insertPageViewRow (insertSessionRow s row) pv) a = [row] := hS1
  have hK3 : sessionKeys (updateSessionsById (insertPageViewRow (insertSessionRow s row) pv)
      row.id (pageViewUpdate row now pd.url)) a
      = sessionKeys (insertPageViewRow (insertSessionRow s row) pv) a :=
    sessionKeys_updateSessionsById (insertPageViewRow (insertSessionRow s row) pv) a row.id
      (pageViewUpdate row now pd.url) (fun _ => ⟨rfl, rfl⟩)
  have hP3 := tokenPageViews_congr (insertPageViewRow (insertSessionRow s row) pv)
    (updateSessionsById (insertPageViewRow (insertSessionRow s row) pv)
      row.id (pageViewUpdate row now pd.url)) a rfl hK3
  have hE3 := tokenEvents_congr (insertPageViewRow (insertSessionRow s row) pv)
    (updateSessionsById (insertPageViewRow (insertSessionRow s row) pv)
      row.id (pageViewUpdate row now pd.url)) a rfl hK3
  refine ⟨?_, ?_, ?_⟩
  · rw [sessionsByToken_updateSessionsById (insertPageViewRow (insertSessionRow s row) pv) a
      row.id (pageViewUpdate row now pd.url) (fun _ => rfl), hS2]
    simp
  · rw [hP3, tokenPageViews_insertPageViewRow, tokenPageViews_insertSessionRow s hwf row hid,
      tokenPageViews_of_empty s a h, sessionKeys_of_single _ a row hS1]
    simp [hpvk]
  · rw [hE3]
    have : tokenEvents (insertPageViewRow (insertSessionRow s row) pv) a
        = tokenEvents (insertSessionRow s row) a := rfl
    rw [this, tokenEvents_insertSessionRow s hwf hev row hid, tokenEvents_of_empty s a h]

/-- The rows of a token after `trackPageView` for it, when the token had one row. -/
theorem rows_trackPageView_of_single (parseUA : Option String → ParsedUA) (now : Nat)
    (s : Store) (a : String) (pd : PageData) (r : Session)
    (h : sessionsByToken s a = [r]) :
    sessionsByToken (trackPageView parseUA Faults.none now s a pd).2 a
        = [pageViewUpdate r now pd.url r] ∧
      tokenPageViews (trackPageView parseUA Faults.none now s a pd).2 a
        = tokenPageViews s a ++ [newPageViewRow now s.nextPageViewId r pd] ∧
      tokenEvents (trackPageView parseUA Faults.none now s a pd).2 a = tokenEvents s a := by
  refine ⟨trackPageView_rows_of_single parseUA now s a pd r h, ?_, ?_⟩
  · rw [trackPageView_of_session parseUA now s _ a pd _
      (getOrCreateSession_of_single parseUA now s a _ r h)]
    simp only
    rw [tokenPageViews_congr (insertPageViewRow s (newPageViewRow now s.nextPageViewId r pd))
      (updateSessionsById (insertPageViewRow s (newPageViewRow now s.nextPageViewId r pd))
        r.id (pageViewUpdate r now pd.url)) a rfl
      (sessionKeys_updateSessionsById
        (insertPageViewRow s (newPageViewRow now s.nextPageViewId r pd)) a r.id
        (pageViewUpdate r now pd.url) (fun _ => ⟨rfl, rfl⟩)),
      tokenPageViews_insertPageViewRow, sessionKeys_of_single s a r h]
    simp [newPageViewRow]
  · rw [trackPageView_of_session parseUA now s _ a pd _
      (getOrCreateSession_of_single parseUA now s a _ r h)]
    simp only
    rw [tokenEvents_congr (insertPageViewRow s (newPageViewRow now s.nextPageViewId r pd))
      (updateSessionsById (insertPageViewRow s (newPageViewRow now s.nextPageViewId r pd))
        r.id (pageViewUpdate r now pd.url)) a rfl
      (sessionKeys_updateSessionsById
        (insertPageViewRow s (newPageViewRow now s.nextPageViewId r pd)) a r.id
        (pageViewUpdate r now pd.url) (fun _ => ⟨rfl, rfl⟩))]
    rfl

theorem rows_trackEvent_of_single (s : Store) (a : String) (ed : EventData) (r : Session)
    (h : sessionsByToken s a = [r]) :
    sessionsByToken (trackEvent Faults.none s a ed).2 a = [r] ∧
      tokenPageViews (trackEvent Faults.none s a ed).2 a = tokenPageViews s a ∧
      tokenEvents (trackEvent Faults.none s a ed).2 a
        = tokenEvents s a ++ [newEventRow s.nextEventId r.id ed] := by
  rw [trackEvent_of_single s a ed r h]
  refine ⟨h, rfl, ?_⟩
  simp only
  rw [tokenEvents_insertEventRow, sessionKeys_of_single s a r h]
  simp [newEventRow]

theorem rows_updateTimeSpent_of_single (now : Nat) (s : Store) (a u : String) (d : Int)
    (r : Session) (h : sessionsByToken s a = [r]) :
    sessionsByToken (updateTimeSpent Faults.none now s a u d).2 a
        = [timeSpentUpdate r now d r] ∧
      tokenPageViews (updateTimeSpent Faults.none now s a u d).2 a
        = (match single ((orderByViewedAtDesc
              ((tokenPageViews s a).filter (fun p => p.page_url = u))).take 1) with
          | Option.none => tokenPageViews s a
          | some p =>
            (tokenPageViews s a).map
              (fun q => if q.id = p.id then pageTimeUpdate d q else q)) ∧
      tokenEvents (updateTimeSpent Faults.none now s a u d).2 a = tokenEvents s a := by
  rw [updateTimeSpent_of_single now s a u d r h]
  have hsel : selectRecentPageView Faults.none s r.id u
      = single ((orderByViewedAtDesc
          ((tokenPageViews s a).filter (fun p => p.page_url = u))).take 1) := by
    unfold selectRecentPageView
    rw [pageViewsFor_of_single s a u r h]
    rfl
  rw [hsel]
  have hS : sessionsByToken (updateSessionsById s r.id (timeSpentUpdate r now d)) a
      = [timeSpentUpdate r now d r] := by
    rw [sessionsByToken_updateSessionsById s a r.id (timeSpentUpdate r now d)
      (fun _ => rfl), h]
    simp
  have hK : sessionKeys (updateSessionsById s r.id (timeSpentUpdate r now d)) a
      = sessionKeys s a :=
    sessionKeys_updateSessionsById s a r.id (timeSpentUpdate r now d) (fun _ => ⟨rfl, rfl⟩)
  have hP : tokenPageViews (updateSessionsById s r.id (timeSpentUpdate r now d)) a
      = tokenPageViews s a :=
    tokenPageViews_congr s (updateSessionsById s r.id (timeSpentUpdate r now d)) a rfl hK
  have hE : tokenEvents (updateSessionsById s r.id (timeSpentUpdate r now d)) a
      = tokenEvents s a :=
    tokenEvents_congr s (updateSessionsById s r.id (timeSpentUpdate r now d)) a rfl hK
  cases single ((orderByViewedAtDesc
      ((tokenPageViews s a).filter (fun p => p.page_url = u))).take 1) with
  | none => exact ⟨hS, hP, hE⟩
  | some p =>
    refine ⟨hS, ?_, hE⟩
    simp only
    rw [tokenPageViews_updatePageViewsById, hP]

theorem rows_linkInquiryToSession (s : Store) (a : String) (q : Nat) :
    sessionsByToken (linkInquiryToSession Faults.none s a q).2 a
        = (sessionsByToken s a).map (inquiryUpdate q) ∧
      tokenPageViews (linkInquiryToSession Faults.none s a q).2 a = tokenPageViews s a ∧
      tokenEvents (linkInquiryToSession Faults.none s a q).2 a = tokenEvents s a := by
  have hl : (linkInquiryToSession Faults.none s a q).2
      = updateSessionsByToken s a (inquiryUpdate q) := rfl
  rw [hl]
  have hK := sessionKeys_updateSessionsByToken s a a (inquiryUpdate q) (fun _ => ⟨rfl, rfl⟩)
  exact ⟨sessionsByToken_updateSessionsByToken s a (inquiryUpdate q) (fun _ => rfl),
    tokenPageViews_congr s (updateSessionsByToken s a (inquiryUpdate q)) a rfl hK,
    tokenEvents_congr s (updateSessionsByToken s a (inquiryUpdate q)) a rfl hK⟩

/-! ## Calls for different tokens commute -/

theorem tokenContent_of_sameRowsOf {s1 s2 : Store} {t : String} (h : s1.sameRowsOf s2 t) :
    tokenContent s2 t = tokenContent s1 t := by
  unfold tokenContent
  rw [h.1, h.2.1, h.2.2]

theorem content_trackPageView (parseUA : Option String → ParsedUA) (now1 now2 : Nat)
    (s1 s2 : Store) (a : String) (pd : PageData) (hwf1 : s1.WF) (hev1 : s1.EventsLinked)
    (hu1 : s1.UniqueTokens) (hwf2 : s2.WF) (hev2 : s2.EventsLinked)
    (hrows : s1.sameRowsOf s2 a) :
    tokenContent (trackPageView parseUA Faults.none now1 s1 a pd).2 a
      = tokenContent (trackPageView parseUA Faults.none now2 s2 a pd).2 a := by
  obtain ⟨hS, hP, hE⟩ := hrows
  unfold tokenContent
  rcases sessionsByToken_of_unique s1 a hu1 with h | ⟨r, h⟩
  · have h2 : sessionsByToken s2 a = [] := hS.trans h
    obtain ⟨a1, a2, a3⟩ := rows_trackPageView_of_empty parseUA now1 s1 a pd hwf1 hev1 h
    obtain ⟨b1, b2, b3⟩ := rows_trackPageView_of_empty parseUA now2 s2 a pd hwf2 hev2 h2
    rw [a1, a2, a3, b1, b2, b3]
    rfl
  · have h2 : sessionsByToken s2 a = [r] := hS.trans h
    obtain ⟨a1, a2, a3⟩ := rows_trackPageView_of_single parseUA now1 s1 a pd r h
    obtain ⟨b1, b2, b3⟩ := rows_trackPageView_of_single parseUA now2 s2 a pd r h2
    rw [a1, a2, a3, b1, b2, b3, hP, hE]
    simp only [List.map_append, List.map_cons, List.map_nil]
    rfl

theorem content_trackEvent (s1 s2 : Store) (a : String) (ed : EventData)
    (hu1 : s1.UniqueTokens) (hrows : s1.sameRowsOf s2 a) :
    tokenContent (trackEvent Faults.none s1 a ed).2 a
      = tokenContent (trackEvent Faults.none s2 a ed).2 a := by
  obtain ⟨hS, hP, hE⟩ := hrows
  rcases sessionsByToken_of_unique s1 a hu1 with h | ⟨r, h⟩
  · have h2 : sessionsByToken s2 a = [] := hS.trans h
    rw [trackEvent_of_empty Faults.none s1 a ed h, trackEvent_of_empty Faults.none s2 a ed h2]
    unfold tokenContent
    rw [hS, hP, hE]
  · have h2 : sessionsByToken s2 a = [r] := hS.trans h
    obtain ⟨a1, a2, a3⟩ := rows_trackEvent_of_single s1 a ed r h
    obtain ⟨b1, b2, b3⟩ := rows_trackEvent_of_single s2 a ed r h2
    unfold tokenContent
    rw [a1, a2, a3, b1, b2, b3, hP, hE]
    simp only [List.map_append, List.map_cons, List.map_nil]
    rfl

theorem content_updateTimeSpent (now1 now2 : Nat) (s1 s2 : Store) (a u : String) (d : Int)
    (hu1 : s1.UniqueTokens) (hrows : s1.sameRowsOf s2 a) :
    tokenContent (updateTimeSpent Faults.none now1 s1 a u d).2 a
      = tokenContent (updateTimeSpent Faults.none now2 s2 a u d).2 a := by
  obtain ⟨hS, hP, hE⟩ := hrows
  rcases sessionsByToken_of_unique s1 a hu1 with h | ⟨r, h⟩
  · have h2 : sessionsByToken s2 a = [] := hS.trans h
    rw [updateTimeSpent_of_empty Faults.none now1 s1 a u d h,
      updateTimeSpent_of_empty Faults.none now2 s2 a u d h2]
    unfold tokenContent
    rw [hS, hP, hE]
  · have h2 : sessionsByToken s2 a = [r] := hS.trans h
    obtain ⟨a1, a2, a3⟩ := rows_updateTimeSpent_of_single now1 s1 a u d r h
    obtain ⟨b1, b2, b3⟩ := rows_updateTimeSpent_of_single now2 s2 a u d r h2
    unfold tokenContent
    rw [a1, a2, a3, b1, b2, b3, hP, hE]
    rfl

theorem content_linkInquiryToSession (s1 s2 : Store) (a : String) (q : Nat)
    (hrows : s1.sameRowsOf s2 a) :
    tokenContent (linkInquiryToSession Faults.none s1 a q).2 a
      = tokenContent (linkInquiryToSession Faults.none s2 a q).2 a := by
  obtain ⟨hS, hP, hE⟩ := hrows
  obtain ⟨a1, a2, a3⟩ := rows_linkInquiryToSession s1 a q
  obtain ⟨b1, b2, b3⟩ := rows_linkInquiryToSession s2 a q
  unfold tokenContent
  rw [a1, a2, a3, b1, b2, b3, hS, hP, hE]

theorem content_exec (parseUA : Option String → ParsedUA) (now1 now2 : Nat) (op : Op)
    (s1 s2 : Store) (a : String) (htok : op.token = some a)
    (hwf1 : s1.WF) (hev1 : s1.EventsLinked) (hu1 : s1.UniqueTokens)
    (hwf2 : s2.WF) (hev2 : s2.EventsLinked) (hrows : s1.sameRowsOf s2 a) :
    tokenContent (Call.exec parseUA s1 { faults := Faults.none, now := now1, op := op }) a
      = tokenContent
          (Call.exec parseUA s2 { faults := Faults.none, now := now2, op := op }) a := by
  cases op with
  | getOrCreateSession x m => simp [Op.token] at htok
  | getSummary x => simp [Op.token] at htok
  | trackPageView x pd =>
    have hx : x = a := by simpa [Op.token] using htok
    subst hx
    exact content_trackPageView parseUA now1 now2 s1 s2 x pd hwf1 hev1 hu1 hwf2 hev2 hrows
  | trackEvent x ed =>
    have hx : x = a := by simpa [Op.token] using htok
    subst hx
    exact content_trackEvent s1 s2 x ed hu1 hrows
  | updateTimeSpent x u d =>
    have hx : x = a := by simpa [Op.token] using htok
    subst hx
    exact content_updateTimeSpent now1 now2 s1 s2 x u d hu1 hrows
  | linkInquiryToSession x q =>
    have hx : x = a := by simpa [Op.token] using htok
    subst hx
    exact content_linkInquiryToSession s1 s2 x q hrows

theorem tokenContent_comm (parseUA : Option String → ParsedUA) (s : Store)
    (opA opB : Op) (a b : String) (nowA nowB nowA2 nowB2 : Nat)
    (hwf : s.WF) (hev : s.EventsLinked) (hu : s.UniqueTokens)
    (hA : opA.token = some a) (hB : opB.token = some b) (hab : a ≠ b) (t : String) :
    tokenContent
        (run parseUA s [{ faults := Faults.none, now := nowA, op := opA },
          { faults := Faults.none, now := nowB, op := opB }]) t
      = tokenContent
        (run parseUA s [{ faults := Faults.none, now := nowB2, op := opB },
          { faults := Faults.none, now := nowA2, op := opA }]) t := by
  have hrun : ∀ (c1 c2 : Call), run parseUA s [c1, c2]
      = c2.exec parseUA (c1.exec parseUA s) := fun _ _ => rfl
  rw [hrun, hrun]
  generalize hcA : ({ faults := Faults.none, now := nowA, op := opA } : Call) = cA
  generalize hcB : ({ faults := Faults.none, now := nowB, op := opB } : Call) = cB
  generalize hcA2 : ({ faults := Faults.none, now := nowA2, op := opA } : Call) = cA2
  generalize hcB2 : ({ faults := Faults.none, now := nowB2, op := opB } : Call) = cB2
  have tA : cA.op.token = some a := by rw [← hcA]; exact hA
  have tB : cB.op.token = some b := by rw [← hcB]; exact hB
  have tA2 : cA2.op.token = some a := by rw [← hcA2]; exact hA
  have tB2 : cB2.op.token = some b := by rw [← hcB2]; exact hB
  have wA := wf_exec parseUA s cA hwf
  have wB2 := wf_exec parseUA s cB2 hwf
  have eA := eventsLinked_exec parseUA s cA hev
  have eB2 := eventsLinked_exec parseUA s cB2 hev
  by_cases hta : t = a
  · subst hta
    rw [tokenContent_of_sameRowsOf (frame_exec parseUA _ cB b t wA eA tB (Ne.symm hab))]
    rw [← hcA, ← hcA2]
    exact content_exec parseUA nowA nowA2 opA s (cB2.exec parseUA s) t hA hwf hev hu wB2 eB2
      (frame_exec parseUA s cB2 b t hwf hev tB2 (Ne.symm hab))
  · by_cases htb : t = b
    · subst htb
      rw [tokenContent_of_sameRowsOf (frame_exec parseUA _ cA2 a t wB2 eB2 tA2 hab)]
      rw [← hcB, ← hcB2]
      exact (content_exec parseUA nowB2 nowB opB s (cA.exec parseUA s) t hB hwf hev hu wA eA
        (frame_exec parseUA s cA a t hwf hev tA hab)).symm
    · rw [tokenContent_of_sameRowsOf (frame_exec parseUA _ cB b t wA eA tB (Ne.symm htb)),
        tokenContent_of_sameRowsOf (frame_exec parseUA _ cA2 a t wB2 eB2 tA2 (Ne.symm hta)),
        tokenContent_of_sameRowsOf (frame_exec parseUA s cA a t hwf hev tA (Ne.symm hta)),
        tokenContent_of_sameRowsOf (frame_exec parseUA s cB2 b t hwf hev tB2 (Ne.symm htb))]

/-! # The third group of claims -/

/-- Counterexample to C21 as stated: a time-spent request during which the session
update reports an error, and a summary request during which every query reports an
error, are answered with status 200 and `success: true`, not with status 500. -/
theorem store_error_answered_with_success :
    (timeSpentRoute (sampleUpdateFault "timeout") 30 sampleStore sampleTimeSpentBody).1
        = { status := 200, success := true, message := Option.none } ∧
      (summaryRoute sampleViews (sampleSummaryFault "timeout") 1000 sampleStore
        (some "7")).1.status = 200 ∧
      (summaryRoute sampleViews (sampleSummaryFault "timeout") 1000 sampleStore
        (some "7")).1.success = true := by
  decide

/-- Claim C21, amended. The response to a request does not depend on the error a failed
store call reports: when the same store calls fail, with whatever errors, the pageview,
event, time-spent, summary and inquiry routes each send the same response and leave
the same state; in production mode the body of the global error handler is the same
for every error; and whenever `trackPageView`, `trackEvent` or the inquiry insert
raises an error to its route, the response is status 500 with the fixed message of
the route. -/
theorem responses_independent_of_store_error (parseUA : Option String → ParsedUA)
    (V : ReportingViews) (F G : Faults) (SF SG : SummaryFaults) (IF IG : InquiryFaults)
    (now : Nat) (today : Int) (s : Store) (site : Site) (pv : PageViewRequest)
    (ev : EventBody) (ts : TimeSpentBody) (days : Option String) (iq : InquiryRequest)
    (hF : F.sameCalls G) (hS : SF.sameCalls SG) (hI : IF.sameCalls IG) :
    pageViewRoute parseUA F now s pv = pageViewRoute parseUA G now s pv ∧
      eventRoute F s ev = eventRoute G s ev ∧
      timeSpentRoute F now s ts = timeSpentRoute G now s ts ∧
      summaryRoute V SF today s days = summaryRoute V SG today s days ∧
      inquiryRoute IF F site iq = inquiryRoute IG G site iq ∧
      (∀ e1 e2 : String,
        globalErrorHandler "production" e1 = globalErrorHandler "production" e2) ∧
      (∀ (sid url : String) (e : ServiceError) (s1 : Store),
        pv.sessionId = some sid → pv.url = some url →
        (falsy (some sid) || falsy (some url)) = false →
        trackPageView parseUA F now s sid
          { url := url, title := pv.title, referrer := pv.referrer,
            screenWidth := pv.screenWidth, screenHeight := pv.screenHeight,
            viewportWidth := pv.viewportWidth, viewportHeight := pv.viewportHeight,
            userAgent := pv.userAgent, ipAddress := pv.ip } = (Except.error e, s1) →
        pageViewRoute parseUA F now s pv
          = ({ status := 500, success := false, message := some "Tracking error" }, s1)) ∧
      (∀ (sid name : String) (e : ServiceError) (s1 : Store),
        ev.sessionId = some sid → ev.name = some name →
        (falsy (some sid) || falsy (some name)) = false →
        trackEvent F s sid
          { name := name, category := ev.category, label := ev.label, value := ev.value,
            pageUrl := ev.pageUrl, metadata := ev.metadata } = (Except.error e, s1) →
        eventRoute F s ev
          = ({ status := 500, success := false, message := some "Tracking error" }, s1)) ∧
      (∀ e : String, validateInquiry iq.body = Validation.next →
        IF.insertInquiry = some e →
        inquiryRoute IF F site iq = (inquiryErrorResponse, site)) :=
  ⟨pageViewRoute_sameCalls parseUA F G now s pv hF,
    eventRoute_sameCalls F G s ev hF,
    timeSpentRoute_sameCalls F G now s ts hF,
    summaryRoute_sameCalls V SF SG today s days hS,
    inquiryRoute_sameCalls IF IG F G site iq hI hF,
    fun _ _ => rfl,
    fun sid url e s1 h1 h2 h3 h4 =>
      pageViewRoute_of_error parseUA F now s s1 pv sid url e h1 h2 h3 h4,
    fun sid name e s1 h1 h2 h3 h4 => eventRoute_of_error F s s1 ev sid name e h1 h2 h3 h4,
    fun e hv hins => by
      unfold inquiryRoute
      rw [hv]
      exact inquiryHandler_of_insert_fault IF F site iq e hins⟩

/-- Witness of the amended C21: the session update fails with `timeout` in one run and
with `permission denied` in the other, the summary queries and the inquiry insert
likewise; the inquiry route answers both runs alike, and a page-view request whose
PageView insert fails is answered with status 500. -/
theorem responses_independent_of_store_error_witness :
    (sampleUpdateFault "timeout").sameCalls (sampleUpdateFault "permission denied") ∧
      (sampleSummaryFault "timeout").sameCalls (sampleSummaryFault "permission denied") ∧
      (sampleInquiryInsertFault "timeout").sameCalls
        (sampleInquiryInsertFault "permission denied") ∧
      inquiryRoute (sampleInquiryInsertFault "timeout") (sampleUpdateFault "timeout")
          sampleSite sampleInquiryRequest
        = inquiryRoute (sampleInquiryInsertFault "permission denied")
          (sampleUpdateFault "permission denied") sampleSite sampleInquiryRequest ∧
      pageViewRoute sampleParseUA samplePageViewFault 30 sampleStore
          (samplePageViewRequest (some "s1") (some "/home"))
        = ({ status := 500, success := false, message := some "Tracking error" },
            sampleStore) ∧
      inquiryRoute (sampleInquiryInsertFault "timeout") (sampleUpdateFault "timeout")
          sampleSite sampleInquiryRequest = (inquiryErrorResponse, sampleSite) :=
  ⟨by decide, by decide, by decide,
    (responses_independent_of_store_error sampleParseUA sampleViews
      (sampleUpdateFault "timeout") (sampleUpdateFault "permission denied")
      (sampleSummaryFault "timeout") (sampleSummaryFault "permission denied")
      (sampleInquiryInsertFault "timeout") (sampleInquiryInsertFault "permission denied")
      30 1000 sampleStore sampleSite (samplePageViewRequest (some "s1") (some "/home"))
      (sampleEventBody (some "s1") (some "click")) sampleTimeSpentBody (some "7")
      sampleInquiryRequest (by decide) (by decide) (by decide)).2.2.2.2.1,
    (responses_independent_of_store_error sampleParseUA sampleViews
      samplePageViewFault samplePageViewFault
      (sampleSummaryFault "timeout") (sampleSummaryFault "permission denied")
      (sampleInquiryInsertFault "timeout") (sampleInquiryInsertFault "permission denied")
      30 1000 sampleStore sampleSite (samplePageViewRequest (some "s1") (some "/home"))
      (sampleEventBody (some "s1") (some "click")) sampleTimeSpentBody (some "7")
      sampleInquiryRequest (by decide) (by decide) (by decide)).2.2.2.2.2.2.1
        "s1" "/home" (ServiceError.store "timeout") sampleStore rfl rfl (by decide) rfl,
    (responses_independent_of_store_error sampleParseUA sampleViews
      (sampleUpdateFault "timeout") (sampleUpdateFault "permission denied")
      (sampleSummaryFault "timeout") (sampleSummaryFault "permission denied")
      (sampleInquiryInsertFault "timeout") (sampleInquiryInsertFault "permission denied")
      30 1000 sampleStore sampleSite (samplePageViewRequest (some "s1") (some "/home"))
      (sampleEventBody (some "s1") (some "click")) sampleTimeSpentBody (some "7")
      sampleInquiryRequest (by decide) (by decide) (by decide)).2.2.2.2.2.2.2.2
        "timeout" (by decide) rfl⟩

/-- Claim C22. Whenever the insert of the inquiry goes through, `createInquiry` resolves to
`{ success: true, inquiry }` with the row it stored, whether the two sends go through
or reject: the result, the `inquiries` table and the analytics store are the same for
every outcome of the sends, the table is the old one with the new row appended and the
analytics store is untouched. -/
theorem createInquiry_independent_of_emails (IF IF2 : InquiryFaults) (site : Site)
    (data : InquiryData) (metadata : InquiryMetadata)
    (h : IF.insertInquiry = Option.none) (h2 : IF2.insertInquiry = Option.none) :
    (createInquiry IF site data metadata).1
        = Except.ok { success := true,
                      inquiry := newInquiryRow site.nextInquiryId data metadata } ∧
      (createInquiry IF site data metadata).2.inquiries
        = site.inquiries ++ [newInquiryRow site.nextInquiryId data metadata] ∧
      (createInquiry IF site data metadata).2.store = site.store ∧
      (createInquiry IF site data metadata).1 = (createInquiry IF2 site data metadata).1 ∧
      (createInquiry IF site data metadata).2.inquiries
        = (createInquiry IF2 site data metadata).2.inquiries ∧
      (createInquiry IF site data metadata).2.nextInquiryId
        = (createInquiry IF2 site data metadata).2.nextInquiryId ∧
      (createInquiry IF site data metadata).2.store
        = (createInquiry IF2 site data metadata).2.store := by
  rw [createInquiry_of_insert IF site data metadata h,
    createInquiry_of_insert IF2 site data metadata h2]
  exact ⟨rfl, rfl, rfl, rfl, rfl, rfl, rfl⟩

/-- Witness of C22: the sample submission with both sends rejecting, against both sends
going through. -/
theorem createInquiry_independent_of_emails_witness :
    (createInquiry (sampleSendFault "smtp down") sampleSite
        { name := some "Ada", email := some "ada@site.io", phone := Option.none,
          company := some "Engines", message := some "Please call me.",
          source := Option.none }
        { referrer := Option.none, ipAddress := Option.none, userAgent := Option.none }).1
      = Except.ok { success := true, inquiry := sampleInquiry } ∧
    (createInquiry (sampleSendFault "smtp down") sampleSite
        { name := some "Ada", email := some "ada@site.io", phone := Option.none,
          company := some "Engines", message := some "Please call me.",
          source := Option.none }
        { referrer := Option.none, ipAddress := Option.none, userAgent := Option.none }).1
      = (createInquiry InquiryFaults.none sampleSite
        { name := some "Ada", email := some "ada@site.io", phone := Option.none,
          company := some "Engines", message := some "Please call me.",
          source := Option.none }
        { referrer := Option.none, ipAddress := Option.none, userAgent := Option.none }).1 :=
  ⟨(createInquiry_independent_of_emails (sampleSendFault "smtp down") InquiryFaults.none
      sampleSite _ _ rfl rfl).1,
    (createInquiry_independent_of_emails (sampleSendFault "smtp down") InquiryFaults.none
      sampleSite _ _ rfl rfl).2.2.2.1⟩

/-- Claim C23. Tracking operations for different tokens are independent. On a store that
meets its key constraints and holds at most one session row per token, let `opA` be
one of `trackPageView`, `trackEvent`, `updateTimeSpent` and `linkInquiryToSession` for
the token `a` and `opB` one for a different token `b`. Running `opA` then `opB` and
running `opB` then `opA`, at whatever clock readings, leave for every token the same
session rows, PageView rows and Event rows up to generated keys and timestamps; and
`opA`, whatever store calls fail in it, leaves the Session, PageView and Event rows of
every other token as they are. -/
theorem different_tokens_independent (parseUA : Option String → ParsedUA) (s : Store)
    (opA opB : Op) (a b : String) (nowA nowB nowA2 nowB2 : Nat)
    (hwf : s.WF) (hev : s.EventsLinked) (hu : s.UniqueTokens)
    (hA : opA.token = some a) (hB : opB.token = some b) (hab : a ≠ b) :
    (∀ t : String,
      tokenContent
          (run parseUA s [{ faults := Faults.none, now := nowA, op := opA },
            { faults := Faults.none, now := nowB, op := opB }]) t
        = tokenContent
          (run parseUA s [{ faults := Faults.none, now := nowB2, op := opB },
            { faults := Faults.none, now := nowA2, op := opA }]) t) ∧
      (∀ (F : Faults) (now : Nat) (t : String), a ≠ t →
        sessionsByToken (Call.exec parseUA s { faults := F, now := now, op := opA }) t
            = sessionsByToken s t ∧
          tokenPageViews (Call.exec parseUA s { faults := F, now := now, op := opA }) t
            = tokenPageViews s t ∧
          tokenEvents (Call.exec parseUA s { faults := F, now := now, op := opA }) t
            = tokenEvents s t) :=
  ⟨fun t => tokenContent_comm parseUA s opA opB a b nowA nowB nowA2 nowB2 hwf hev hu hA hB
      hab t,
    fun F now t hne =>
      frame_exec parseUA s { faults := F, now := now, op := opA } a t hwf hev hA hne⟩

/-- Witness of C23: on the sample store, a page view for the known token `s1` and a page
view for the new token `s2`, in both orders. -/
theorem different_tokens_independent_witness :
    sampleStore.WF ∧ sampleStore.EventsLinked ∧ sampleStore.UniqueTokens ∧
      tokenContent
          (run sampleParseUA sampleStore
            [{ faults := Faults.none, now := 20,
               op := Op.trackPageView "s1" (samplePage "/contact") },
             { faults := Faults.none, now := 21,
               op := Op.trackPageView "s2" (samplePage "/home") }]) "s2"
        = tokenContent
          (run sampleParseUA sampleStore
            [{ faults := Faults.none, now := 30,
               op := Op.trackPageView "s2" (samplePage "/home") },
             { faults := Faults.none, now := 31,
               op := Op.trackPageView "s1" (samplePage "/contact") }]) "s2" ∧
      tokenPageViews
          (Call.exec sampleParseUA sampleStore
            { faults := Faults.none, now := 20,
              op := Op.trackPageView "s2" (samplePage "/home") }) "s1"
        = tokenPageViews sampleStore "s1" :=
  ⟨by decide, by decide, by decide,
    (different_tokens_independent sampleParseUA sampleStore
      (Op.trackPageView "s1" (samplePage "/contact"))
      (Op.trackPageView "s2" (samplePage "/home")) "s1" "s2" 20 21 31 30
      (by decide) (by decide) (by decide) rfl rfl (by decide)).1 "s2",
    ((different_tokens_independent sampleParseUA sampleStore
      (Op.trackPageView "s2" (samplePage "/home"))
      (Op.trackPageView "s1" (samplePage "/contact")) "s2" "s1" 20 21 31 30
      (by decide) (by decide) (by decide) rfl rfl (by decide)).2
        Faults.none 20 "s1" (by decide)).2.1⟩

/-- Claim C24. No sequential execution of calls of the analytics service removes a row:
after it every table is the table from before, row by row and in place, followed by
the rows added, where a session row kept its key and token, a PageView row changed in
`time_spent` at most and an Event row did not change; and when no call of the
execution is `updateTimeSpent`, the PageView rows from before are unchanged. -/
theorem run_keeps_rows (parseUA : Option String → ParsedUA) (s : Store)
    (calls : List Call) :
    s.Keeps (run parseUA s calls) ∧
      ((∀ c ∈ calls, c.op.isUpdateTimeSpent = false) →
        ∃ added, (run parseUA s calls).page_views = s.page_views ++ added) :=
  ⟨keeps_run parseUA calls s, pageViews_run parseUA calls s⟩

/-- Witness of C24: a page view and an event on the sample store, neither of them
`updateTimeSpent`. -/
theorem run_keeps_rows_witness :
    (∀ c ∈ [({ faults := Faults.none, now := 20,
               op := Op.trackPageView "s1" (samplePage "/contact") } : Call),
            { faults := Faults.none, now := 21, op := Op.trackEvent "s1" sampleEventData }],
        c.op.isUpdateTimeSpent = false) ∧
      ∃ added,
        (run sampleParseUA sampleStore
          [{ faults := Faults.none, now := 20,
             op := Op.trackPageView "s1" (samplePage "/contact") },
           { faults := Faults.none, now := 21,
             op := Op.trackEvent "s1" sampleEventData }]).page_views
          = sampleStore.page_views ++ added :=
  ⟨by decide,
    (run_keeps_rows sampleParseUA sampleStore
      [{ faults := Faults.none, now := 20,
         op := Op.trackPageView "s1" (samplePage "/contact") },
       { faults := Faults.none, now := 21, op := Op.trackEvent "s1" sampleEventData }]).2
      (by decide)⟩

/-- On a body whose `name`, `email` and `message` are each absent or a string, the
middleware `validateInquiry` calls `next`, and sends nothing, exactly when the three
are present (neither absent nor empty), `email` matches the email pattern, `name` is
between 2 and 255 characters long and `message` is at least 10 characters long,
lengths being counted as the `length` of the string. For every other such body it
responds with status 400 and `success: false` and does not call `next`, so the route
leaves the state as it is. -/
theorem validateInquiry_passes_exactly_valid (IF : InquiryFaults) (F : Faults)
    (site : Site) (req : InquiryRequest) :
    (validateInquiry req.body = Validation.next ↔
      falsy req.body.name = false ∧ falsy req.body.email = false ∧
        falsy req.body.message = false ∧
        ∃ name email message, req.body.name = some name ∧ req.body.email = some email ∧
          req.body.message = some message ∧ emailRegexTest email = true ∧
          2 ≤ jsLength name ∧ jsLength name ≤ 255 ∧ 10 ≤ jsLength message) ∧
      (validateInquiry req.body = Validation.next ∨
        ∃ msg, validateInquiry req.body
            = Validation.respond { status := 400, success := false, message := some msg } ∧
          inquiryRoute IF F site req
            = ({ status := 400, success := false, message := some msg,
                 inquiryId := Option.none }, site)) := by
  refine ⟨⟨fun h => ?_, fun h => (validateInquiry_next_iff req.body).2 h.2.2.2⟩, ?_⟩
  · obtain ⟨name, email, message, h1, h2, h3, h4, h5, h6, h7⟩ :=
      (validateInquiry_next_iff req.body).1 h
    refine ⟨?_, ?_, ?_, name, email, message, h1, h2, h3, h4, h5, h6, h7⟩
    · rw [h1]
      exact falsy_some_of_length name 1 h5
    · rw [h2]
      exact falsy_some_of_email email h4
    · rw [h3]
      exact falsy_some_of_length message 9 h7
  · rcases validateInquiry_respond req.body with h | ⟨msg, h⟩
    · exact Or.inl h
    · refine Or.inr ⟨msg, h, ?_⟩
      unfold inquiryRoute
      rw [h]

/-- On fields that are absent or strings, the middleware on arbitrary values is the
middleware on string fields. -/
theorem validateInquiry_ofField (body : InquiryBody) :
    JsValue.validateInquiry (JsValue.ofField body.name) (JsValue.ofField body.email)
        (JsValue.ofField body.message)
      = validateInquiry body := by
  unfold JsValue.validateInquiry validateInquiry
  cases body.name with
  | none => rfl
  | some name =>
    cases body.email with
    | none =>
      simp [JsValue.ofField, JsValue.falsy]
    | some email =>
      cases body.message with
      | none =>
        simp [JsValue.ofField, JsValue.falsy]
      | some message =>
        simp only [JsValue.ofField, JsValue.falsy, JsValue.toJsString, JsValue.length,
          lengthBelow, lengthAbove, falsy, decide_eq_true_eq]

/-- Claim C25, the code at the failing input. For the body
`{ name: 7, email: "a@b.co", message: "a message of ten or more" }` the middleware
calls `next` and sends no 400 response, although the name is not between 2 and 255
characters long: the number 7 has no `length`, so neither length test of the name
holds, and written out it has one character. A string name of one character with the
same email and message is answered with status 400. -/
theorem validateInquiry_passes_number_name :
    JsValue.validateInquiry (JsValue.number 7) (JsValue.string "a@b.co")
        (JsValue.string "a message of ten or more") = Validation.next ∧
      (JsValue.number 7).length = Option.none ∧
      jsLength (JsValue.number 7).toJsString = 1 ∧
      JsValue.validateInquiry (JsValue.string "7") (JsValue.string "a@b.co")
        (JsValue.string "a message of ten or more")
        = Validation.respond
            { status := 400, success := false,
              message := some "Name must be between 2 and 255 characters." } := by
  decide

/-- Counterexample to C26 as stated: with the page loaded at clock reading 0 and interval
ticks 30 and 60 seconds later, the second report carries 30 seconds, not the 60
seconds elapsed since the page was loaded. -/
theorem second_tick_reports_thirty_seconds :
    (clientRun { pageLoadTime := 0 } sampleTicks).1 = [some 30, some 30] ∧
      (clientRun { pageLoadTime := 0 } sampleTicks).1 ≠ [some 30, some 60] := by
  decide

/-- Claim C26, amended. Every time-spent report the client tracking agent sends carries
the whole seconds elapsed since the timer was last reset: since the page was loaded
while no interval tick has fired, and since the latest interval tick afterwards, each
tick resetting the timer after its report. A report is sent only when these seconds
are positive. So a report sent before the first tick is the running total for the
view, and each later one is the increment since the tick before it. -/
theorem report_counts_from_last_reset (a : ClientTimer) (es : List ClientEvent)
    (now resetAt : Int) :
    (clientStep (clientRun a es).2 (ClientEvent.beforeUnload now)).1
        = (if (now - lastReset a.pageLoadTime es) / 1000 > 0
            then some ((now - lastReset a.pageLoadTime es) / 1000) else Option.none) ∧
      (clientStep (clientRun a es).2 (ClientEvent.intervalTick now resetAt)).1
        = (if (now - lastReset a.pageLoadTime es) / 1000 > 0
            then some ((now - lastReset a.pageLoadTime es) / 1000) else Option.none) ∧
      (clientStep (clientRun a es).2 (ClientEvent.intervalTick now resetAt)).2.pageLoadTime
        = resetAt ∧
      ((∀ e ∈ es, e.isTick = false) →
        lastReset a.pageLoadTime es = a.pageLoadTime) ∧
      (∀ (pre post : List ClientEvent) (t r : Int),
        es = pre ++ ClientEvent.intervalTick t r :: post →
        (∀ e ∈ post, e.isTick = false) →
        lastReset a.pageLoadTime es = r) := by
  have hl := clientRun_pageLoadTime es a
  refine ⟨?_, ?_, rfl, lastReset_of_no_tick a.pageLoadTime es, ?_⟩
  · simp only [clientStep, sendTimeSpent, hl]
  · simp only [clientStep, sendTimeSpent, hl]
  · intro pre post t r hes hpost
    rw [hes, lastReset_append]
    exact lastReset_of_no_tick r post hpost

/-- Witness of the amended C26: after the two sample ticks the timer counts from the
second tick, and with no tick before it a report at 45 seconds carries 45. -/
theorem report_counts_from_last_reset_witness :
    lastReset 0 sampleTicks = 60000 ∧ lastReset 0 [ClientEvent.beforeUnload 10000] = 0 ∧
      (clientStep (clientRun { pageLoadTime := 0 } [ClientEvent.beforeUnload 10000]).2
        (ClientEvent.beforeUnload 45000)).1 = some 45 :=
  ⟨(report_counts_from_last_reset { pageLoadTime := 0 } sampleTicks 0 0).2.2.2.2
      [ClientEvent.intervalTick 30000 30000] [] 60000 60000 rfl (by decide),
    (report_counts_from_last_reset { pageLoadTime := 0 } [ClientEvent.beforeUnload 10000]
      0 0).2.2.2.1 (by decide),
    (report_counts_from_last_reset { pageLoadTime := 0 } [ClientEvent.beforeUnload 10000]
      45000 0).1⟩

/-- Claim C27. When the body passed validation and carries a session id, the inquiry
insert goes through and the update of `linkInquiryToSession` then reports an error,
the submission endpoint responds with status 500 and `success: false`, although
`createInquiry` resolved with success, the inquiry row is stored and the notification
emails were started (the outbox holds what the provider accepted): the endpoint is
not atomic with respect to the link step. -/
theorem inquiryRoute_not_atomic (IF : InquiryFaults) (F : Faults) (site : Site)
    (req : InquiryRequest) (sid e : String)
    (hv : validateInquiry req.body = Validation.next)
    (hI : IF.insertInquiry = Option.none) (hs : req.body.sessionId = some sid)
    (hsid : sid ≠ "") (hF : F.updateSession = some e) :
    (createInquiry IF site
        { name := req.body.name, email := req.body.email, phone := req.body.phone,
          company := req.body.company, message := req.body.message,
          source := req.body.source }
        { referrer := req.referer, ipAddress := req.ip, userAgent := req.userAgent }).1
      = Except.ok
          { success := true,
            inquiry := newInquiryRow site.nextInquiryId
              { name := req.body.name, email := req.body.email, phone := req.body.phone,
                company := req.body.company, message := req.body.message,
                source := req.body.source }
              { referrer := req.referer, ipAddress := req.ip,
                userAgent := req.userAgent } } ∧
    (linkInquiryToSession F site.store sid site.nextInquiryId).1
      = Except.error (ServiceError.store e) ∧
    (inquiryRoute IF F site req).1 = inquiryErrorResponse ∧
    (inquiryRoute IF F site req).1.status = 500 ∧
    (inquiryRoute IF F site req).1.success = false ∧
    (inquiryRoute IF F site req).2.inquiries
      = site.inquiries ++
          [newInquiryRow site.nextInquiryId
            { name := req.body.name, email := req.body.email, phone := req.body.phone,
              company := req.body.company, message := req.body.message,
              source := req.body.source }
            { referrer := req.referer, ipAddress := req.ip, userAgent := req.userAgent }] ∧
    (inquiryRoute IF F site req).2.outbox
      = (sendNotifications IF site.outbox
          (newInquiryRow site.nextInquiryId
            { name := req.body.name, email := req.body.email, phone := req.body.phone,
              company := req.body.company, message := req.body.message,
              source := req.body.source }
            { referrer := req.referer, ipAddress := req.ip,
              userAgent := req.userAgent })).2 ∧
    (inquiryRoute IF F site req).2.store = site.store := by
  have hf : falsy (some sid) = false := by simpa [falsy] using hsid
  have hr : inquiryRoute IF F site req = inquiryHandler IF F site req := by
    unfold inquiryRoute
    rw [hv]
  rw [hr, inquiryHandler_of_link_fault IF F site req sid e hI hs hf hF,
    createInquiry_of_insert IF site _ _ hI]
  refine ⟨rfl, ?_, rfl, rfl, rfl, rfl, rfl, rfl⟩
  unfold linkInquiryToSession
  rw [hF]

/-- Witness of C27: the sample submission from the session `s1`, no failure on the
inquiry side and a failed session update; the route answers 500 and the site holds the
inquiry and both emails. -/
theorem inquiryRoute_not_atomic_witness :
    validateInquiry sampleInquiryRequest.body = Validation.next ∧
      (inquiryRoute InquiryFaults.none (sampleUpdateFault "timeout") sampleSite
        sampleInquiryRequest).1.status = 500 ∧
      (inquiryRoute InquiryFaults.none (sampleUpdateFault "timeout") sampleSite
        sampleInquiryRequest).2.inquiries = [] ++ [sampleInquiry] ∧
      (inquiryRoute InquiryFaults.none (sampleUpdateFault "timeout") sampleSite
        sampleInquiryRequest).2.outbox
        = [{ kind := EmailKind.adminNotification, inquiry := sampleInquiry },
           { kind := EmailKind.customerConfirmation, inquiry := sampleInquiry }] :=
  ⟨by decide,
    (inquiryRoute_not_atomic InquiryFaults.none (sampleUpdateFault "timeout") sampleSite
      sampleInquiryRequest "s1" "timeout" (by decide) rfl rfl (by decide) rfl).2.2.2.1,
    (inquiryRoute_not_atomic InquiryFaults.none (sampleUpdateFault "timeout") sampleSite
      sampleInquiryRequest "s1" "timeout" (by decide) rfl rfl (by decide) rfl).2.2.2.2.2.1,
    (inquiryRoute_not_atomic InquiryFaults.none (sampleUpdateFault "timeout") sampleSite
      sampleInquiryRequest "s1" "timeout" (by decide) rfl rfl (by decide) rfl).2.2.2.2.2.2.1⟩

/-- Claim C28. A string matches the email pattern of `validateInquiry` and
`validateForm` if and only if it contains no white space, contains exactly one `@`,
has a non-empty part before the `@`, and the part after the `@` holds a `.` that is
neither its first nor its last character. -/
theorem emailRegexTest_iff_shape (email : String) :
    emailRegexTest email = true ↔
      (∀ c ∈ email.toList, isStrWhiteSpace c = false) ∧ email.toList.count '@' = 1 ∧
        ∃ before after, email.toList = before ++ '@' :: after ∧ before ≠ [] ∧
          ∃ u v, after = u ++ '.' :: v ∧ u ≠ [] ∧ v ≠ [] :=
  emailRegexTest_iff email

/-- Claim C29. Validation in the page and on the server agree on a submission whose
`name`, `email` and `message` are absent or strings: one that `validateForm` accepts
passes `validateInquiry` exactly when its name has at most 255 characters, and one that
passes `validateInquiry` is accepted by `validateForm`. -/
theorem validateForm_agrees_with_validateInquiry (data : InquiryBody) :
    (validateForm data = true →
        (validateInquiry data = Validation.next ↔
          ∀ name, data.name = some name → jsLength name ≤ 255)) ∧
      (validateInquiry data = Validation.next → validateForm data = true) := by
  constructor
  · intro hf
    obtain ⟨n, e, m, h1, h2, h3, h4, h5, h6⟩ := (validateForm_iff data).1 hf
    constructor
    · intro hv name hname
      obtain ⟨n2, e2, m2, k1, -, -, -, -, k6, -⟩ := (validateInquiry_next_iff data).1 hv
      rw [k1] at hname
      rw [← Option.some.inj hname]
      exact k6
    · intro hlen
      exact (validateInquiry_next_iff data).2 ⟨n, e, m, h1, h2, h3, h4, h5, hlen n h1, h6⟩
  · intro hv
    obtain ⟨n, e, m, h1, h2, h3, h4, h5, -, h6⟩ := (validateInquiry_next_iff data).1 hv
    exact (validateForm_iff data).2 ⟨n, e, m, h1, h2, h3, h4, h5, h6⟩

/-- Witness of C29: the sample submission is accepted in the page and on the server. -/
theorem validateForm_agrees_with_validateInquiry_witness :
    validateForm sampleInquiryBody = true ∧
      (∀ name, sampleInquiryBody.name = some name → jsLength name ≤ 255) ∧
      validateInquiry sampleInquiryBody = Validation.next ∧
      validateForm sampleInquiryBody = true :=
  ⟨by decide,
    ((validateForm_agrees_with_validateInquiry sampleInquiryBody).1 (by decide)).1
      (by decide),
    ((validateForm_agrees_with_validateInquiry sampleInquiryBody).1 (by decide)).2
      (((validateForm_agrees_with_validateInquiry sampleInquiryBody).1 (by decide)).1
        (by decide)),
    (validateForm_agrees_with_validateInquiry sampleInquiryBody).2 (by decide)⟩

/-- Claim C30. For every input `calculateLeadScore` returns a whole number between 0 and
100; the result never exceeds 90 and is a multiple of 5, so the cap
`Math.min(score, 100)` never changes the score. -/
theorem calculateLeadScore_bounds (data : LeadData) :
    0 ≤ calculateLeadScore data ∧ calculateLeadScore data ≤ 100 ∧
      calculateLeadScore data ≤ 90 ∧ 5 ∣ calculateLeadScore data ∧
      calculateLeadScore data = leadScoreSum data := by
  obtain ⟨a, b, c, d, e, f, hsum, ha, hb, hc, hd, he, hf⟩ := leadScoreSum_cases data
  have h90 : leadScoreSum data ≤ 90 := by omega
  have h5 : 5 ∣ leadScoreSum data := by omega
  have heq : calculateLeadScore data = leadScoreSum data := by
    unfold calculateLeadScore
    omega
  rw [heq]
  exact ⟨Nat.zero_le _, by omega, h90, h5, rfl⟩

end Docucloud
